import Mathlib

/-! # Connection tracking, header accounting and callbacks of `node_http_parser.cc`

A shallow embedding of the host side of the HTTP parser binding
(`src/node_http_parser.cc`): the `ParserComparator`, the two ordered sets of
`ConnectionsList`, the parser callbacks that move a parser between them, the
`Expired` query and the header-size accounting of `TrackHeader` /
`TrackTrailer`.

Parsers are identified by their address (a natural number); the fields of the
C++ object live in a heap `Nat → Parser`, because the comparator of the sets
reads a mutable field of the object a set element points to.
-/

namespace NodeHttpParser

/-! ## Machine integers -/

/-- Modulus of `uint64_t` / `size_t` arithmetic. -/
def UINT64_MOD : Nat := 2 ^ 64

/-- Modulus of `uint32_t` arithmetic. -/
def UINT32_MOD : Nat := 2 ^ 32

/-! ## `struct Data` -/

/-- The helper `struct Data`: the bytes `data_[0 .. size_)`. `size_` is the
length of the list. -/
abbrev Data := List Char

/-- `Data::Reset`, lines 100-107: afterwards `size_ == 0`. -/
def Data.Reset (_d : Data) : Data := []

/-- `Data::Set(str, size)`, lines 109-117: a copy of the first `size` bytes of
`str`. -/
def Data.Set (_d : Data) (str : List Char) (size : Nat) : Data := str.take size

/-- The member `size_`. -/
def Data.size_ (d : Data) : Nat := d.length

/-- `Data::ToString`, lines 119-124. -/
def Data.ToString (d : Data) : List Char :=
  if d.size_ != 0 then d else []

/-- The bytes `' '` and `'\t'` that `ToTrimmedString` strips. -/
def isTrailingSpace (c : Char) : Bool :=
  c == Char.ofNat 32 || c == Char.ofNat 9

/-- The loop of `Data::ToTrimmedString`, lines 130-133: from `size`, step down
while `size > 0` and `data_[size - 1]` is a space or a tab. -/
def trimmedSize (data_ : List Char) : Nat → Nat
  | 0 => 0
  | size + 1 =>
    if isTrailingSpace (data_.getD size (Char.ofNat 0)) then trimmedSize data_ size
    else size + 1

/-- `Data::ToTrimmedString`, lines 126-136. -/
def Data.ToTrimmedString (d : Data) : List Char :=
  if d.size_ == 0 then [] else d.take (trimmedSize d d.size_)

/-! ## `class Parser` (host object) -/

/-- The fields of `struct milo::Parser` (milo.h) that the host reads or
writes. -/
structure MiloParser where
  error_code : Nat := 0
  mode : Nat := 0
  method : Nat := 0
  status : Nat := 0
  version_major : Nat := 0
  version_minor : Nat := 0
  connection : Nat := 0
  is_connect : Bool := false
  has_upgrade : Bool := false
  skip_body : Bool := false

/-- The data members of the host `Parser` used by the connection tracking and
the header accounting (lines 1191-1216). `connectionsList_` is `true` when the
pointer is not `nullptr`. The four arrays of `Data` are given by their element
at each index; `parser_` is the object the pointer refers to. -/
structure Parser where
  url_ : Data
  status_message_ : Data
  error_code_ : Data
  error_reason_ : Data
  num_header_fields_ : Nat
  num_header_values_ : Nat
  num_trailer_fields_ : Nat
  num_trailer_values_ : Nat
  headers_flushed_ : Bool
  trailers_flushed_ : Bool
  got_exception_ : Bool
  headers_completed_ : Bool
  trailers_completed_ : Bool
  heades_nread_ : Nat
  trailers_nread_ : Nat
  max_http_header_size_ : Nat
  max_http_trailer_size_ : Nat
  last_message_start_ : Nat
  connectionsList_ : Bool
  parser_ : MiloParser := {}
  header_fields_ : Nat → Data := fun _ => []
  header_values_ : Nat → Data := fun _ => []
  trailer_fields_ : Nat → Data := fun _ => []
  trailer_values_ : Nat → Data := fun _ => []

/-- A parser object with every counter zero, every flag clear and no list. -/
def Parser.blank : Parser :=
  { url_ := [], status_message_ := [], error_code_ := [], error_reason_ := [],
    num_header_fields_ := 0, num_header_values_ := 0,
    num_trailer_fields_ := 0, num_trailer_values_ := 0,
    headers_flushed_ := false, trailers_flushed_ := false,
    got_exception_ := false, headers_completed_ := false,
    trailers_completed_ := false, heades_nread_ := 0, trailers_nread_ := 0,
    max_http_header_size_ := 0, max_http_trailer_size_ := 0,
    last_message_start_ := 0, connectionsList_ := false }

/-- The heap: the parser object stored at each address. -/
abbrev Heap := Nat → Parser

/-- Replace the object stored at address `a`. -/
def Heap.store (h : Heap) (a : Nat) (v : Parser) : Heap :=
  fun b => if b = a then v else h b

/-! ## `ParserComparator` -/

/-- `ParserComparator::operator()`, lines 1221-1233. `lhs < rhs` on pointers is
the comparison of the addresses. -/
def ParserComparator (h : Heap) (lhs rhs : Nat) : Bool :=
  if (h lhs).last_message_start_ == 0 && (h rhs).last_message_start_ == 0 then
    decide (lhs < rhs)
  else if (h lhs).last_message_start_ == 0 then
    true
  else if (h rhs).last_message_start_ == 0 then
    false
  else
    decide ((h lhs).last_message_start_ < (h rhs).last_message_start_)

/-- The comparator as the specification words it, case by case: identity
order when both are idle, `true` when only `a` is idle, `false` when only `b`
is idle, timestamp order otherwise. -/
def specCmp (h : Heap) (a b : Nat) : Bool :=
  match decide ((h a).last_message_start_ = 0),
        decide ((h b).last_message_start_ = 0) with
  | true, true => decide (a < b)
  | true, false => true
  | false, true => false
  | false, false =>
      decide ((h a).last_message_start_ < (h b).last_message_start_)

/-! ## `std::set<Parser*, ParserComparator>`

The set is represented by its in-order sequence. `insert` places the key at
its lower bound unless the element found there is equivalent to the key
(neither is less than the other); `erase(key)` removes the equal range of the
key.

This is what the container does on a sequence that is ordered for the current
keys (`Ordered` below). When a key has been changed in place, so that the
sequence is no longer ordered, the container searches its tree by comparisons
that no longer agree with the positions, and what `insert` and `erase` do then
depends on the shape of the tree: on such a sequence the two definitions are
not the code. What is stated below of their results is stated for ordered
sequences. -/

/-- `std::set::insert(x)`. -/
def setInsert {α : Type} (lt : α → α → Bool) (x : α) : List α → List α
  | [] => [x]
  | y :: ys =>
    if lt y x then y :: setInsert lt x ys
    else if lt x y then x :: y :: ys
    else y :: ys

/-- From the lower bound of `key` on: drop the elements that are not greater
than `key` (up to the upper bound). -/
def eraseRun {α : Type} (lt : α → α → Bool) (key : α) : List α → List α
  | [] => []
  | y :: ys => if lt key y then y :: ys else eraseRun lt key ys

/-- `std::set::erase(key)`: skip the elements less than `key` (to the lower
bound), then remove the equal range. -/
def setErase {α : Type} (lt : α → α → Bool) (key : α) : List α → List α
  | [] => []
  | y :: ys =>
    if lt y key then y :: setErase lt key ys else eraseRun lt key (y :: ys)

/-- Two keys are equivalent for the set when neither is less than the other. -/
def equiv {α : Type} (lt : α → α → Bool) (a b : α) : Bool :=
  !lt a b && !lt b a

/-- The class invariant of the ordered set: the in-order sequence is strictly
increasing for the comparator. -/
def Ordered {α : Type} (lt : α → α → Bool) (l : List α) : Prop :=
  l.Pairwise (fun a b => lt a b = true)

instance {α : Type} (lt : α → α → Bool) (l : List α) :
    Decidable (Ordered lt l) :=
  inferInstanceAs (Decidable (l.Pairwise (fun a b => lt a b = true)))

/-- What an ordered container requires of its comparator: a strict weak
ordering. -/
structure StrictWeak {α : Type} (lt : α → α → Bool) : Prop where
  irrefl : ∀ a, lt a a = false
  trans : ∀ a b c, lt a b = true → lt b c = true → lt a c = true
  incomp : ∀ a b c, lt a b = false → lt b a = false → lt b c = false →
    lt c b = false → lt a c = false ∧ lt c a = false

/-! ## `class ConnectionsList` and the program state -/

/-- The heap of parser objects and the two sets of the one connections list
(lines 192-193). -/
structure State where
  parsers : Heap
  all_connections_ : List Nat
  active_connections_ : List Nat

/-- `ConnectionsList::Push`, lines 166-168. -/
def Push (s : State) (parser : Nat) : State :=
  { s with all_connections_ :=
      setInsert (ParserComparator s.parsers) parser s.all_connections_ }

/-- `ConnectionsList::Pop`, lines 170-172. -/
def Pop (s : State) (parser : Nat) : State :=
  { s with all_connections_ :=
      setErase (ParserComparator s.parsers) parser s.all_connections_ }

/-- `ConnectionsList::PushActive`, lines 174-176. -/
def PushActive (s : State) (parser : Nat) : State :=
  { s with active_connections_ :=
      setInsert (ParserComparator s.parsers) parser s.active_connections_ }

/-- `ConnectionsList::PopActive`, lines 178-180. -/
def PopActive (s : State) (parser : Nat) : State :=
  { s with active_connections_ :=
      setErase (ParserComparator s.parsers) parser s.active_connections_ }

/-- `ConnectionsList::All`, lines 1242-1257. -/
def All (s : State) : List Nat := s.all_connections_

/-- `ConnectionsList::Idle`, lines 1259-1276. -/
def Idle (s : State) : List Nat :=
  s.all_connections_.filter
    (fun parser => (s.parsers parser).last_message_start_ == 0)

/-- `ConnectionsList::Active`, lines 1278-1293. -/
def Active (s : State) : List Nat := s.active_connections_

/-! ## Parser callbacks and methods that touch the list -/

/-- Write the object `q` at the address `p`; the sets are not touched. -/
def storeParser (s : State) (p : Nat) (q : Parser) : State :=
  { s with parsers := Heap.store s.parsers p q }

/-- Lines 216-219 / 457-460 / 617-620: the two pops, guarded by
`connectionsList_ != nullptr`. -/
def popFromLists (s : State) (p : Nat) : State :=
  if (s.parsers p).connectionsList_ then PopActive (Pop s p) p else s

/-- Lines 221-232 of `on_message_start`: the field assignments, among them
`last_message_start_ = uv_hrtime()`. -/
def messageStartFields (q : Parser) (now : Nat) : Parser :=
  { q with
    num_header_fields_ := 0, num_header_values_ := 0,
    num_trailer_fields_ := 0, num_trailer_values_ := 0,
    headers_completed_ := false, trailers_completed_ := false,
    headers_flushed_ := false, trailers_flushed_ := false,
    last_message_start_ := now,
    url_ := Data.Reset q.url_,
    status_message_ := Data.Reset q.status_message_,
    error_code_ := Data.Reset q.error_code_,
    error_reason_ := Data.Reset q.error_reason_ }

/-- The state of `on_message_start` at the moment `last_message_start_` is
assigned (after lines 216-219). -/
def on_message_start_atAssign (s : State) (p : Nat) : State :=
  popFromLists s p

/-- `Parser::on_message_start`, lines 212-237 (the list and field updates;
`now` is the value returned by `uv_hrtime()`). -/
def on_message_start (s : State) (p : Nat) (now : Nat) : State :=
  let s1 := on_message_start_atAssign s p
  let s2 := storeParser s1 p (messageStartFields (s1.parsers p) now)
  if (s2.parsers p).connectionsList_ then PushActive (Push s2 p) p else s2

/-- Line 462 of `on_message_complete`: `last_message_start_ = 0`. -/
def messageCompleteFields (q : Parser) : Parser :=
  { q with last_message_start_ := 0 }

/-- The state of `on_message_complete` at the moment `last_message_start_` is
assigned (after lines 457-460). -/
def on_message_complete_atAssign (s : State) (p : Nat) : State :=
  popFromLists s p

/-- `Parser::on_message_complete`, lines 451-466 (the list and field
updates). -/
def on_message_complete (s : State) (p : Nat) : State :=
  let s1 := on_message_complete_atAssign s p
  let s2 := storeParser s1 p (messageCompleteFields (s1.parsers p))
  if (s2.parsers p).connectionsList_ then Push s2 p else s2

/-- `Parser::Remove`, lines 613-621. -/
def Remove (s : State) (p : Nat) : State := popFromLists s p

/-- `Parser::Init`, lines 1066-1087 (the host fields). -/
def Init (q : Parser) (max_http_header_size : Nat) : Parser :=
  { q with
    heades_nread_ := 0, trailers_nread_ := 0,
    url_ := Data.Reset q.url_,
    status_message_ := Data.Reset q.status_message_,
    error_code_ := Data.Reset q.error_code_,
    error_reason_ := Data.Reset q.error_reason_,
    num_header_fields_ := 0, num_header_values_ := 0,
    num_trailer_fields_ := 0, num_trailer_values_ := 0,
    headers_flushed_ := false, trailers_flushed_ := false,
    got_exception_ := false,
    headers_completed_ := false, trailers_completed_ := false,
    max_http_header_size_ := max_http_header_size,
    max_http_trailer_size_ := max_http_header_size }

/-- Lines 679-692 of `Parser::Initialize`: the limit is the third argument,
or the environment option when that is absent or zero. -/
def resolveMaxHeaderSize (arg2 : Option Nat) (env_max : Nat) : Nat :=
  let m := match arg2 with
    | some v => v % UINT64_MOD
    | none => 0
  if m == 0 then env_max else m

/-- Lines 714-717 / 729 of `Parser::Initialize`: `Init` and the assignment of
`connectionsList_` (`withList` is `connectionsList != nullptr`). -/
def initializeFields (q : Parser) (arg2 : Option Nat) (env_max : Nat)
    (withList : Bool) : Parser :=
  { (Init q (resolveMaxHeaderSize arg2 env_max)) with
    connectionsList_ := withList }

/-- Line 722 of `Parser::Initialize`: `last_message_start_ = uv_hrtime()`. -/
def initializeTimestamp (q : Parser) (now : Nat) : Parser :=
  { q with last_message_start_ := now }

/-- The state of `Parser::Initialize` at the moment `last_message_start_` is
assigned (line 722): `Init` has run and `connectionsList_` is set; the sets
have not been touched. -/
def Initialize_atAssign (s : State) (p : Nat) (arg2 : Option Nat)
    (env_max : Nat) : State :=
  storeParser s p (initializeFields (s.parsers p) arg2 env_max true)

/-- `Parser::Initialize`, lines 676-731. `withList` says whether a connections
list was passed as fourth argument; `now` is the value of `uv_hrtime()`. A
fourth argument comes with a third, which line 686 `CHECK`s to be a number: the
code receives `withList = true` together with `arg2 = some v` only. For
`arg2 = none` the definition gives what it gives for `some 0`. -/
def Initialize (s : State) (p : Nat) (arg2 : Option Nat) (env_max : Nat)
    (withList : Bool) (now : Nat) : State :=
  if withList then
    let s1 := Initialize_atAssign s p arg2 env_max
    let s2 := storeParser s1 p (initializeTimestamp (s1.parsers p) now)
    PushActive (Push s2 p) p
  else
    storeParser s p (initializeFields (s.parsers p) arg2 env_max false)

/-! ## `ConnectionsList::Expired` -/

/-- Lines 1303-1306: a `uint32_t` argument in milliseconds, widened to
`uint64_t` and multiplied by `1000000`. -/
def toNanos (arg : Nat) : Nat := ((arg % UINT32_MOD) * 1000000) % UINT64_MOD

/-- Lines 1310-1312: the pair `(headers_timeout, request_timeout)` after the
conditional `std::swap`. -/
def normalizeTimeouts (headers_timeout request_timeout : Nat) : Nat × Nat :=
  if request_timeout > 0 && headers_timeout > request_timeout then
    (request_timeout, headers_timeout)
  else
    (headers_timeout, request_timeout)

/-- Lines 1320-1325: a deadline from the clock and a timeout. -/
def deadline (timeout now : Nat) : Nat :=
  if timeout > 0 && now > timeout then now - timeout else 0

/-- Lines 1341-1347: the expiration test of one parser. -/
def isExpired (h : Heap) (headers_deadline request_deadline : Nat)
    (parser : Nat) : Bool :=
  (!(h parser).headers_completed_ && decide (headers_deadline > 0) &&
    decide ((h parser).last_message_start_ < headers_deadline)) ||
  (decide (request_deadline > 0) &&
    decide ((h parser).last_message_start_ < request_deadline))

/-- Lines 1336-1352: the walk over the active set. The first list is what the
iterator has still to visit; the result is the collected parsers and the
active set at the end. -/
def expiredLoop (h : Heap) (headers_deadline request_deadline : Nat) :
    List Nat → List Nat → List Nat × List Nat
  | [], active => ([], active)
  | parser :: rest, active =>
    if isExpired h headers_deadline request_deadline parser then
      let r := expiredLoop h headers_deadline request_deadline rest
        (setErase (ParserComparator h) parser active)
      (parser :: r.1, r.2)
    else
      expiredLoop h headers_deadline request_deadline rest active

/-- `ConnectionsList::Expired`, lines 1295-1356: the returned array and the
state afterwards. `arg0`, `arg1` are the two millisecond arguments and `now`
the value of `uv_hrtime()`. -/
def Expired (s : State) (arg0 arg1 : Nat) (now : Nat) : List Nat × State :=
  let headers_timeout := toNanos arg0
  let request_timeout := toNanos arg1
  if headers_timeout == 0 && request_timeout == 0 then
    ([], s)
  else
    let t := normalizeTimeouts headers_timeout request_timeout
    let headers_deadline := deadline t.1 now
    let request_deadline := deadline t.2 now
    if headers_deadline == 0 && request_deadline == 0 then
      ([], s)
    else
      let r := expiredLoop s.parsers headers_deadline request_deadline
        s.active_connections_ s.active_connections_
      (r.1, { s with active_connections_ := r.2 })

/-! ## Header-size accounting -/

/-- The literal recorded as error code on overflow (line 1162). -/
def HPE_HEADER_OVERFLOW : List Char := "HPE_HEADER_OVERFLOW".toList

/-- The literal recorded as error reason on overflow (line 1164). -/
def headerOverflowReason : List Char := "Header overflow".toList

/-- `Parser::TrackHeader`, lines 1158-1168: the returned `int` and the parser
afterwards. -/
def TrackHeader (q : Parser) (len : Nat) : Nat × Parser :=
  let q1 := { q with heades_nread_ := (q.heades_nread_ + len) % UINT64_MOD }
  if q1.heades_nread_ >= q1.max_http_header_size_ then
    (1, { q1 with
          error_code_ := Data.Set q1.error_code_ HPE_HEADER_OVERFLOW 19,
          error_reason_ := Data.Set q1.error_reason_ headerOverflowReason 15 })
  else
    (0, q1)

/-- `Parser::TrackTrailer`, lines 1170-1180. -/
def TrackTrailer (q : Parser) (len : Nat) : Nat × Parser :=
  let q1 := { q with trailers_nread_ := (q.trailers_nread_ + len) % UINT64_MOD }
  if q1.trailers_nread_ >= q1.max_http_trailer_size_ then
    (1, { q1 with
          error_code_ := Data.Set q1.error_code_ HPE_HEADER_OVERFLOW 19,
          error_reason_ := Data.Set q1.error_reason_ headerOverflowReason 15 })
  else
    (0, q1)

/-! ## The JavaScript side of the callbacks -/

/-- `kMaxHeaderFieldsCount` and `kMaxTrailerFieldsCount`, lines 70-71. -/
def kMaxHeaderFieldsCount : Nat := 32

/-- `milo::REQUEST` (milo.h). -/
def REQUEST : Nat := 1

/-- `milo::RESPONSE` (milo.h). -/
def RESPONSE : Nat := 2

/-- `milo::CONNECTION_CLOSE` (milo.h). -/
def CONNECTION_CLOSE : Nat := 1

/-- What happens when the host looks up a slot of the wrapper object
(`kOnHeaders`, `kOnHeadersComplete`, ...) and calls it: the slot holds no
function; or the call throws (an empty handle comes back); or it returns a
value, of which `val` is what `IntegerValue(context).To(&val)` yields (`none`
when that conversion fails). -/
inductive Slot where
  | absent
  | throws
  | returns (val : Option Int)

/-- Some of the values a JavaScript handler can return: `undefined`, a Number
whose value is the integer `n` (of the range of `int64_t`), the Number `NaN`,
and a Symbol. -/
inductive JsValue where
  | undefined
  | integer (n : Int)
  | nan
  | symbol

/-- Whether the value is an integer. -/
def JsValue.isInteger : JsValue → Bool
  | .integer _ => true
  | _ => false

/-- Modelled from the spec: `Value::IntegerValue(context)` belongs to V8, which
is not under src/, and the specification does not describe it. It converts the
value to a Number and the Number to an `int64_t`: an integer Number gives its
value, `NaN` gives 0, `undefined` converts to `NaN` and so gives 0 as well; the
conversion of a Symbol to a Number throws, and then nothing is given. -/
def JsValue.IntegerValue : JsValue → Option Int
  | .undefined => some 0
  | .integer n => some n
  | .nan => some 0
  | .symbol => none

/-- The slot of a handler that returns the value `v`. -/
def Slot.returning (v : JsValue) : Slot := Slot.returns v.IntegerValue

/-- The argument vector of the headers-complete handler, lines 335-395; an
entry left `undefined` is `none`. -/
structure HeadersCompleteArgs where
  versionMajor : Nat
  versionMinor : Nat
  headers : Option (List (List Char))
  method : Option Nat
  url : Option (List Char)
  statusCode : Option Nat
  statusMessage : Option (List Char)
  upgrade : Bool
  shouldKeepAlive : Bool

/-- A call of a JavaScript handler, with its arguments. -/
inductive JsCall where
  | onMessageBegin
  | onHeaders (headers : List (List Char)) (url : List Char)
  | onHeadersComplete (argv : HeadersCompleteArgs)
  | onBody (buffer : List Char)
  | onTrailers (trailers : List (List Char))
  | onTrailersComplete (trailers : Option (List (List Char)))
  | onMessageComplete

/-- What a callback hands back: the value returned to milo, the host object
afterwards, and the JavaScript calls it made, in order. -/
structure CbResult where
  rv : Int
  parser : Parser
  calls : List JsCall

/-- Store `v` at index `i` of an array of `Data`. -/
def setAt (a : Nat → Data) (i : Nat) (v : Data) : Nat → Data :=
  fun j => if j = i then v else a j

/-- The loop of `CreateHeaders` / `CreateTrailers`, lines 992-995 and
1007-1010: for `i < n`, the name by `ToString` and the value by
`ToTrimmedString`. -/
def headerPairs (fields values : Nat → Data) : Nat → List (List Char)
  | 0 => []
  | n + 1 =>
    headerPairs fields values n ++
      [Data.ToString (fields n), Data.ToTrimmedString (values n)]

/-- `Parser::CreateHeaders`, lines 986-998. -/
def CreateHeaders (q : Parser) : List (List Char) :=
  headerPairs q.header_fields_ q.header_values_ q.num_header_values_

/-- `Parser::CreateTrailers`, lines 1001-1013. -/
def CreateTrailers (q : Parser) : List (List Char) :=
  headerPairs q.trailer_fields_ q.trailer_values_ q.num_trailer_values_

/-- `Parser::FlushHeaders`, lines 1017-1040; `slot` is the `kOnHeaders` slot. -/
def FlushHeaders (q : Parser) (slot : Slot) : Parser × List JsCall :=
  match slot with
  | .absent => (q, [])
  | .throws =>
    ({ q with got_exception_ := true, url_ := Data.Reset q.url_,
              headers_flushed_ := true },
     [JsCall.onHeaders (CreateHeaders q) (Data.ToString q.url_)])
  | .returns _ =>
    ({ q with url_ := Data.Reset q.url_, headers_flushed_ := true },
     [JsCall.onHeaders (CreateHeaders q) (Data.ToString q.url_)])

/-- `Parser::FlushTrailers`, lines 1043-1064; `slot` is the `kOnTrailers`
slot. -/
def FlushTrailers (q : Parser) (slot : Slot) : Parser × List JsCall :=
  match slot with
  | .absent => (q, [])
  | .throws =>
    ({ q with got_exception_ := true, trailers_flushed_ := true },
     [JsCall.onTrailers (CreateTrailers q)])
  | .returns _ =>
    ({ q with trailers_flushed_ := true },
     [JsCall.onTrailers (CreateTrailers q)])

/-! ## The callbacks on the host object

A callback with `CHECK`s returns `none` when a `CHECK` fails (the process
aborts). -/

/-- Lines 239-252 of `on_message_start`: the `kOnMessageBegin` handler; a
throwing handler only marks the callback scope. -/
def on_message_start_js (q : Parser) (slot : Slot) : CbResult :=
  match slot with
  | .absent => { rv := 0, parser := q, calls := [] }
  | _ => { rv := 0, parser := q, calls := [JsCall.onMessageBegin] }

/-- `Parser::on_url`, lines 255-265. -/
def on_url (q : Parser) (data : List Char) (length : Nat) : CbResult :=
  let r := TrackHeader q length
  if r.1 != 0 then { rv := 1, parser := r.2, calls := [] }
  else
    let d := Data.Set r.2.url_ data length
    { rv := 0, parser := { r.2 with url_ := d }, calls := [] }

/-- `Parser::on_reason`, lines 268-278. -/
def on_reason (q : Parser) (data : List Char) (length : Nat) : CbResult :=
  let r := TrackHeader q length
  if r.1 != 0 then { rv := 1, parser := r.2, calls := [] }
  else
    let d := Data.Set r.2.status_message_ data length
    { rv := 0, parser := { r.2 with status_message_ := d }, calls := [] }

/-- Lines 291-297 of `on_header_name`: count the new field and, when the
count reaches `kMaxHeaderFieldsCount`, flush and restart at one field. -/
def startHeaderField (q : Parser) (flush : Slot) : Parser × List JsCall :=
  let n := (q.num_header_fields_ + 1) % UINT64_MOD
  let q1 := { q with num_header_fields_ := n }
  if q1.num_header_fields_ == kMaxHeaderFieldsCount then
    let f := FlushHeaders q1 flush
    ({ f.1 with num_header_fields_ := 1, num_header_values_ := 0 }, f.2)
  else
    (q1, [])

/-- `Parser::on_header_name`, lines 281-305; `flush` is the `kOnHeaders`
slot. -/
def on_header_name (q : Parser) (data : List Char) (length : Nat)
    (flush : Slot) : Option CbResult :=
  let r := TrackHeader q length
  if r.1 != 0 then some { rv := r.1, parser := r.2, calls := [] }
  else if r.2.num_header_fields_ != r.2.num_header_values_ then none
  else
    let f := startHeaderField r.2 flush
    let i := f.1.num_header_fields_ - 1
    let d := Data.Set (f.1.header_fields_ i) data length
    let q3 := { f.1 with header_fields_ := setAt f.1.header_fields_ i d }
    if !(decide (q3.num_header_fields_ < kMaxHeaderFieldsCount)) then none
    else if q3.num_header_fields_ != q3.num_header_values_ + 1 then none
    else some { rv := 0, parser := q3, calls := f.2 }

/-- `Parser::on_header_value`, lines 308-324. -/
def on_header_value (q : Parser) (data : List Char) (length : Nat) :
    Option CbResult :=
  let r := TrackHeader q length
  if r.1 != 0 then some { rv := r.1, parser := r.2, calls := [] }
  else if r.2.num_header_values_ == r.2.num_header_fields_ then none
  else
    let n := (r.2.num_header_values_ + 1) % UINT64_MOD
    let d := Data.Set (r.2.header_values_ (n - 1)) data length
    let a := setAt r.2.header_values_ (n - 1) d
    let q2 := { r.2 with num_header_values_ := n, header_values_ := a }
    if !(decide (q2.num_header_values_ < kMaxHeaderFieldsCount)) then none
    else if q2.num_header_values_ != q2.num_header_fields_ then none
    else some { rv := 0, parser := q2, calls := [] }

/-- Lines 362-373 of `on_headers`: flush the remaining headers when some were
flushed before, else pass the headers (and the URL of a request) as
arguments; then clear the two counts. The result is the host object, the
calls made, and the `A_HEADERS` and `A_URL` arguments. -/
def headersArguments (q : Parser) (flush : Slot) :
    Parser × List JsCall × Option (List (List Char)) × Option (List Char) :=
  if q.headers_flushed_ then
    let f := FlushHeaders q flush
    ({ f.1 with num_header_fields_ := 0, num_header_values_ := 0 }, f.2,
      none, none)
  else
    ({ q with num_header_fields_ := 0, num_header_values_ := 0 }, [],
      some (CreateHeaders q),
      if q.parser_.mode == REQUEST then some (Data.ToString q.url_) else none)

/-- Lines 375-395 of `on_headers`: the argument vector of the handler. -/
def headersCompleteArgs (q : Parser) (headers : Option (List (List Char)))
    (url : Option (List Char)) : HeadersCompleteArgs :=
  { versionMajor := q.parser_.version_major,
    versionMinor := q.parser_.version_minor,
    headers := headers,
    method := if q.parser_.mode == REQUEST then some q.parser_.method else none,
    url := url,
    statusCode :=
      if q.parser_.mode == REQUEST then none else some q.parser_.status,
    statusMessage :=
      if q.parser_.mode == REQUEST then none
      else some (Data.ToString q.status_message_),
    upgrade := q.parser_.is_connect || q.parser_.has_upgrade,
    shouldKeepAlive := q.parser_.connection != CONNECTION_CLOSE }

/-- Line 416: `parser_->skip_body = 1`. -/
def setSkipBody (q : Parser) : Parser :=
  { q with parser_ := { q.parser_ with skip_body := true } }

/-- `Parser::on_headers`, lines 327-420; `flush` is the `kOnHeaders` slot and
`complete` the `kOnHeadersComplete` slot. -/
def on_headers (q : Parser) (flush complete : Slot) : CbResult :=
  let q1 := { q with headers_completed_ := true, heades_nread_ := 0 }
  match complete with
  | .absent => { rv := 0, parser := q1, calls := [] }
  | .throws =>
    let a := headersArguments q1 flush
    { rv := -1, parser := { a.1 with got_exception_ := true },
      calls := a.2.1 ++ [JsCall.onHeadersComplete
        (headersCompleteArgs a.1 a.2.2.1 a.2.2.2)] }
  | .returns none =>
    let a := headersArguments q1 flush
    { rv := -1, parser := { a.1 with got_exception_ := true },
      calls := a.2.1 ++ [JsCall.onHeadersComplete
        (headersCompleteArgs a.1 a.2.2.1 a.2.2.2)] }
  | .returns (some val) =>
    let a := headersArguments q1 flush
    { rv := 0, parser := if val > 0 then setSkipBody a.1 else a.1,
      calls := a.2.1 ++ [JsCall.onHeadersComplete
        (headersCompleteArgs a.1 a.2.2.1 a.2.2.2)] }

/-- `Parser::on_body`, lines 423-448 (installed as `on_data`); `slot` is the
`kOnBody` slot. -/
def on_body (q : Parser) (data : List Char) (length : Nat) (slot : Slot) :
    CbResult :=
  if length == 0 then { rv := 0, parser := q, calls := [] }
  else
    match slot with
    | .absent => { rv := 0, parser := q, calls := [] }
    | .throws =>
      { rv := 1, parser := { q with got_exception_ := true },
        calls := [JsCall.onBody (data.take length)] }
    | .returns _ =>
      { rv := 0, parser := q, calls := [JsCall.onBody (data.take length)] }

/-- Lines 468-491 of `on_message_complete`, after the list update: flush the
trailers when some were flushed before, then the `kOnMessageComplete`
handler. -/
def on_message_complete_js (q : Parser) (flush complete : Slot) : CbResult :=
  let f := if q.trailers_flushed_ then FlushTrailers q flush else (q, [])
  match complete with
  | .absent => { rv := 0, parser := f.1, calls := f.2 }
  | .throws =>
    { rv := 1, parser := { f.1 with got_exception_ := true },
      calls := f.2 ++ [JsCall.onMessageComplete] }
  | .returns _ =>
    { rv := 0, parser := f.1, calls := f.2 ++ [JsCall.onMessageComplete] }

/-- Lines 503-509 of `on_trailer_name`: count the new field and, when the
count reaches `kMaxTrailerFieldsCount`, flush and restart at one field. -/
def startTrailerField (q : Parser) (flush : Slot) : Parser × List JsCall :=
  let n := (q.num_trailer_fields_ + 1) % UINT64_MOD
  let q1 := { q with num_trailer_fields_ := n }
  if q1.num_trailer_fields_ == kMaxHeaderFieldsCount then
    let f := FlushTrailers q1 flush
    ({ f.1 with num_trailer_fields_ := 1, num_trailer_values_ := 0 }, f.2)
  else
    (q1, [])

/-- `Parser::on_trailer_name`, lines 495-517; `flush` is the `kOnTrailers`
slot. -/
def on_trailer_name (q : Parser) (data : List Char) (length : Nat)
    (flush : Slot) : Option CbResult :=
  let r := TrackTrailer q length
  if r.1 != 0 then some { rv := r.1, parser := r.2, calls := [] }
  else
    let f := startTrailerField r.2 flush
    let i := f.1.num_trailer_fields_ - 1
    let d := Data.Set (f.1.trailer_fields_ i) data length
    let q3 := { f.1 with trailer_fields_ := setAt f.1.trailer_fields_ i d }
    if !(decide (q3.num_trailer_fields_ < kMaxHeaderFieldsCount)) then none
    else if q3.num_trailer_fields_ != q3.num_trailer_values_ + 1 then none
    else some { rv := 0, parser := q3, calls := f.2 }

/-- `Parser::on_trailer_value`, lines 520-536. -/
def on_trailer_value (q : Parser) (data : List Char) (length : Nat) :
    Option CbResult :=
  let r := TrackTrailer q length
  if r.1 != 0 then some { rv := r.1, parser := r.2, calls := [] }
  else if r.2.num_trailer_values_ == r.2.num_trailer_fields_ then none
  else
    let n := (r.2.num_trailer_values_ + 1) % UINT64_MOD
    let d := Data.Set (r.2.trailer_values_ (n - 1)) data length
    let a := setAt r.2.trailer_values_ (n - 1) d
    let q2 := { r.2 with num_trailer_values_ := n, trailer_values_ := a }
    if !(decide (q2.num_trailer_values_ < kMaxHeaderFieldsCount)) then none
    else if q2.num_trailer_values_ != q2.num_trailer_fields_ then none
    else some { rv := 0, parser := q2, calls := [] }

/-- `static_cast<int>` of an `int64_t`: the value modulo `2 ^ 32`, as a signed
32-bit integer. -/
def toInt32 (v : Int) : Int := (v + 2 ^ 31) % 2 ^ 32 - 2 ^ 31

/-- Lines 554-564 of `on_trailers`: flush the remaining trailers when some
were flushed before, else pass the trailers as argument; then clear the two
counts. -/
def trailersArguments (q : Parser) (flush : Slot) :
    Parser × List JsCall × Option (List (List Char)) :=
  if q.trailers_flushed_ then
    let f := FlushTrailers q flush
    ({ f.1 with num_trailer_fields_ := 0, num_trailer_values_ := 0 }, f.2, none)
  else
    ({ q with num_trailer_fields_ := 0, num_trailer_values_ := 0 }, [],
      some (CreateTrailers q))

/-- `Parser::on_trailers`, lines 539-585; `flush` is the `kOnTrailers` slot and
`complete` the `kOnTrailersComplete` slot. -/
def on_trailers (q : Parser) (flush complete : Slot) : CbResult :=
  let q1 := { q with trailers_completed_ := true, trailers_nread_ := 0 }
  match complete with
  | .absent => { rv := 0, parser := q1, calls := [] }
  | .throws =>
    let a := trailersArguments q1 flush
    { rv := -1, parser := { a.1 with got_exception_ := true },
      calls := a.2.1 ++ [JsCall.onTrailersComplete a.2.2] }
  | .returns none =>
    let a := trailersArguments q1 flush
    { rv := -1, parser := { a.1 with got_exception_ := true },
      calls := a.2.1 ++ [JsCall.onTrailersComplete a.2.2] }
  | .returns (some val) =>
    let a := trailersArguments q1 flush
    { rv := toInt32 val, parser := a.1,
      calls := a.2.1 ++ [JsCall.onTrailersComplete a.2.2] }

/-- The callbacks the host installs in `InitParser` (lines 1093-1104), each
with its arguments, the clock reading it takes and the slots it calls. -/
inductive Event where
  | message_start (now : Nat) (begin_ : Slot)
  | url (data : List Char) (length : Nat)
  | reason (data : List Char) (length : Nat)
  | header_name (data : List Char) (length : Nat) (flush : Slot)
  | header_value (data : List Char) (length : Nat)
  | headers (flush complete : Slot)
  | body (data : List Char) (length : Nat) (slot : Slot)
  | trailer_name (data : List Char) (length : Nat) (flush : Slot)
  | trailer_value (data : List Char) (length : Nat)
  | trailers (flush complete : Slot)
  | message_complete (flush complete : Slot)

/-- The effect of one callback on the host object; `none` when a `CHECK`
fails. For the two message callbacks this is the object side of the callback;
the sets of the connections list are handled by `on_message_start` and
`on_message_complete` above. -/
def Event.run (q : Parser) : Event → Option CbResult
  | .message_start now begin_ =>
    some (on_message_start_js (messageStartFields q now) begin_)
  | .url data length => some (on_url q data length)
  | .reason data length => some (on_reason q data length)
  | .header_name data length flush => on_header_name q data length flush
  | .header_value data length => on_header_value q data length
  | .headers flush complete => some (on_headers q flush complete)
  | .body data length slot => some (on_body q data length slot)
  | .trailer_name data length flush => on_trailer_name q data length flush
  | .trailer_value data length => on_trailer_value q data length
  | .trailers flush complete => some (on_trailers q flush complete)
  | .message_complete flush complete =>
    some (on_message_complete_js (messageCompleteFields q) flush complete)

/-- Deliver a sequence of callbacks, whatever each returns; `none` when a
`CHECK` fails on the way. -/
def runEvents : Parser → List Event → Option Parser
  | q, [] => some q
  | q, e :: es =>
    match e.run q with
    | none => none
    | some r => runEvents r.parser es

/-- Which callbacks add their span to the header byte count, and the length
they add: `on_url`, `on_reason`, `on_header_name` and `on_header_value` call
`TrackHeader(length)`. -/
def Event.headerSpan : Event → Option Nat
  | .url _ length => some length
  | .reason _ length => some length
  | .header_name _ length _ => some length
  | .header_value _ length => some length
  | _ => none

/-- Which callbacks add their span to the trailer byte count:
`on_trailer_name` and `on_trailer_value` call `TrackTrailer(length)`. -/
def Event.trailerSpan : Event → Option Nat
  | .trailer_name _ length _ => some length
  | .trailer_value _ length => some length
  | _ => none

/-- The callback that resets the header byte count: `on_headers` (line 330). -/
def Event.resetsHeaderCount : Event → Bool
  | .headers _ _ => true
  | _ => false

/-- The callback that resets the trailer byte count: `on_trailers`
(line 542). -/
def Event.resetsTrailerCount : Event → Bool
  | .trailers _ _ => true
  | _ => false

/-- The bytes a callback adds to the header byte count. -/
def Event.headerBytes (e : Event) : Nat := e.headerSpan.getD 0

/-- The bytes a callback adds to the trailer byte count. -/
def Event.trailerBytes (e : Event) : Nat := e.trailerSpan.getD 0

/-- The header byte count as the specification words it: the lengths passed
to `on_header_name` and `on_header_value` only. -/
def Event.nameValueBytes : Event → Nat
  | .header_name _ length _ => length
  | .header_value _ length => length
  | _ => 0

/-! ## `Parser::Execute` -/

/-- `milo::ERROR_NONE` (milo.h). -/
def ERROR_NONE : Nat := 0

/-- `milo::ERROR_UNEXPECTED_CONTENT_LENGTH` (milo.h). -/
def ERROR_UNEXPECTED_CONTENT_LENGTH : Nat := 5

/-- `milo::ERROR_UNEXPECTED_TRANSFER_ENCODING` (milo.h). -/
def ERROR_UNEXPECTED_TRANSFER_ENCODING : Nat := 6

/-- `milo::ERROR_INVALID_CONTENT_LENGTH` (milo.h). -/
def ERROR_INVALID_CONTENT_LENGTH : Nat := 11

/-- The literal surfaced for the two framing errors (line 949). -/
def HPE_UNEXPECTED_CONTENT_LENGTH : List Char :=
  "HPE_UNEXPECTED_CONTENT_LENGTH".toList

/-- The functions of the milo library that `Execute` calls. They are declared
in milo.h and implemented outside the host; `Execute` is stated for any
implementation. `milo_parse` and `milo_finish` run the callbacks, so they
take and return the host object; strings are given without their terminating
NUL. -/
structure MiloApi where
  milo_parse : Parser → List Char → Nat → Nat × Parser
  milo_finish : Parser → Parser
  milo_error_code_string : MiloParser → List Char
  milo_error_description_string : MiloParser → List Char

/-- Modelled from the spec: the names `milo_error_code_string` returns. The
function is implemented in the milo library, of which only the header is
present; section 6 of the specification lists the error-code names by index
0..15. -/
def milo_error_code_name : Nat → List Char
  | 0 => "NONE".toList
  | 1 => "UNEXPECTED_DATA".toList
  | 2 => "UNEXPECTED_EOF".toList
  | 3 => "CALLBACK_ERROR".toList
  | 4 => "UNEXPECTED_CHARACTER".toList
  | 5 => "UNEXPECTED_CONTENT_LENGTH".toList
  | 6 => "UNEXPECTED_TRANSFER_ENCODING".toList
  | 7 => "UNEXPECTED_CONTENT".toList
  | 8 => "UNTRAILERS".toList
  | 9 => "INVALID_VERSION".toList
  | 10 => "INVALID_STATUS".toList
  | 11 => "INVALID_CONTENT_LENGTH".toList
  | 12 => "INVALID_TRANSFER_ENCODING".toList
  | 13 => "INVALID_CHUNK_SIZE".toList
  | 14 => "MISSING_CONNECTION_UPGRADE".toList
  | 15 => "UNSUPPORTED_HTTP_VERSION".toList
  | _ => []

/-- What `Parser::Execute` returns: an empty handle, the number of bytes
parsed, or an error object with its `bytesParsed`, `code` and `reason`. The
number is the `Integer` of line 923, which is signed. -/
inductive ExecuteReturn where
  | empty
  | bytes (nread : Int)
  | error (bytesParsed : Int) (code : List Char) (reason : List Char)
  deriving DecidableEq

/-- `snprintf(buf, size, "MILO_%s", s)`: at most `size - 1` characters of the
formatted text are stored (then the NUL), nothing when `size` is 0. -/
def snprintf_MILO (size : Nat) (s : List Char) : List Char :=
  ("MILO_".toList ++ s).take (size - 1)

/-- Lines 951-957 of `Execute`: the buffer of `strlen + 6` bytes and the
formatted code. -/
def miloCode (error_code_string : List Char) : List Char :=
  snprintf_MILO (error_code_string.length + 6) error_code_string

/-- Lines 937-967 of `Execute`: the code and the reason put on the error
object, for the host object `q` after parsing and the error code `err`. -/
def surfaced (api : MiloApi) (q : Parser) (err : Nat) :
    List Char × List Char :=
  if q.error_code_.size_ > 0 then
    (Data.ToString q.error_code_, Data.ToString q.error_reason_)
  else
    (if err == ERROR_UNEXPECTED_TRANSFER_ENCODING ||
        err == ERROR_INVALID_CONTENT_LENGTH then
       HPE_UNEXPECTED_CONTENT_LENGTH
     else
       miloCode (api.milo_error_code_string q.parser_),
     api.milo_error_description_string q.parser_)

/-- Line 923 of `Execute`: `Integer::New(isolate, nread)`. The parameter of
`Integer::New` is an `int32_t`, so the `uintptr_t` count is narrowed: its
value modulo `2 ^ 32`, as a signed 32-bit integer. -/
def nreadInteger (nread : Nat) : Int := toInt32 (nread : Int)

/-- Lines 914-982 of `Execute`: what is returned once the milo call is over,
for the host object `q1` it leaves, the error code `previous_err` read before
the call, the count `nread` and whether `data` was the null pointer. -/
def executeReturn (api : MiloApi) (q1 : Parser) (previous_err nread : Nat)
    (isFinish : Bool) : ExecuteReturn :=
  let err := q1.parser_.error_code
  if q1.got_exception_ then ExecuteReturn.empty
  else if err != ERROR_NONE && err != previous_err then
    ExecuteReturn.error (nreadInteger nread) (surfaced api q1 err).1
      (surfaced api q1 err).2
  else if isFinish then ExecuteReturn.empty
  else ExecuteReturn.bytes (nreadInteger nread)

/-- Lines 897-912 of `Execute`: clear `got_exception_` and call `milo_parse`,
or `milo_finish` when `data` is the null pointer; the count read and the host
object afterwards. -/
def executeMilo (api : MiloApi) (q : Parser) (data : Option (List Char))
    (len : Nat) : Nat × Parser :=
  match data with
  | some d => api.milo_parse { q with got_exception_ := false } d len
  | none => (0, api.milo_finish { q with got_exception_ := false })

/-- `Parser::Execute(data, len)`, lines 892-983: what it returns and the host
object afterwards. `data` is `none` for the null pointer `Finish` passes. -/
def Execute (api : MiloApi) (q : Parser) (data : Option (List Char))
    (len : Nat) : ExecuteReturn × Parser :=
  let previous_err := q.parser_.error_code
  let p := executeMilo api q data len
  (executeReturn api p.2 previous_err p.1 data.isNone, p.2)

/-- A stand-in for the milo library that reports the error `err` after
consuming 3 bytes and runs no callback; its names are those of the
specification. -/
def failingApi (err : Nat) : MiloApi :=
  { milo_parse := fun q _ _ => (3, { q with parser_ := { q.parser_ with error_code := err } }),
    milo_finish := fun q => { q with parser_ := { q.parser_ with error_code := err } },
    milo_error_code_string := fun mp => milo_error_code_name mp.error_code,
    milo_error_description_string := fun _ => "reason".toList }

/-- `milo::ERROR_UNEXPECTED_DATA` (milo.h). -/
def ERROR_UNEXPECTED_DATA : Nat := 1

/-- `milo::ERROR_UNEXPECTED_EOF` (milo.h). -/
def ERROR_UNEXPECTED_EOF : Nat := 2

/-- `milo::ERROR_CALLBACK_ERROR` (milo.h). -/
def ERROR_CALLBACK_ERROR : Nat := 3

/-- `milo::ERROR_UNEXPECTED_CHARACTER` (milo.h). -/
def ERROR_UNEXPECTED_CHARACTER : Nat := 4

/-- `milo::ERROR_UNEXPECTED_CONTENT` (milo.h). -/
def ERROR_UNEXPECTED_CONTENT : Nat := 7

/-- `milo::ERROR_UNTRAILERS` (milo.h). -/
def ERROR_UNTRAILERS : Nat := 8

/-- `milo::ERROR_INVALID_VERSION` (milo.h). -/
def ERROR_INVALID_VERSION : Nat := 9

/-- `milo::ERROR_INVALID_STATUS` (milo.h). -/
def ERROR_INVALID_STATUS : Nat := 10

/-- `milo::ERROR_INVALID_TRANSFER_ENCODING` (milo.h). -/
def ERROR_INVALID_TRANSFER_ENCODING : Nat := 12

/-- `milo::ERROR_INVALID_CHUNK_SIZE` (milo.h). -/
def ERROR_INVALID_CHUNK_SIZE : Nat := 13

/-- `milo::ERROR_MISSING_CONNECTION_UPGRADE` (milo.h). -/
def ERROR_MISSING_CONNECTION_UPGRADE : Nat := 14

/-- `milo::ERROR_UNSUPPORTED_HTTP_VERSION` (milo.h). -/
def ERROR_UNSUPPORTED_HTTP_VERSION : Nat := 15

/-- The `ERROR_*` constants of milo.h, lines 82-112, in the order of their
declaration: the name after `ERROR_` and the value. -/
def ERROR_constants : List (String × Nat) :=
  [("NONE", ERROR_NONE), ("UNEXPECTED_DATA", ERROR_UNEXPECTED_DATA),
   ("UNEXPECTED_EOF", ERROR_UNEXPECTED_EOF),
   ("CALLBACK_ERROR", ERROR_CALLBACK_ERROR),
   ("UNEXPECTED_CHARACTER", ERROR_UNEXPECTED_CHARACTER),
   ("UNEXPECTED_CONTENT_LENGTH", ERROR_UNEXPECTED_CONTENT_LENGTH),
   ("UNEXPECTED_TRANSFER_ENCODING", ERROR_UNEXPECTED_TRANSFER_ENCODING),
   ("UNEXPECTED_CONTENT", ERROR_UNEXPECTED_CONTENT),
   ("UNTRAILERS", ERROR_UNTRAILERS),
   ("INVALID_VERSION", ERROR_INVALID_VERSION),
   ("INVALID_STATUS", ERROR_INVALID_STATUS),
   ("INVALID_CONTENT_LENGTH", ERROR_INVALID_CONTENT_LENGTH),
   ("INVALID_TRANSFER_ENCODING", ERROR_INVALID_TRANSFER_ENCODING),
   ("INVALID_CHUNK_SIZE", ERROR_INVALID_CHUNK_SIZE),
   ("MISSING_CONNECTION_UPGRADE", ERROR_MISSING_CONNECTION_UPGRADE),
   ("UNSUPPORTED_HTTP_VERSION", ERROR_UNSUPPORTED_HTTP_VERSION)]

/-- `milo::METHOD_ACL` (milo.h). -/
def METHOD_ACL : Nat := 0

/-- `milo::METHOD_BASELINE_CONTROL` (milo.h). -/
def METHOD_BASELINE_CONTROL : Nat := 1

/-- `milo::METHOD_BIND` (milo.h). -/
def METHOD_BIND : Nat := 2

/-- `milo::METHOD_CHECKIN` (milo.h). -/
def METHOD_CHECKIN : Nat := 3

/-- `milo::METHOD_CHECKOUT` (milo.h). -/
def METHOD_CHECKOUT : Nat := 4

/-- `milo::METHOD_CONNECT` (milo.h). -/
def METHOD_CONNECT : Nat := 5

/-- `milo::METHOD_COPY` (milo.h). -/
def METHOD_COPY : Nat := 6

/-- `milo::METHOD_DELETE` (milo.h). -/
def METHOD_DELETE : Nat := 7

/-- `milo::METHOD_GET` (milo.h). -/
def METHOD_GET : Nat := 8

/-- `milo::METHOD_HEAD` (milo.h). -/
def METHOD_HEAD : Nat := 9

/-- `milo::METHOD_LABEL` (milo.h). -/
def METHOD_LABEL : Nat := 10

/-- `milo::METHOD_LINK` (milo.h). -/
def METHOD_LINK : Nat := 11

/-- `milo::METHOD_LOCK` (milo.h). -/
def METHOD_LOCK : Nat := 12

/-- `milo::METHOD_MERGE` (milo.h). -/
def METHOD_MERGE : Nat := 13

/-- `milo::METHOD_MKACTIVITY` (milo.h). -/
def METHOD_MKACTIVITY : Nat := 14

/-- `milo::METHOD_MKCALENDAR` (milo.h). -/
def METHOD_MKCALENDAR : Nat := 15

/-- `milo::METHOD_MKCOL` (milo.h). -/
def METHOD_MKCOL : Nat := 16

/-- `milo::METHOD_MKREDIRECTREF` (milo.h). -/
def METHOD_MKREDIRECTREF : Nat := 17

/-- `milo::METHOD_MKWORKSPACE` (milo.h). -/
def METHOD_MKWORKSPACE : Nat := 18

/-- `milo::METHOD_MOVE` (milo.h). -/
def METHOD_MOVE : Nat := 19

/-- `milo::METHOD_OPTIONS` (milo.h). -/
def METHOD_OPTIONS : Nat := 20

/-- `milo::METHOD_ORDERPATCH` (milo.h). -/
def METHOD_ORDERPATCH : Nat := 21

/-- `milo::METHOD_PATCH` (milo.h). -/
def METHOD_PATCH : Nat := 22

/-- `milo::METHOD_POST` (milo.h). -/
def METHOD_POST : Nat := 23

/-- `milo::METHOD_PRI` (milo.h). -/
def METHOD_PRI : Nat := 24

/-- `milo::METHOD_PROPFIND` (milo.h). -/
def METHOD_PROPFIND : Nat := 25

/-- `milo::METHOD_PROPPATCH` (milo.h). -/
def METHOD_PROPPATCH : Nat := 26

/-- `milo::METHOD_PUT` (milo.h). -/
def METHOD_PUT : Nat := 27

/-- `milo::METHOD_REBIND` (milo.h). -/
def METHOD_REBIND : Nat := 28

/-- `milo::METHOD_REPORT` (milo.h). -/
def METHOD_REPORT : Nat := 29

/-- `milo::METHOD_SEARCH` (milo.h). -/
def METHOD_SEARCH : Nat := 30

/-- `milo::METHOD_TRACE` (milo.h). -/
def METHOD_TRACE : Nat := 31

/-- `milo::METHOD_UNBIND` (milo.h). -/
def METHOD_UNBIND : Nat := 32

/-- `milo::METHOD_UNCHECKOUT` (milo.h). -/
def METHOD_UNCHECKOUT : Nat := 33

/-- `milo::METHOD_UNLINK` (milo.h). -/
def METHOD_UNLINK : Nat := 34

/-- `milo::METHOD_UNLOCK` (milo.h). -/
def METHOD_UNLOCK : Nat := 35

/-- `milo::METHOD_UPDATE` (milo.h). -/
def METHOD_UPDATE : Nat := 36

/-- `milo::METHOD_UPDATEREDIRECTREF` (milo.h). -/
def METHOD_UPDATEREDIRECTREF : Nat := 37

/-- `milo::METHOD_VERSION_CONTROL` (milo.h). -/
def METHOD_VERSION_CONTROL : Nat := 38

/-- `milo::METHOD_DESCRIBE` (milo.h). -/
def METHOD_DESCRIBE : Nat := 39

/-- `milo::METHOD_GET_PARAMETER` (milo.h). -/
def METHOD_GET_PARAMETER : Nat := 40

/-- `milo::METHOD_PAUSE` (milo.h). -/
def METHOD_PAUSE : Nat := 41

/-- `milo::METHOD_PLAY` (milo.h). -/
def METHOD_PLAY : Nat := 42

/-- `milo::METHOD_PLAY_NOTIFY` (milo.h). -/
def METHOD_PLAY_NOTIFY : Nat := 43

/-- `milo::METHOD_REDIRECT` (milo.h). -/
def METHOD_REDIRECT : Nat := 44

/-- `milo::METHOD_SETUP` (milo.h). -/
def METHOD_SETUP : Nat := 45

/-- `milo::METHOD_SET_PARAMETER` (milo.h). -/
def METHOD_SET_PARAMETER : Nat := 46

/-- `milo::METHOD_TEARDOWN` (milo.h). -/
def METHOD_TEARDOWN : Nat := 47

/-- `milo::METHOD_PURGE` (milo.h). -/
def METHOD_PURGE : Nat := 48

/-- The `METHOD_*` constants of milo.h, lines 114-210, in the order of their
declaration: the name after `METHOD_` and the value. -/
def METHOD_constants : List (String × Nat) :=
  [("ACL", METHOD_ACL), ("BASELINE_CONTROL", METHOD_BASELINE_CONTROL),
   ("BIND", METHOD_BIND), ("CHECKIN", METHOD_CHECKIN),
   ("CHECKOUT", METHOD_CHECKOUT), ("CONNECT", METHOD_CONNECT),
   ("COPY", METHOD_COPY), ("DELETE", METHOD_DELETE), ("GET", METHOD_GET),
   ("HEAD", METHOD_HEAD), ("LABEL", METHOD_LABEL), ("LINK", METHOD_LINK),
   ("LOCK", METHOD_LOCK), ("MERGE", METHOD_MERGE),
   ("MKACTIVITY", METHOD_MKACTIVITY), ("MKCALENDAR", METHOD_MKCALENDAR),
   ("MKCOL", METHOD_MKCOL), ("MKREDIRECTREF", METHOD_MKREDIRECTREF),
   ("MKWORKSPACE", METHOD_MKWORKSPACE), ("MOVE", METHOD_MOVE),
   ("OPTIONS", METHOD_OPTIONS), ("ORDERPATCH", METHOD_ORDERPATCH),
   ("PATCH", METHOD_PATCH), ("POST", METHOD_POST), ("PRI", METHOD_PRI),
   ("PROPFIND", METHOD_PROPFIND), ("PROPPATCH", METHOD_PROPPATCH),
   ("PUT", METHOD_PUT), ("REBIND", METHOD_REBIND), ("REPORT", METHOD_REPORT),
   ("SEARCH", METHOD_SEARCH), ("TRACE", METHOD_TRACE),
   ("UNBIND", METHOD_UNBIND), ("UNCHECKOUT", METHOD_UNCHECKOUT),
   ("UNLINK", METHOD_UNLINK), ("UNLOCK", METHOD_UNLOCK),
   ("UPDATE", METHOD_UPDATE),
   ("UPDATEREDIRECTREF", METHOD_UPDATEREDIRECTREF),
   ("VERSION_CONTROL", METHOD_VERSION_CONTROL),
   ("DESCRIBE", METHOD_DESCRIBE), ("GET_PARAMETER", METHOD_GET_PARAMETER),
   ("PAUSE", METHOD_PAUSE), ("PLAY", METHOD_PLAY),
   ("PLAY_NOTIFY", METHOD_PLAY_NOTIFY), ("REDIRECT", METHOD_REDIRECT),
   ("SETUP", METHOD_SETUP), ("SET_PARAMETER", METHOD_SET_PARAMETER),
   ("TEARDOWN", METHOD_TEARDOWN), ("PURGE", METHOD_PURGE)]

/-- One line `EACH(num, name, string)` of the macro `MILO_METHODS_MAP`. -/
structure MethodEntry where
  num : Nat
  name : String
  string : String
  deriving DecidableEq

/-- The macro `MILO_METHODS_MAP` of milo.h, lines 15-64: its lines in order. -/
def MILO_METHODS_MAP : List MethodEntry :=
  [⟨0, "ACL", "ACL"⟩, ⟨1, "BASELINE_CONTROL", "BASELINE_CONTROL"⟩,
   ⟨2, "BIND", "BIND"⟩, ⟨3, "CHECKIN", "CHECKIN"⟩,
   ⟨4, "CHECKOUT", "CHECKOUT"⟩, ⟨5, "CONNECT", "CONNECT"⟩,
   ⟨6, "COPY", "COPY"⟩, ⟨7, "DELETE", "DELETE"⟩, ⟨8, "GET", "GET"⟩,
   ⟨9, "HEAD", "HEAD"⟩, ⟨10, "LABEL", "LABEL"⟩, ⟨11, "LINK", "LINK"⟩,
   ⟨12, "LOCK", "LOCK"⟩, ⟨13, "MERGE", "MERGE"⟩,
   ⟨14, "MKACTIVITY", "MKACTIVITY"⟩, ⟨15, "MKCALENDAR", "MKCALENDAR"⟩,
   ⟨16, "MKCOL", "MKCOL"⟩, ⟨17, "MKREDIRECTREF", "MKREDIRECTREF"⟩,
   ⟨18, "MKWORKSPACE", "MKWORKSPACE"⟩, ⟨19, "MOVE", "MOVE"⟩,
   ⟨20, "OPTIONS", "OPTIONS"⟩, ⟨21, "ORDERPATCH", "ORDERPATCH"⟩,
   ⟨22, "PATCH", "PATCH"⟩, ⟨23, "POST", "POST"⟩, ⟨24, "PRI", "PRI"⟩,
   ⟨25, "PROPFIND", "PROPFIND"⟩, ⟨26, "PROPPATCH", "PROPPATCH"⟩,
   ⟨27, "PUT", "PUT"⟩, ⟨28, "REBIND", "REBIND"⟩, ⟨29, "REPORT", "REPORT"⟩,
   ⟨30, "SEARCH", "SEARCH"⟩, ⟨31, "TRACE", "TRACE"⟩,
   ⟨32, "UNBIND", "UNBIND"⟩, ⟨33, "UNCHECKOUT", "UNCHECKOUT"⟩,
   ⟨34, "UNLINK", "UNLINK"⟩, ⟨35, "UNLOCK", "UNLOCK"⟩,
   ⟨36, "UPDATE", "UPDATE"⟩, ⟨37, "UPDATEREDIRECTREF", "UPDATEREDIRECTREF"⟩,
   ⟨38, "VERSION_CONTROL", "VERSION_CONTROL"⟩, ⟨39, "DESCRIBE", "DESCRIBE"⟩,
   ⟨40, "GET_PARAMETER", "GET_PARAMETER"⟩, ⟨41, "PAUSE", "PAUSE"⟩,
   ⟨42, "PLAY", "PLAY"⟩, ⟨43, "PLAY_NOTIFY", "PLAY_NOTIFY"⟩,
   ⟨44, "REDIRECT", "REDIRECT"⟩, ⟨45, "SETUP", "SETUP"⟩,
   ⟨46, "SET_PARAMETER", "SET_PARAMETER"⟩, ⟨47, "TEARDOWN", "TEARDOWN"⟩,
   ⟨48, "PURGE", "PURGE"⟩]

/-- A JavaScript array of strings: `none` is a hole (`undefined`). -/
abbrev JsArray := List (Option String)

/-- The call `array->Set(context, index, value)` on an array: the element at
`index` is replaced; an index at or past the end extends the array, leaving
holes in between. -/
def JsArray.Set (a : JsArray) (index : Nat) (value : String) : JsArray :=
  if index < a.length then List.set a index (some value)
  else a ++ List.replicate (index - a.length) none ++ [some value]

/-- Lines 1392-1400 of `InitializeHttpParser`: the exported `methods` array,
an empty array on which the macro `V(num, name, string)` stores `#string` at
index `num` for every line of `MILO_METHODS_MAP`. -/
def methods : JsArray :=
  MILO_METHODS_MAP.foldl (fun a e => JsArray.Set a e.num e.string) []

/-- The test of `TrackHeader` / `TrackTrailer` along a sequence of callbacks:
from the byte count `nread`, the count (in the 64-bit counter) stays below the
limit `max` as each of the lengths is added. -/
def withinLimit (nread max : Nat) : List Nat → Bool
  | [] => true
  | len :: lens =>
    decide ((nread + len) % UINT64_MOD < max) &&
      withinLimit ((nread + len) % UINT64_MOD) max lens

/-- A header or a trailer as milo delivers it: the bytes of the name, the bytes
of the value, and what the flush slot (`kOnHeaders` or `kOnTrailers`) holds
when the name is delivered. -/
structure HeaderField where
  name : List Char
  value : List Char
  flush : Slot

/-- The strictly alternating callbacks `on_header_name`, `on_header_value` of a
sequence of headers. -/
def headerEvents : List HeaderField → List Event
  | [] => []
  | f :: fs =>
    Event.header_name f.name f.name.length f.flush ::
      Event.header_value f.value f.value.length :: headerEvents fs

/-- The strictly alternating callbacks `on_trailer_name`, `on_trailer_value`
of a sequence of trailers. -/
def trailerEvents : List HeaderField → List Event
  | [] => []
  | f :: fs =>
    Event.trailer_name f.name f.name.length f.flush ::
      Event.trailer_value f.value f.value.length :: trailerEvents fs

/-- The lengths passed to the callbacks of a sequence of headers or
trailers. -/
def fieldLengths : List HeaderField → List Nat
  | [] => []
  | f :: fs => f.name.length :: f.value.length :: fieldLengths fs

/-- The index of `header_fields_` at which `on_header_name` stores the name
(line 299), called on the host object `q`: `num_header_fields_ - 1` after
`TrackHeader` and the count and flush of lines 291-297. -/
def headerNameIndex (q : Parser) (length : Nat) (flush : Slot) : Nat :=
  (startHeaderField (TrackHeader q length).2 flush).1.num_header_fields_ - 1

/-- The index of `header_values_` at which `on_header_value` stores the value
(line 319): `num_header_values_ - 1` after the increment of line 318. -/
def headerValueIndex (q : Parser) (length : Nat) : Nat :=
  ((TrackHeader q length).2.num_header_values_ + 1) % UINT64_MOD - 1

/-- The index of `trailer_fields_` at which `on_trailer_name` stores the name
(line 511). -/
def trailerNameIndex (q : Parser) (length : Nat) (flush : Slot) : Nat :=
  (startTrailerField (TrackTrailer q length).2 flush).1.num_trailer_fields_ - 1

/-- The index of `trailer_values_` at which `on_trailer_value` stores the
value (line 531). -/
def trailerValueIndex (q : Parser) (length : Nat) : Nat :=
  ((TrackTrailer q length).2.num_trailer_values_ + 1) % UINT64_MOD - 1

/-- The headers a JavaScript call receives: the first argument of the flush
handler (`kOnHeaders`), the `A_HEADERS` argument of the headers-complete
handler when it is not `undefined`. -/
def JsCall.headers : JsCall → List (List Char)
  | .onHeaders headers _ => headers
  | .onHeadersComplete argv => argv.headers.getD []
  | _ => []

/-- The concatenation, in call order, of the header arrays passed to
JavaScript. -/
def deliveredHeaders : List JsCall → List (List Char)
  | [] => []
  | c :: cs => c.headers ++ deliveredHeaders cs

/-- The names and trimmed values of a sequence of headers, in order. -/
def expectedHeaders : List HeaderField → List (List Char)
  | [] => []
  | f :: fs => f.name :: Data.ToTrimmedString f.value :: expectedHeaders fs

/-- Deliver a sequence of callbacks and collect the JavaScript calls they
make, in order; `none` when a `CHECK` fails on the way. -/
def deliver : Parser → List Event → Option (Parser × List JsCall)
  | q, [] => some (q, [])
  | q, e :: es =>
    match e.run q with
    | none => none
    | some r =>
      match deliver r.parser es with
      | none => none
      | some d => some (d.1, r.calls ++ d.2)

/-- What the `CHECK`s of `on_header_name` and `on_header_value` ask, for one
header delivered to the host object `q`, with `r1` what `on_header_name` hands
back and `r2` what `on_header_value` hands back after it. -/
structure HeaderStep (q : Parser) (f : HeaderField) (r1 r2 : CbResult) : Prop where
  entryName : q.num_header_fields_ = q.num_header_values_
  name : on_header_name q f.name f.name.length f.flush = some r1
  nameReturns : r1.rv = 0
  fieldsLt : r1.parser.num_header_fields_ < kMaxHeaderFieldsCount
  fieldsEq : r1.parser.num_header_fields_ = r1.parser.num_header_values_ + 1
  fieldsPos : 1 ≤ r1.parser.num_header_fields_
  nameIndex : headerNameIndex q f.name.length f.flush < kMaxHeaderFieldsCount
  entryValue : r1.parser.num_header_values_ ≠ r1.parser.num_header_fields_
  value : on_header_value r1.parser f.value f.value.length = some r2
  valueReturns : r2.rv = 0
  valuesLt : r2.parser.num_header_values_ < kMaxHeaderFieldsCount
  valuesEq : r2.parser.num_header_values_ = r2.parser.num_header_fields_
  valuesPos : 1 ≤ r2.parser.num_header_values_
  valueIndex : headerValueIndex r1.parser f.value.length < kMaxHeaderFieldsCount
  flushIff : f.flush ≠ Slot.absent →
    (r1.calls ≠ [] ↔ q.num_header_values_ = 31)

/-- What the `CHECK`s of `on_trailer_name` and `on_trailer_value` ask, for one
trailer delivered to the host object `q` (`on_trailer_name` has no `CHECK` on
entry; the two counts agree there all the same). -/
structure TrailerStep (q : Parser) (f : HeaderField) (r1 r2 : CbResult) : Prop where
  entryName : q.num_trailer_fields_ = q.num_trailer_values_
  name : on_trailer_name q f.name f.name.length f.flush = some r1
  nameReturns : r1.rv = 0
  fieldsLt : r1.parser.num_trailer_fields_ < kMaxHeaderFieldsCount
  fieldsEq : r1.parser.num_trailer_fields_ = r1.parser.num_trailer_values_ + 1
  fieldsPos : 1 ≤ r1.parser.num_trailer_fields_
  nameIndex : trailerNameIndex q f.name.length f.flush < kMaxHeaderFieldsCount
  entryValue : r1.parser.num_trailer_values_ ≠ r1.parser.num_trailer_fields_
  value : on_trailer_value r1.parser f.value f.value.length = some r2
  valueReturns : r2.rv = 0
  valuesLt : r2.parser.num_trailer_values_ < kMaxHeaderFieldsCount
  valuesEq : r2.parser.num_trailer_values_ = r2.parser.num_trailer_fields_
  valuesPos : 1 ≤ r2.parser.num_trailer_values_
  valueIndex : trailerValueIndex r1.parser f.value.length < kMaxHeaderFieldsCount

/-! ## Sequences of host operations -/

/-- The operations of the host that touch the connections list. -/
inductive Op where
  | init (p : Nat) (arg2 : Option Nat) (env_max : Nat) (withList : Bool)
      (now : Nat)
  | messageStart (p : Nat) (now : Nat)
  | messageComplete (p : Nat)
  | remove (p : Nat)
  | expired (arg0 arg1 now : Nat)

/-- The program state together with the bookkeeping of which parsers are
tracked: initialized with the list and not removed since. -/
structure Tracker where
  state : State
  tracked : Nat → Bool

/-- Before any operation: no parser has a list, both sets are empty, nothing
is tracked. -/
def Tracker.init : Tracker :=
  { state := { parsers := fun _ => Parser.blank, all_connections_ := [],
               active_connections_ := [] },
    tracked := fun _ => false }

/-- One operation: the effect of the code on the state, and on the
bookkeeping (`Initialize` with a list starts tracking, `Remove` ends it). -/
def Op.apply (t : Tracker) : Op → Tracker
  | .init p arg2 env_max withList now =>
    { state := Initialize t.state p arg2 env_max withList now,
      tracked := fun q => if q = p then withList else t.tracked q }
  | .messageStart p now =>
    { t with state := on_message_start t.state p now }
  | .messageComplete p =>
    { t with state := on_message_complete t.state p }
  | .remove p =>
    { state := Remove t.state p,
      tracked := fun q => if q = p then false else t.tracked q }
  | .expired arg0 arg1 now =>
    { t with state := (Expired t.state arg0 arg1 now).2 }

/-- The one condition on a sequence: `Initialize` is applied to a parser that
is not currently tracked. -/
def initializeOnUntracked (t : Tracker) : Op → Bool
  | .init p _ _ _ _ => !t.tracked p
  | _ => true

/-- The stricter protocol: moreover the message callbacks are delivered only
to a parser that is currently tracked or that has no connections list. -/
def callbacksOnTracked (t : Tracker) : Op → Bool
  | .init p _ _ _ _ => !t.tracked p
  | .messageStart p _ => t.tracked p || !(t.state.parsers p).connectionsList_
  | .messageComplete p => t.tracked p || !(t.state.parsers p).connectionsList_
  | _ => true

/-- Run a sequence of operations, each of which must satisfy `ok` in the state
it is applied to; `none` when one does not. -/
def run (ok : Tracker → Op → Bool) : Tracker → List Op → Option Tracker
  | t, [] => some t
  | t, op :: ops => if ok t op then run ok (op.apply t) ops else none

/-- The invariant the operations maintain: both sets are ordered for the
current timestamps, their members are tracked, every tracked idle parser is in
`all`, and every tracked parser points to the list. -/
structure Consistent (t : Tracker) : Prop where
  ordAll : Ordered (ParserComparator t.state.parsers) t.state.all_connections_
  ordActive : Ordered (ParserComparator t.state.parsers) t.state.active_connections_
  allTracked : ∀ p ∈ t.state.all_connections_, t.tracked p = true
  activeTracked : ∀ p ∈ t.state.active_connections_, t.tracked p = true
  idleInAll : ∀ p, t.tracked p = true →
    (t.state.parsers p).last_message_start_ = 0 → p ∈ t.state.all_connections_
  hasList : ∀ p, t.tracked p = true → (t.state.parsers p).connectionsList_ = true

/-! ## Clock readings and expiry bookkeeping -/

/-- The state and its bookkeeping, with two more records: which parsers
`Expired` has returned since their `last_message_start_` was last assigned,
and the clock readings (`uv_hrtime()` values) taken so far. -/
structure Ghost where
  t : Tracker
  expired : Nat → Bool
  readings : List Nat

/-- Before any operation. -/
def Ghost.init : Ghost :=
  { t := Tracker.init, expired := fun _ => false, readings := [] }

/-- The clock reading an operation takes: `Initialize` reads the clock only
when a list is passed (line 722), `on_message_start` and `Expired` always,
`on_message_complete` and `Remove` never. -/
def Op.reading : Op → Option Nat
  | .init _ _ _ withList now => if withList then some now else none
  | .messageStart _ now => some now
  | .messageComplete _ => none
  | .remove _ => none
  | .expired _ _ now => some now

/-- The parsers returned by `Expired` since their timestamp was assigned,
after one more operation. -/
def Op.expiredAfter (g : Ghost) : Op → Nat → Bool
  | .init p _ _ _ _ => fun q => if q = p then false else g.expired q
  | .messageStart p _ => fun q => if q = p then false else g.expired q
  | .messageComplete p => fun q => if q = p then false else g.expired q
  | .remove _ => g.expired
  | .expired arg0 arg1 now => fun q =>
    g.expired q || decide (q ∈ (Expired g.t.state arg0 arg1 now).1)

/-- One operation, on the state and on all the bookkeeping. -/
def Op.applyGhost (g : Ghost) (op : Op) : Ghost :=
  { t := op.apply g.t,
    expired := op.expiredAfter g,
    readings := match op.reading with
      | some now => now :: g.readings
      | none => g.readings }

/-- The clock reading of the operation, if it takes one, is non-zero and
differs from every reading taken before. -/
def freshReading (g : Ghost) (op : Op) : Bool :=
  match op.reading with
  | some now => decide (now ≠ 0) && decide (now ∉ g.readings)
  | none => true

/-- Run a sequence of operations that satisfy `ok` and whose clock readings
are non-zero and pairwise distinct; `none` otherwise. -/
def runGhost (ok : Tracker → Op → Bool) : Ghost → List Op → Option Ghost
  | g, [] => some g
  | g, op :: ops =>
    if ok g.t op && freshReading g op then runGhost ok (op.applyGhost g) ops
    else none

/-- What holds of the timestamps and of the two sets when the clock readings
are non-zero and pairwise distinct. -/
structure Tight (g : Ghost) : Prop where
  lmsUsed : ∀ p, (g.t.state.parsers p).last_message_start_ ≠ 0 →
    (g.t.state.parsers p).last_message_start_ ∈ g.readings
  distinct : ∀ p q, p ≠ q → (g.t.state.parsers p).last_message_start_ ≠ 0 →
    (g.t.state.parsers p).last_message_start_ ≠
      (g.t.state.parsers q).last_message_start_
  trackedInAll : ∀ p, g.t.tracked p = true → p ∈ g.t.state.all_connections_
  activeIff : ∀ p, p ∈ g.t.state.active_connections_ ↔
    (g.t.tracked p = true ∧ (g.t.state.parsers p).last_message_start_ ≠ 0 ∧
      g.expired p = false)

/-- A weaker condition on a sequence: `Initialize` is applied to a parser that
is not a member of `all`; the callbacks and `Remove` are applied to any
parser. -/
def initializeOnNonMember (t : Tracker) : Op → Bool
  | .init p _ _ _ _ => decide (p ∉ t.state.all_connections_)
  | _ => true

/-- What holds of the two sets and the timestamps along a run with non-zero,
pairwise distinct clock readings: the sets are ordered, `active` is a part of
`all`, the members of `all` have the list pointer, the members of `active` have
a non-zero timestamp, and the non-zero timestamps are clock readings taken
before and pairwise distinct. -/
structure Sorted (s : State) (readings : List Nat) : Prop where
  ordAll : Ordered (ParserComparator s.parsers) s.all_connections_
  ordActive : Ordered (ParserComparator s.parsers) s.active_connections_
  activeInAll : ∀ p ∈ s.active_connections_, p ∈ s.all_connections_
  hasList : ∀ p ∈ s.all_connections_, (s.parsers p).connectionsList_ = true
  activeStarted : ∀ p ∈ s.active_connections_,
    (s.parsers p).last_message_start_ ≠ 0
  lmsUsed : ∀ p, (s.parsers p).last_message_start_ ≠ 0 →
    (s.parsers p).last_message_start_ ∈ readings
  distinct : ∀ p q, p ≠ q → (s.parsers p).last_message_start_ ≠ 0 →
    (s.parsers p).last_message_start_ ≠ (s.parsers q).last_message_start_

/-- The return values of a sequence of calls of `track` (`TrackHeader` or
`TrackTrailer`) with the given lengths, and the parser afterwards. -/
def trackAll (track : Parser → Nat → Nat × Parser) :
    Parser → List Nat → List Nat × Parser
  | q, [] => ([], q)
  | q, len :: lens =>
    let r := track q len
    let rs := trackAll track r.2 lens
    (r.1 :: rs.1, rs.2)

/-! ## Concrete states used as examples -/

/-- Three parsers with a list: 1 and 2 both started a message at time 5,
parser 3 at time 9; every other address holds a blank object. -/
def exampleHeap : Heap := fun a =>
  if a = 1 then { Parser.blank with last_message_start_ := 5, connectionsList_ := true }
  else if a = 2 then { Parser.blank with last_message_start_ := 5, connectionsList_ := true }
  else if a = 3 then { Parser.blank with last_message_start_ := 9, connectionsList_ := true }
  else Parser.blank

/-- Parsers 1 and 3 are in both sets. -/
def exampleState : State :=
  { parsers := exampleHeap, all_connections_ := [1, 3],
    active_connections_ := [1, 3] }

/-- Only parser 1 is in the sets; parser 2, with the same timestamp, is not. -/
def collisionState : State :=
  { parsers := exampleHeap, all_connections_ := [1],
    active_connections_ := [1] }

/-- Two parsers initialized at the same clock reading; parser 1 completes its
message, then parser 2 starts one at clock reading 7. -/
def exampleOps : List Op :=
  [Op.init 1 (some 0) 16384 true 5, Op.init 2 (some 0) 16384 true 5,
   Op.messageComplete 1, Op.messageStart 2 7]

/-- The state and bookkeeping after `exampleOps`. -/
def exampleTracker : Tracker := exampleOps.foldl Op.apply Tracker.init

/-- A header value with leading, interior and trailing whitespace:
` a b`, then a space, a tab and a space. -/
def exampleValue : Data :=
  " a b".toList ++ [Char.ofNat 32, Char.ofNat 9, Char.ofNat 32]

/-- A parser object with limits of 100 bytes and zero counts. -/
def limit100 : Parser :=
  { Parser.blank with max_http_header_size_ := 100, max_http_trailer_size_ := 100 }

/-- A request line and one header, then the end of the headers: a URL of 5
bytes, a name of 4 bytes and a value of 3 bytes. -/
def exampleEvents : List Event :=
  [Event.message_start 5 Slot.absent, Event.url "/path".toList 5,
   Event.header_name "Host".toList 4 Slot.absent,
   Event.header_value "abc".toList 3]

/-- Parser 1 is initialized at clock reading 5; `Expired` then runs with a
headers timeout of 1 ms at clock reading 2000000. -/
def expiryOps : List Op :=
  [Op.init 1 (some 0) 16384 true 5, Op.expired 1 0 2000000]

/-- Parsers 1 and 2 are initialized at clock readings 5 and 6; parser 2
completes its message; `Expired` runs with a headers timeout of 1 ms at clock
reading 2000000. -/
def ghostOps : List Op :=
  [Op.init 1 (some 0) 16384 true 5, Op.init 2 (some 0) 16384 true 6,
   Op.messageComplete 2, Op.expired 1 0 2000000, Op.init 3 (some 0) 16384 true 2000001]

/-- The state and bookkeeping after `ghostOps`. -/
def ghostAfter : Ghost := ghostOps.foldl Op.applyGhost Ghost.init

/-- Parser 1 is initialized, removed, and starts a message all the same;
then parser 2 is initialized. The clock readings are 5, 6 and 7. -/
def lateCallbackOps : List Op :=
  [Op.init 1 (some 0) 16384 true 5, Op.remove 1, Op.messageStart 1 6,
   Op.init 2 (some 0) 16384 true 7]

/-- The run `lateCallbackOps`, after which parser 1, which is a member of the
sets again, is initialized once more, without a list, and starts a message at
clock reading 8. -/
def reinitOps : List Op :=
  lateCallbackOps ++ [Op.init 1 none 16384 false 0, Op.messageStart 1 8]

/-- Parser 1 is initialized, removed, and starts a message all the same (clock
readings 5 and 6); then it is initialized once more, without a list, and
completes the message. -/
def reinitIdleOps : List Op :=
  [Op.init 1 (some 0) 16384 true 5, Op.remove 1, Op.messageStart 1 6,
   Op.init 1 none 16384 false 0, Op.messageComplete 1]

/-- Parsers 1 and 2 are initialized at the same clock reading 5, parser 3 at
clock reading 9. -/
def twinOps : List Op :=
  [Op.init 1 (some 0) 16384 true 5, Op.init 2 (some 0) 16384 true 5,
   Op.init 3 (some 0) 16384 true 9]

/-- The state and bookkeeping after `twinOps`. -/
def twinTracker : Tracker := twinOps.foldl Op.apply Tracker.init

/-- Thirty-three headers `0: P `, `1: Q `, ... (each value with a trailing
space), with a flush handler installed. -/
def manyFields : List HeaderField :=
  (List.range 33).map (fun i =>
    { name := [Char.ofNat (48 + i)], value := [Char.ofNat (80 + i), Char.ofNat 32],
      flush := Slot.returns none })

/-- A parser object with limits of 1000 bytes and zero counts. -/
def limit1000 : Parser :=
  { Parser.blank with max_http_header_size_ := 1000, max_http_trailer_size_ := 1000 }

/-- A parser object with a header and trailer limit of 10 bytes and zero
counts. -/
def limit10 : Parser :=
  { Parser.blank with max_http_header_size_ := 10, max_http_trailer_size_ := 10 }

/-! ## The ordered set: membership and order after `insert` and `erase` -/

section generic
variable {α : Type} {lt : α → α → Bool}

theorem eraseRun_eq_filter (hsw : StrictWeak lt) (k : α) :
    ∀ l : List α, Ordered lt l → (∀ z ∈ l, lt z k = false) →
      eraseRun lt k l = l.filter (fun y => lt y k || lt k y)
  | [], _, _ => rfl
  | y :: ys, ho, hk => by
    have hy : lt y k = false := hk y (List.mem_cons_self _ _)
    have ho' : Ordered lt ys := (List.pairwise_cons.mp ho).2
    have hys : ∀ z ∈ ys, lt y z = true := (List.pairwise_cons.mp ho).1
    by_cases hky : lt k y = true
    · have hall : ∀ z ∈ ys, (lt z k || lt k z) = true := fun z hz => by
        simp [hsw.trans k y z hky (hys z hz)]
      simp [eraseRun, hky, List.filter_cons, List.filter_eq_self.mpr hall]
    · have hky' : lt k y = false := by simpa using hky
      simp only [eraseRun, hky', List.filter_cons, hy]
      simpa using eraseRun_eq_filter hsw k ys ho'
        (fun z hz => hk z (List.mem_cons_of_mem _ hz))

theorem setErase_eq_filter (hsw : StrictWeak lt) (k : α) :
    ∀ l : List α, Ordered lt l →
      setErase lt k l = l.filter (fun y => lt y k || lt k y)
  | [], _ => rfl
  | y :: ys, ho => by
    have ho' : Ordered lt ys := (List.pairwise_cons.mp ho).2
    have hys : ∀ z ∈ ys, lt y z = true := (List.pairwise_cons.mp ho).1
    by_cases hyk : lt y k = true
    · simp [setErase, hyk, List.filter_cons, setErase_eq_filter hsw k ys ho']
    · have hyk' : lt y k = false := by simpa using hyk
      have hall : ∀ z ∈ y :: ys, lt z k = false := by
        intro z hz
        rcases List.mem_cons.mp hz with rfl | hz
        · exact hyk'
        · by_contra hc
          have hc' : lt z k = true := by simpa using hc
          rw [hsw.trans y z k (hys z hz) hc'] at hyk'
          exact Bool.noConfusion hyk'
      simp only [setErase, hyk']
      simpa using eraseRun_eq_filter hsw k (y :: ys) ho hall

theorem mem_setErase (hsw : StrictWeak lt) (k : α) (l : List α)
    (ho : Ordered lt l) (z : α) :
    z ∈ setErase lt k l ↔ z ∈ l ∧ (lt z k = true ∨ lt k z = true) := by
  rw [setErase_eq_filter hsw k l ho]
  simp [List.mem_filter]

theorem ordered_setErase (hsw : StrictWeak lt) (k : α) (l : List α)
    (ho : Ordered lt l) : Ordered lt (setErase lt k l) := by
  rw [setErase_eq_filter hsw k l ho]
  exact List.Pairwise.filter _ ho

theorem mem_setInsert (hsw : StrictWeak lt) (x : α) :
    ∀ l : List α, Ordered lt l → ∀ z : α,
      (z ∈ setInsert lt x l ↔
        z ∈ l ∨ (z = x ∧ ∀ y ∈ l, lt y x = true ∨ lt x y = true))
  | [], _, z => by simp [setInsert]
  | y :: ys, ho, z => by
    have ho' : Ordered lt ys := (List.pairwise_cons.mp ho).2
    have hys : ∀ w ∈ ys, lt y w = true := (List.pairwise_cons.mp ho).1
    by_cases hyx : lt y x = true
    · simp only [setInsert, hyx, if_true, List.mem_cons,
        mem_setInsert hsw x ys ho' z]
      constructor
      · rintro (h | h | ⟨h1, h2⟩)
        · exact Or.inl (Or.inl h)
        · exact Or.inl (Or.inr h)
        · refine Or.inr ⟨h1, ?_⟩
          intro w hw
          rcases hw with rfl | hw
          · exact Or.inl hyx
          · exact h2 w hw
      · rintro ((h | h) | ⟨h1, h2⟩)
        · exact Or.inl h
        · exact Or.inr (Or.inl h)
        · exact Or.inr (Or.inr ⟨h1, fun w hw => h2 w (Or.inr hw)⟩)
    · have hyx' : lt y x = false := by simpa using hyx
      by_cases hxy : lt x y = true
      · simp only [setInsert, hyx', hxy, Bool.false_eq_true, if_false, if_true,
          List.mem_cons]
        constructor
        · rintro (h | h | h)
          · refine Or.inr ⟨h, ?_⟩
            intro w hw
            rcases hw with rfl | hw
            · exact Or.inr hxy
            · exact Or.inr (hsw.trans x y w hxy (hys w hw))
          · exact Or.inl (Or.inl h)
          · exact Or.inl (Or.inr h)
        · rintro ((h | h) | ⟨h1, _⟩)
          · exact Or.inr (Or.inl h)
          · exact Or.inr (Or.inr h)
          · exact Or.inl h1
      · have hxy' : lt x y = false := by simpa using hxy
        simp only [setInsert, hyx', hxy', Bool.false_eq_true, if_false,
          List.mem_cons]
        constructor
        · intro h; exact Or.inl h
        · rintro (h | ⟨_, h2⟩)
          · exact h
          · rcases h2 y (Or.inl rfl) with h | h
            · rw [hyx'] at h; exact Bool.noConfusion h
            · rw [hxy'] at h; exact Bool.noConfusion h

theorem ordered_setInsert (hsw : StrictWeak lt) (x : α) :
    ∀ l : List α, Ordered lt l → Ordered lt (setInsert lt x l)
  | [], _ => by simp [setInsert, Ordered]
  | y :: ys, ho => by
    have ho' : Ordered lt ys := (List.pairwise_cons.mp ho).2
    have hys : ∀ w ∈ ys, lt y w = true := (List.pairwise_cons.mp ho).1
    by_cases hyx : lt y x = true
    · simp only [setInsert, hyx, if_true]
      refine List.pairwise_cons.mpr ⟨?_, ordered_setInsert hsw x ys ho'⟩
      intro w hw
      rcases (mem_setInsert hsw x ys ho' w).mp hw with h | ⟨h, _⟩
      · exact hys w h
      · rw [h]; exact hyx
    · have hyx' : lt y x = false := by simpa using hyx
      by_cases hxy : lt x y = true
      · simp only [setInsert, hyx', hxy, Bool.false_eq_true, if_false, if_true]
        refine List.pairwise_cons.mpr ⟨?_, ho⟩
        intro w hw
        rcases List.mem_cons.mp hw with rfl | hw
        · exact hxy
        · exact hsw.trans x y w hxy (hys w hw)
      · have hxy' : lt x y = false := by simpa using hxy
        simpa only [setInsert, hyx', hxy', Bool.false_eq_true, if_false] using ho

/-- In an ordered sequence two distinct members are comparable. -/
theorem ordered_comparable (l : List α)
    (ho : Ordered lt l) (a b : α) (ha : a ∈ l) (hb : b ∈ l) (hab : a ≠ b) :
    lt a b = true ∨ lt b a = true := by
  have hp : l.Pairwise (fun a b => lt a b = true ∨ lt b a = true) :=
    List.Pairwise.imp (fun h => Or.inl h) ho
  exact List.Pairwise.forall (fun x y h => h.symm) hp ha hb hab

theorem ordered_nodup (hsw : StrictWeak lt) (l : List α)
    (ho : Ordered lt l) : l.Nodup := by
  refine List.Pairwise.imp ?_ ho
  intro a b h hab
  rw [hab, hsw.irrefl b] at h
  exact Bool.noConfusion h

end generic

/-! ### The comparator -/

theorem ParserComparator_strictWeak (h : Heap) :
    StrictWeak (ParserComparator h) := by
  refine ⟨?_, ?_, ?_⟩
  · intro a
    by_cases ha : (h a).last_message_start_ = 0 <;> simp [ParserComparator, ha]
  · intro a b c
    by_cases ha : (h a).last_message_start_ = 0 <;>
    by_cases hb : (h b).last_message_start_ = 0 <;>
    by_cases hc : (h c).last_message_start_ = 0 <;>
    simp [ParserComparator, ha, hb, hc] <;> omega
  · intro a b c
    by_cases ha : (h a).last_message_start_ = 0 <;>
    by_cases hb : (h b).last_message_start_ = 0 <;>
    by_cases hc : (h c).last_message_start_ = 0 <;>
    simp [ParserComparator, ha, hb, hc] <;> omega

/-- Equivalent parsers are the same parser or carry the same non-zero
timestamp. -/
theorem ParserComparator_equiv (h : Heap) (a b : Nat)
    (hab : ParserComparator h a b = false) (hba : ParserComparator h b a = false) :
    a = b ∨ ((h a).last_message_start_ = (h b).last_message_start_ ∧
      (h a).last_message_start_ ≠ 0) := by
  by_cases ha : (h a).last_message_start_ = 0 <;>
  by_cases hb : (h b).last_message_start_ = 0 <;>
  simp [ParserComparator, ha, hb] at hab hba ⊢ <;> omega

/-- The comparator looks only at the timestamps of its two arguments. -/
theorem ParserComparator_congr (h h2 : Heap) (a b : Nat)
    (ha : (h2 a).last_message_start_ = (h a).last_message_start_)
    (hb : (h2 b).last_message_start_ = (h b).last_message_start_) :
    ParserComparator h2 a b = ParserComparator h a b := by
  simp [ParserComparator, ha, hb]

theorem Ordered_congr (h h2 : Heap) (l : List Nat)
    (hl : ∀ a ∈ l, (h2 a).last_message_start_ = (h a).last_message_start_)
    (ho : Ordered (ParserComparator h) l) : Ordered (ParserComparator h2) l := by
  refine List.Pairwise.imp_of_mem ?_ ho
  intro a b ha hb hab
  rw [ParserComparator_congr h h2 a b (hl a ha) (hl b hb)]
  exact hab

/-- Erasing a member of an ordered set removes that member and nothing else. -/
theorem setErase_member (h : Heap) (l : List Nat) (p : Nat)
    (ho : Ordered (ParserComparator h) l) (hp : p ∈ l) :
    setErase (ParserComparator h) p l = l.filter (fun y => decide (y ≠ p)) := by
  rw [setErase_eq_filter (ParserComparator_strictWeak h) p l ho]
  apply List.filter_congr
  intro y hy
  by_cases hyp : y = p
  · subst hyp
    simp [(ParserComparator_strictWeak h).irrefl y]
  · have := ordered_comparable l ho y p hy hp hyp
    simpa [hyp] using this

/-! ### The walk of `Expired` -/

theorem expiredLoop_fst (h : Heap) (hd rd : Nat) :
    ∀ (rest active : List Nat),
      (expiredLoop h hd rd rest active).1 = rest.filter (isExpired h hd rd)
  | [], _ => rfl
  | p :: rest, active => by
    by_cases hc : isExpired h hd rd p = true
    · simp [expiredLoop, hc, List.filter_cons, expiredLoop_fst h hd rd rest]
    · have hc' : isExpired h hd rd p = false := by simpa using hc
      simp [expiredLoop, hc', List.filter_cons, expiredLoop_fst h hd rd rest]

theorem expiredLoop_snd (h : Heap) (hd rd : Nat) :
    ∀ (rest active : List Nat), Ordered (ParserComparator h) active →
      rest.Nodup → (∀ x ∈ rest, x ∈ active) →
      (expiredLoop h hd rd rest active).2 =
        active.filter (fun y => !(decide (y ∈ rest) && isExpired h hd rd y))
  | [], active, _, _, _ => by simp [expiredLoop]
  | p :: rest, active, ho, hnd, hsub => by
    have hp : p ∈ active := hsub p (List.mem_cons_self _ _)
    have hnd' : rest.Nodup := (List.nodup_cons.mp hnd).2
    have hpr : p ∉ rest := (List.nodup_cons.mp hnd).1
    by_cases hc : isExpired h hd rd p = true
    · have ho' : Ordered (ParserComparator h)
          (setErase (ParserComparator h) p active) :=
        ordered_setErase (ParserComparator_strictWeak h) p active ho
      have hsub' : ∀ x ∈ rest, x ∈ setErase (ParserComparator h) p active := by
        intro x hx
        rw [setErase_member h active p ho hp]
        have hxp : x ≠ p := fun e => hpr (e ▸ hx)
        simpa [List.mem_filter, hxp] using hsub x (List.mem_cons_of_mem _ hx)
      simp only [expiredLoop, hc, if_true]
      rw [expiredLoop_snd h hd rd rest _ ho' hnd' hsub',
        setErase_member h active p ho hp, List.filter_filter]
      apply List.filter_congr
      intro y _
      by_cases hyp : y = p
      · subst hyp; simp [hc]
      · simp [hyp]
    · have hc' : isExpired h hd rd p = false := by simpa using hc
      simp only [expiredLoop, hc', Bool.false_eq_true, if_false]
      rw [expiredLoop_snd h hd rd rest active ho hnd'
        (fun x hx => hsub x (List.mem_cons_of_mem _ hx))]
      apply List.filter_congr
      intro y _
      by_cases hyp : y = p
      · subst hyp; simp [hc']
      · simp [hyp]

theorem Expired_eq_loop (s : State) (arg0 arg1 now : Nat)
    (hdl : deadline (normalizeTimeouts (toNanos arg0) (toNanos arg1)).1 now ≠ 0 ∨
           deadline (normalizeTimeouts (toNanos arg0) (toNanos arg1)).2 now ≠ 0) :
    Expired s arg0 arg1 now =
      ((expiredLoop s.parsers
          (deadline (normalizeTimeouts (toNanos arg0) (toNanos arg1)).1 now)
          (deadline (normalizeTimeouts (toNanos arg0) (toNanos arg1)).2 now)
          s.active_connections_ s.active_connections_).1,
       { s with active_connections_ := (expiredLoop s.parsers
          (deadline (normalizeTimeouts (toNanos arg0) (toNanos arg1)).1 now)
          (deadline (normalizeTimeouts (toNanos arg0) (toNanos arg1)).2 now)
          s.active_connections_ s.active_connections_).2 }) := by
  have hto : ¬ (toNanos arg0 = 0 ∧ toNanos arg1 = 0) := by
    rintro ⟨h0, h1⟩
    simp [h0, h1, normalizeTimeouts, deadline] at hdl
  have hdl2 : ¬ (deadline (normalizeTimeouts (toNanos arg0) (toNanos arg1)).1 now = 0 ∧
      deadline (normalizeTimeouts (toNanos arg0) (toNanos arg1)).2 now = 0) := by
    rintro ⟨h0, h1⟩
    rcases hdl with h | h
    · exact h h0
    · exact h h1
  unfold Expired
  simp only [beq_iff_eq, Bool.and_eq_true]
  rw [if_neg hto, if_neg hdl2]

/-- Both early returns of `Expired` hand back the empty array and the state
as it was. -/
theorem Expired_early_return (s : State) (arg0 arg1 now : Nat)
    (h : (toNanos arg0 = 0 ∧ toNanos arg1 = 0) ∨
      (deadline (normalizeTimeouts (toNanos arg0) (toNanos arg1)).1 now = 0 ∧
       deadline (normalizeTimeouts (toNanos arg0) (toNanos arg1)).2 now = 0)) :
    Expired s arg0 arg1 now = ([], s) := by
  unfold Expired
  simp only [beq_iff_eq, Bool.and_eq_true]
  by_cases h0 : toNanos arg0 = 0 ∧ toNanos arg1 = 0
  · rw [if_pos h0]
  · rw [if_neg h0]
    rcases h with h | h
    · exact absurd h h0
    · rw [if_pos h]

/-- `Expired` writes neither `all` nor any parser object. -/
theorem Expired_frame (s : State) (arg0 arg1 now : Nat) :
    (Expired s arg0 arg1 now).2.all_connections_ = s.all_connections_ ∧
    (Expired s arg0 arg1 now).2.parsers = s.parsers := by
  constructor
  · unfold Expired
    simp only
    split
    · rfl
    · split <;> rfl
  · unfold Expired
    simp only
    split
    · rfl
    · split <;> rfl

/-! ## Claims on the comparator and on `Expired` -/

/-- C2: `ParserComparator` is the specified comparator: it agrees with the
case table of the specification on every pair of parsers, i.e. it is the
identity order when both timestamps are zero, true when only the left one is
zero, false when only the right one is zero, and the timestamp order
otherwise. -/
theorem ParserComparator_eq_spec (h : Heap) (a b : Nat) :
    ParserComparator h a b = specCmp h a b ∧
    ((h a).last_message_start_ = 0 → (h b).last_message_start_ = 0 →
      (ParserComparator h a b = true ↔ a < b)) ∧
    ((h a).last_message_start_ = 0 → (h b).last_message_start_ ≠ 0 →
      ParserComparator h a b = true) ∧
    ((h a).last_message_start_ ≠ 0 → (h b).last_message_start_ = 0 →
      ParserComparator h a b = false) ∧
    ((h a).last_message_start_ ≠ 0 → (h b).last_message_start_ ≠ 0 →
      (ParserComparator h a b = true ↔
        (h a).last_message_start_ < (h b).last_message_start_)) := by
  by_cases ha : (h a).last_message_start_ = 0 <;>
  by_cases hb : (h b).last_message_start_ = 0 <;>
  simp [ParserComparator, specCmp, ha, hb]

/-- C8: `ConnectionsList::Expired` leaves `all` (and every parser object)
unchanged, for every state, pair of timeouts and clock reading; every
returned parser comes from the active set and, if it was a member of `all`,
it still is. -/
theorem Expired_all_unchanged (s : State) (arg0 arg1 now : Nat) :
    (Expired s arg0 arg1 now).2.all_connections_ = s.all_connections_ ∧
    (Expired s arg0 arg1 now).2.parsers = s.parsers ∧
    ∀ p ∈ (Expired s arg0 arg1 now).1,
      (p ∈ s.active_connections_ ∧
        (p ∈ s.all_connections_ → p ∈ (Expired s arg0 arg1 now).2.all_connections_)) := by
  have hall := (Expired_frame s arg0 arg1 now).1
  refine ⟨hall, (Expired_frame s arg0 arg1 now).2, ?_⟩
  · intro p hp
    refine ⟨?_, fun h => hall.symm ▸ h⟩
    unfold Expired at hp
    simp only at hp
    split at hp
    · simp at hp
    · split at hp
      · simp at hp
      · simp only [expiredLoop_fst] at hp
        exact (List.mem_filter.mp hp).1

/-- C9: when both timeouts are zero, or both computed deadlines are zero,
`ConnectionsList::Expired` returns the empty sequence and leaves the state,
in particular the `active` set, unchanged. -/
theorem Expired_no_deadline (s : State) (arg0 arg1 now : Nat)
    (h : (toNanos arg0 = 0 ∧ toNanos arg1 = 0) ∨
      (deadline (normalizeTimeouts (toNanos arg0) (toNanos arg1)).1 now = 0 ∧
       deadline (normalizeTimeouts (toNanos arg0) (toNanos arg1)).2 now = 0)) :
    Expired s arg0 arg1 now = ([], s) :=
  Expired_early_return s arg0 arg1 now h

/-- Witness of C8: parser 1, returned in the example state, is still in `all`. -/
theorem Expired_all_unchanged_witness :
    1 ∈ (Expired exampleState 1 0 1000007).1 ∧
    1 ∈ (Expired exampleState 1 0 1000007).2.all_connections_ :=
  ⟨by decide,
   ((Expired_all_unchanged exampleState 1 0 1000007).2.2 1 (by decide)).2 (by decide)⟩

/-- Witness of C9: timeouts of 2 ms and 1 ms read at clock 1000000 (1 ms)
give two zero deadlines; two zero timeouts read at clock 77. -/
theorem Expired_no_deadline_witness :
    deadline (normalizeTimeouts (toNanos 2) (toNanos 1)).1 1000000 = 0 ∧
    deadline (normalizeTimeouts (toNanos 2) (toNanos 1)).2 1000000 = 0 ∧
    Expired exampleState 2 1 1000000 = ([], exampleState) ∧
    toNanos 0 = 0 ∧
    Expired exampleState 0 0 77 = ([], exampleState) :=
  ⟨by decide, by decide,
   Expired_no_deadline exampleState 2 1 1000000 (Or.inr ⟨by decide, by decide⟩),
   by decide,
   Expired_no_deadline exampleState 0 0 77 (Or.inl ⟨by decide, by decide⟩)⟩

/-! ## Claims on `Push` and `Pop` -/

/-- C3, the code at the failing input: parsers 1 and 2 carry the same
non-zero timestamp 5 and the sets hold parser 1. `Push(2)` and `PushActive(2)`
leave the sets as they are, so parser 2 is a member of neither afterwards; the
same state arises from initializing both parsers at the same clock reading. -/
theorem Push_skips_equal_timestamp :
    Ordered (ParserComparator collisionState.parsers) collisionState.all_connections_ ∧
    (Push collisionState 2).all_connections_ = [1] ∧
    2 ∉ (Push collisionState 2).all_connections_ ∧
    (PushActive collisionState 2).active_connections_ = [1] ∧
    2 ∉ (PushActive collisionState 2).active_connections_ ∧
    (run initializeOnUntracked Tracker.init
        [Op.init 1 (some 0) 16384 true 5, Op.init 2 (some 0) 16384 true 5]).map
      (fun t => (t.state.all_connections_, t.state.active_connections_, t.tracked 2)) =
      some ([1], [1], true) := by
  decide

/-- C4, the code at the failing input: parsers 1 and 2 carry the same
non-zero timestamp 5, the sets hold parser 1 and not parser 2. `Pop(2)` and
`PopActive(2)` remove parser 1; the same happens when parser 2, initialized at
the same clock reading as parser 1, is removed. -/
theorem Pop_removes_equal_timestamp :
    Ordered (ParserComparator collisionState.parsers) collisionState.all_connections_ ∧
    2 ∉ collisionState.all_connections_ ∧ 1 ∈ collisionState.all_connections_ ∧
    (Pop collisionState 2).all_connections_ = [] ∧
    1 ∉ (Pop collisionState 2).all_connections_ ∧
    (PopActive collisionState 2).active_connections_ = [] ∧
    1 ∉ (PopActive collisionState 2).active_connections_ ∧
    (run initializeOnUntracked Tracker.init
        [Op.init 1 (some 0) 16384 true 5, Op.init 2 (some 0) 16384 true 5,
         Op.remove 2]).map
      (fun t => (t.state.all_connections_, t.state.active_connections_, t.tracked 1)) =
      some ([], [], true) := by
  decide

/-! ## Header accounting -/

theorem TrackHeader_step (q : Parser) (len : Nat) :
    (TrackHeader q len).2.heades_nread_ = (q.heades_nread_ + len) % UINT64_MOD ∧
    (TrackHeader q len).2.max_http_header_size_ = q.max_http_header_size_ ∧
    (TrackHeader q len).2.trailers_nread_ = q.trailers_nread_ ∧
    (TrackHeader q len).2.max_http_trailer_size_ = q.max_http_trailer_size_ := by
  unfold TrackHeader
  simp only
  split <;> simp

theorem TrackTrailer_step (q : Parser) (len : Nat) :
    (TrackTrailer q len).2.trailers_nread_ = (q.trailers_nread_ + len) % UINT64_MOD ∧
    (TrackTrailer q len).2.max_http_trailer_size_ = q.max_http_trailer_size_ ∧
    (TrackTrailer q len).2.heades_nread_ = q.heades_nread_ ∧
    (TrackTrailer q len).2.max_http_header_size_ = q.max_http_header_size_ := by
  unfold TrackTrailer
  simp only
  split <;> simp

theorem trackAll_TrackHeader_count :
    ∀ (lens : List Nat) (q : Parser),
      (trackAll TrackHeader q lens).2.heades_nread_ =
          (if lens = [] then q.heades_nread_
           else (q.heades_nread_ + lens.sum) % UINT64_MOD) ∧
      (trackAll TrackHeader q lens).2.max_http_header_size_ = q.max_http_header_size_
  | [], q => by simp [trackAll]
  | len :: lens, q => by
    have ih := trackAll_TrackHeader_count lens (TrackHeader q len).2
    have hs := TrackHeader_step q len
    simp only [trackAll, ih.2, hs.2.1, and_true, ih.1, hs.1]
    by_cases hl : lens = []
    · simp [hl]
    · simp only [hl, if_false, List.sum_cons, reduceCtorEq]
      rw [Nat.add_mod, Nat.mod_mod, ← Nat.add_mod, Nat.add_assoc]

theorem trackAll_TrackTrailer_count :
    ∀ (lens : List Nat) (q : Parser),
      (trackAll TrackTrailer q lens).2.trailers_nread_ =
          (if lens = [] then q.trailers_nread_
           else (q.trailers_nread_ + lens.sum) % UINT64_MOD) ∧
      (trackAll TrackTrailer q lens).2.max_http_trailer_size_ = q.max_http_trailer_size_
  | [], q => by simp [trackAll]
  | len :: lens, q => by
    have ih := trackAll_TrackTrailer_count lens (TrackTrailer q len).2
    have hs := TrackTrailer_step q len
    simp only [trackAll, ih.2, hs.2.1, and_true, ih.1, hs.1]
    by_cases hl : lens = []
    · simp [hl]
    · simp only [hl, if_false, List.sum_cons, reduceCtorEq]
      rw [Nat.add_mod, Nat.mod_mod, ← Nat.add_mod, Nat.add_assoc]

theorem overflow_code_recorded (d : Data) :
    Data.Set d HPE_HEADER_OVERFLOW 19 = HPE_HEADER_OVERFLOW ∧
    Data.size_ (Data.Set d HPE_HEADER_OVERFLOW 19) = 19 := by
  constructor
  · show List.take 19 HPE_HEADER_OVERFLOW = HPE_HEADER_OVERFLOW
    decide
  · show (List.take 19 HPE_HEADER_OVERFLOW).length = 19
    decide

theorem overflow_reason_recorded (d : Data) :
    Data.Set d headerOverflowReason 15 = headerOverflowReason ∧
    Data.size_ (Data.Set d headerOverflowReason 15) = 15 := by
  constructor
  · show List.take 15 headerOverflowReason = headerOverflowReason
    decide
  · show (List.take 15 headerOverflowReason).length = 15
    decide

theorem TrackHeader_result (q : Parser) (len : Nat) :
    (q.max_http_header_size_ ≤ (q.heades_nread_ + len) % UINT64_MOD →
      (TrackHeader q len).1 = 1 ∧
      (TrackHeader q len).2.error_code_ = HPE_HEADER_OVERFLOW ∧
      (TrackHeader q len).2.error_reason_ = headerOverflowReason) ∧
    ((q.heades_nread_ + len) % UINT64_MOD < q.max_http_header_size_ →
      (TrackHeader q len).1 = 0 ∧
      (TrackHeader q len).2.error_code_ = q.error_code_ ∧
      (TrackHeader q len).2.error_reason_ = q.error_reason_) := by
  unfold TrackHeader
  simp only [ge_iff_le]
  constructor
  · intro h
    rw [if_pos h]
    exact ⟨rfl, (overflow_code_recorded q.error_code_).1, (overflow_reason_recorded q.error_reason_).1⟩
  · intro h
    rw [if_neg (Nat.not_le.mpr h)]
    exact ⟨rfl, rfl, rfl⟩

theorem TrackTrailer_result (q : Parser) (len : Nat) :
    (q.max_http_trailer_size_ ≤ (q.trailers_nread_ + len) % UINT64_MOD →
      (TrackTrailer q len).1 = 1 ∧
      (TrackTrailer q len).2.error_code_ = HPE_HEADER_OVERFLOW ∧
      (TrackTrailer q len).2.error_reason_ = headerOverflowReason) ∧
    ((q.trailers_nread_ + len) % UINT64_MOD < q.max_http_trailer_size_ →
      (TrackTrailer q len).1 = 0 ∧
      (TrackTrailer q len).2.error_code_ = q.error_code_ ∧
      (TrackTrailer q len).2.error_reason_ = q.error_reason_) := by
  unfold TrackTrailer
  simp only [ge_iff_le]
  constructor
  · intro h
    rw [if_pos h]
    exact ⟨rfl, (overflow_code_recorded q.error_code_).1, (overflow_reason_recorded q.error_reason_).1⟩
  · intro h
    rw [if_neg (Nat.not_le.mpr h)]
    exact ⟨rfl, rfl, rfl⟩

/-- C10, counterexample: with a limit of 10 and a zero count, a span of 10
bytes brings the count to 10, which does not exceed the limit, and
`TrackHeader` returns 1 and records the overflow code. -/
theorem TrackHeader_at_limit :
    limit10.heades_nread_ = 0 ∧ limit10.max_http_header_size_ = 10 ∧
    ¬ (limit10.heades_nread_ + 10 > limit10.max_http_header_size_) ∧
    (TrackHeader limit10 10).1 = 1 ∧
    (TrackHeader limit10 10).2.error_code_ = HPE_HEADER_OVERFLOW := by
  decide

/-- C10 as amended: starting from zero counts, after any sequence `pre` of
calls, the next call of `TrackHeader` (of `TrackTrailer` for trailers) with a
span of `len` bytes returns a positive value exactly when the cumulative byte
count including the current span, as held in the 64-bit counter, is greater
than or equal to the limit; it then returns 1 and records the code
`HPE_HEADER_OVERFLOW` (19 bytes) and the reason `Header overflow` (15 bytes);
otherwise it returns 0 and leaves the recorded code and reason as they
were. -/
theorem Track_overflow_at_limit (q : Parser) (pre : List Nat) (len : Nat)
    (hh : q.heades_nread_ = 0) (ht : q.trailers_nread_ = 0) :
    (((TrackHeader (trackAll TrackHeader q pre).2 len).1 > 0 ↔
        (pre.sum + len) % UINT64_MOD ≥ q.max_http_header_size_) ∧
     ((pre.sum + len) % UINT64_MOD ≥ q.max_http_header_size_ →
        (TrackHeader (trackAll TrackHeader q pre).2 len).1 = 1 ∧
        (TrackHeader (trackAll TrackHeader q pre).2 len).2.error_code_ =
          HPE_HEADER_OVERFLOW ∧
        Data.size_ (TrackHeader (trackAll TrackHeader q pre).2 len).2.error_code_ = 19 ∧
        (TrackHeader (trackAll TrackHeader q pre).2 len).2.error_reason_ =
          headerOverflowReason ∧
        Data.size_ (TrackHeader (trackAll TrackHeader q pre).2 len).2.error_reason_ = 15) ∧
     ((pre.sum + len) % UINT64_MOD < q.max_http_header_size_ →
        (TrackHeader (trackAll TrackHeader q pre).2 len).1 = 0 ∧
        (TrackHeader (trackAll TrackHeader q pre).2 len).2.error_code_ =
          (trackAll TrackHeader q pre).2.error_code_ ∧
        (TrackHeader (trackAll TrackHeader q pre).2 len).2.error_reason_ =
          (trackAll TrackHeader q pre).2.error_reason_)) ∧
    (((TrackTrailer (trackAll TrackTrailer q pre).2 len).1 > 0 ↔
        (pre.sum + len) % UINT64_MOD ≥ q.max_http_trailer_size_) ∧
     ((pre.sum + len) % UINT64_MOD ≥ q.max_http_trailer_size_ →
        (TrackTrailer (trackAll TrackTrailer q pre).2 len).1 = 1 ∧
        (TrackTrailer (trackAll TrackTrailer q pre).2 len).2.error_code_ =
          HPE_HEADER_OVERFLOW ∧
        (TrackTrailer (trackAll TrackTrailer q pre).2 len).2.error_reason_ =
          headerOverflowReason) ∧
     ((pre.sum + len) % UINT64_MOD < q.max_http_trailer_size_ →
        (TrackTrailer (trackAll TrackTrailer q pre).2 len).1 = 0 ∧
        (TrackTrailer (trackAll TrackTrailer q pre).2 len).2.error_code_ =
          (trackAll TrackTrailer q pre).2.error_code_ ∧
        (TrackTrailer (trackAll TrackTrailer q pre).2 len).2.error_reason_ =
          (trackAll TrackTrailer q pre).2.error_reason_)) := by
  have hcH : ((trackAll TrackHeader q pre).2.heades_nread_ + len) % UINT64_MOD =
      (pre.sum + len) % UINT64_MOD := by
    rw [(trackAll_TrackHeader_count pre q).1]
    by_cases hp : pre = []
    · simp [hp, hh]
    · simp only [hp, if_false, hh, Nat.zero_add]
      rw [Nat.add_mod, Nat.mod_mod, ← Nat.add_mod]
  have hcT : ((trackAll TrackTrailer q pre).2.trailers_nread_ + len) % UINT64_MOD =
      (pre.sum + len) % UINT64_MOD := by
    rw [(trackAll_TrackTrailer_count pre q).1]
    by_cases hp : pre = []
    · simp [hp, ht]
    · simp only [hp, if_false, ht, Nat.zero_add]
      rw [Nat.add_mod, Nat.mod_mod, ← Nat.add_mod]
  have hH := TrackHeader_result (trackAll TrackHeader q pre).2 len
  have hT := TrackTrailer_result (trackAll TrackTrailer q pre).2 len
  rw [hcH, (trackAll_TrackHeader_count pre q).2] at hH
  rw [hcT, (trackAll_TrackTrailer_count pre q).2] at hT
  refine ⟨⟨?_, ?_, hH.2⟩, ⟨?_, hT.1, hT.2⟩⟩
  · constructor
    · intro hpos
      by_contra hlt
      have := (hH.2 (Nat.not_le.mp hlt)).1
      omega
    · intro hge
      have := (hH.1 hge).1
      omega
  · intro hge
    have := hH.1 hge
    exact ⟨this.1, this.2.1, by rw [this.2.1]; decide, this.2.2,
      by rw [this.2.2]; decide⟩
  · constructor
    · intro hpos
      by_contra hlt
      have := (hT.2 (Nat.not_le.mp hlt)).1
      omega
    · intro hge
      have := (hT.1 hge).1
      omega

/-- Witness of C10 as amended: with limit 10, spans 3, 6, 1 reach the count
10 at the third call, which returns a positive value; the second call, at
count 9, returns 0. -/
theorem Track_overflow_at_limit_witness :
    limit10.heades_nread_ = 0 ∧ limit10.trailers_nread_ = 0 ∧
    (TrackHeader (trackAll TrackHeader limit10 [3, 6]).2 1).1 > 0 ∧
    (TrackHeader (trackAll TrackHeader limit10 [3]).2 6).1 = 0 :=
  ⟨by decide, by decide,
   (Track_overflow_at_limit limit10 [3, 6] 1 (by decide) (by decide)).1.1.mpr (by decide),
   ((Track_overflow_at_limit limit10 [3] 6 (by decide) (by decide)).1.2.2 (by decide)).1⟩

/-! ## The callbacks, unfolded -/

theorem Heap.store_same (h : Heap) (p : Nat) (v : Parser) :
    Heap.store h p v p = v := by
  simp [Heap.store]

theorem Heap.store_other (h : Heap) (p q : Nat) (v : Parser) (hq : q ≠ p) :
    Heap.store h p v q = h q := by
  simp [Heap.store, hq]

/-- Two distinct parsers are comparable unless they carry the same non-zero
timestamp. -/
theorem comparable_iff (h : Heap) (a b : Nat) (hab : a ≠ b) :
    (ParserComparator h a b = true ∨ ParserComparator h b a = true) ↔
      ((h a).last_message_start_ ≠ (h b).last_message_start_ ∨
        (h a).last_message_start_ = 0) := by
  by_cases ha : (h a).last_message_start_ = 0 <;>
  by_cases hb : (h b).last_message_start_ = 0 <;>
  simp [ParserComparator, ha, hb]
  omega

theorem popFromLists_eq (s : State) (p : Nat)
    (hl : (s.parsers p).connectionsList_ = true) :
    popFromLists s p =
      { parsers := s.parsers,
        all_connections_ :=
          setErase (ParserComparator s.parsers) p s.all_connections_,
        active_connections_ :=
          setErase (ParserComparator s.parsers) p s.active_connections_ } := by
  simp [popFromLists, Pop, PopActive, hl]

theorem popFromLists_noList (s : State) (p : Nat)
    (hl : (s.parsers p).connectionsList_ = false) : popFromLists s p = s := by
  simp [popFromLists, hl]

theorem on_message_start_eq (s : State) (p now : Nat)
    (hl : (s.parsers p).connectionsList_ = true) :
    on_message_start s p now =
      { parsers := Heap.store s.parsers p (messageStartFields (s.parsers p) now),
        all_connections_ :=
          setInsert (ParserComparator
            (Heap.store s.parsers p (messageStartFields (s.parsers p) now))) p
            (setErase (ParserComparator s.parsers) p s.all_connections_),
        active_connections_ :=
          setInsert (ParserComparator
            (Heap.store s.parsers p (messageStartFields (s.parsers p) now))) p
            (setErase (ParserComparator s.parsers) p s.active_connections_) } := by
  simp [on_message_start, on_message_start_atAssign, popFromLists_eq s p hl,
    Heap.store_same, messageStartFields, hl, Push, PushActive, storeParser]

theorem on_message_start_noList (s : State) (p now : Nat)
    (hl : (s.parsers p).connectionsList_ = false) :
    on_message_start s p now =
      { s with parsers :=
          Heap.store s.parsers p (messageStartFields (s.parsers p) now) } := by
  simp [on_message_start, on_message_start_atAssign, popFromLists_noList s p hl,
    Heap.store_same, messageStartFields, hl, storeParser]

theorem on_message_complete_eq (s : State) (p : Nat)
    (hl : (s.parsers p).connectionsList_ = true) :
    on_message_complete s p =
      { parsers := Heap.store s.parsers p
          (messageCompleteFields (s.parsers p)),
        all_connections_ :=
          setInsert (ParserComparator (Heap.store s.parsers p
            (messageCompleteFields (s.parsers p)))) p
            (setErase (ParserComparator s.parsers) p s.all_connections_),
        active_connections_ :=
          setErase (ParserComparator s.parsers) p s.active_connections_ } := by
  simp [on_message_complete, on_message_complete_atAssign, popFromLists_eq s p hl,
    Heap.store_same, hl, Push, messageCompleteFields, storeParser]

theorem on_message_complete_noList (s : State) (p : Nat)
    (hl : (s.parsers p).connectionsList_ = false) :
    on_message_complete s p =
      { s with parsers :=
          Heap.store s.parsers p (messageCompleteFields (s.parsers p)) } := by
  simp [on_message_complete, on_message_complete_atAssign,
    popFromLists_noList s p hl, Heap.store_same, hl, messageCompleteFields, storeParser]

/-- Changing the object of a parser that is not in the sequence keeps the
sequence ordered. -/
theorem Ordered_store (h : Heap) (p : Nat) (v : Parser) (l : List Nat)
    (hp : p ∉ l) (ho : Ordered (ParserComparator h) l) :
    Ordered (ParserComparator (Heap.store h p v)) l := by
  refine Ordered_congr h _ l ?_ ho
  intro a ha
  have hap : a ≠ p := fun e => hp (e ▸ ha)
  rw [Heap.store_other h p a v hap]

/-- Erase then re-insert under a new key: what the sequence holds afterwards. -/
theorem rekey (h : Heap) (p : Nat) (v : Parser) (l : List Nat)
    (ho : Ordered (ParserComparator h) l) :
    Ordered (ParserComparator (Heap.store h p v))
      (setInsert (ParserComparator (Heap.store h p v)) p
        (setErase (ParserComparator h) p l)) ∧
    (∀ z, z ≠ p →
      (z ∈ setInsert (ParserComparator (Heap.store h p v)) p
          (setErase (ParserComparator h) p l) ↔
        z ∈ l ∧ ((h z).last_message_start_ ≠ (h p).last_message_start_ ∨
          (h z).last_message_start_ = 0))) ∧
    (p ∈ setInsert (ParserComparator (Heap.store h p v)) p
          (setErase (ParserComparator h) p l) ↔
      ∀ y ∈ setErase (ParserComparator h) p l,
        ((h y).last_message_start_ ≠ v.last_message_start_ ∨
          (h y).last_message_start_ = 0)) := by
  have hsw := ParserComparator_strictWeak h
  have hsw2 := ParserComparator_strictWeak (Heap.store h p v)
  have hoE := ordered_setErase hsw p l ho
  have hpE : p ∉ setErase (ParserComparator h) p l := by
    intro hp
    have := ((mem_setErase hsw p l ho p).mp hp).2
    simp [hsw.irrefl p] at this
  have hoE2 := Ordered_store h p v _ hpE hoE
  refine ⟨ordered_setInsert hsw2 p _ hoE2, ?_, ?_⟩
  · intro z hz
    rw [mem_setInsert hsw2 p _ hoE2 z, mem_setErase hsw p l ho z,
      comparable_iff h z p hz]
    simp [hz]
  · rw [mem_setInsert hsw2 p _ hoE2 p]
    simp only [hpE, false_or, true_and]
    constructor
    · intro hc y hy
      have hyp : y ≠ p := fun e => hpE (e ▸ hy)
      have := (comparable_iff (Heap.store h p v) y p hyp).mp (hc y hy)
      rwa [Heap.store_other h p y v hyp, Heap.store_same] at this
    · intro hc y hy
      have hyp : y ≠ p := fun e => hpE (e ▸ hy)
      rw [comparable_iff (Heap.store h p v) y p hyp,
        Heap.store_other h p y v hyp, Heap.store_same]
      exact hc y hy

/-! ## Claims on the message callbacks -/

/-- C7, the code at the failing input: parsers 1 and 2 are initialized with
the list at the same clock reading 5 and parser 3 at clock reading 9. All three
are tracked; the sets are `[1, 3]`, ordered (parser 2, equivalent to parser 1
for the comparator, was not inserted), and no parser has the timestamp 10.
`on_message_start` on parser 2 at clock reading 10 erases parser 1 from both
sets, which become `[3, 2]`; `on_message_complete` on parser 2 erases parser 1
as well and leaves `all = [2, 3]` and `active = [3]`. The membership of parser
1, another parser, has changed. -/
theorem message_boundary_drops_equal_timestamp :
    (run initializeOnUntracked Tracker.init twinOps).map
      (fun t => (t.state.all_connections_, t.state.active_connections_)) =
      some ([1, 3], [1, 3]) ∧
    (twinTracker.tracked 1, twinTracker.tracked 2, twinTracker.tracked 3) =
      (true, true, true) ∧
    (twinTracker.state.parsers 2).connectionsList_ = true ∧
    Ordered (ParserComparator twinTracker.state.parsers)
      twinTracker.state.all_connections_ ∧
    Ordered (ParserComparator twinTracker.state.parsers)
      twinTracker.state.active_connections_ ∧
    (twinTracker.state.parsers 1).last_message_start_ = 5 ∧
    (twinTracker.state.parsers 2).last_message_start_ = 5 ∧
    (twinTracker.state.parsers 3).last_message_start_ = 9 ∧
    (on_message_start twinTracker.state 2 10).all_connections_ = [3, 2] ∧
    (on_message_start twinTracker.state 2 10).active_connections_ = [3, 2] ∧
    1 ∈ twinTracker.state.all_connections_ ∧
    1 ∉ (on_message_start twinTracker.state 2 10).all_connections_ ∧
    (on_message_complete twinTracker.state 2).all_connections_ = [2, 3] ∧
    (on_message_complete twinTracker.state 2).active_connections_ = [3] ∧
    1 ∉ (on_message_complete twinTracker.state 2).all_connections_ := by
  decide

/-- The message callbacks on a member of `all`. In a list whose two sets are
ordered by the comparator with `active` contained in `all`, for a parser `p`
that is a member of `all` with its `connectionsList_` set, and provided no
other member has `last_message_start` equal to the clock reading `now`: after
`on_message_start` the timestamp of `p` is `now` and `p` is a member of both
`all` and `active`; after `on_message_complete` the timestamp of `p` is 0, `p`
is a member of `all` and not of `active`; in both cases the membership (and
the object) of every other parser is unchanged. -/
theorem message_boundary_update (s : State) (p now : Nat)
    (hall : Ordered (ParserComparator s.parsers) s.all_connections_)
    (hact : Ordered (ParserComparator s.parsers) s.active_connections_)
    (hsub : ∀ q ∈ s.active_connections_, q ∈ s.all_connections_)
    (hp : p ∈ s.all_connections_)
    (hl : (s.parsers p).connectionsList_ = true)
    (hnow : ∀ q ∈ s.all_connections_, q ≠ p →
      (s.parsers q).last_message_start_ ≠ now) :
    (((on_message_start s p now).parsers p).last_message_start_ = now ∧
     p ∈ (on_message_start s p now).all_connections_ ∧
     p ∈ (on_message_start s p now).active_connections_ ∧
     ∀ q, q ≠ p →
       ((q ∈ (on_message_start s p now).all_connections_ ↔
          q ∈ s.all_connections_) ∧
        (q ∈ (on_message_start s p now).active_connections_ ↔
          q ∈ s.active_connections_) ∧
        (on_message_start s p now).parsers q = s.parsers q)) ∧
    (((on_message_complete s p).parsers p).last_message_start_ = 0 ∧
     p ∈ (on_message_complete s p).all_connections_ ∧
     p ∉ (on_message_complete s p).active_connections_ ∧
     ∀ q, q ≠ p →
       ((q ∈ (on_message_complete s p).all_connections_ ↔
          q ∈ s.all_connections_) ∧
        (q ∈ (on_message_complete s p).active_connections_ ↔
          q ∈ s.active_connections_) ∧
        (on_message_complete s p).parsers q = s.parsers q)) := by
  have hsw := ParserComparator_strictWeak s.parsers
  -- a member of `all` other than `p` is not equivalent to `p`
  have hcmp : ∀ q ∈ s.all_connections_, q ≠ p →
      ((s.parsers q).last_message_start_ ≠ (s.parsers p).last_message_start_ ∨
        (s.parsers q).last_message_start_ = 0) := fun q hq hqp =>
    (comparable_iff s.parsers q p hqp).mp
      (ordered_comparable _ hall q p hq hp hqp)
  have hEall : ∀ y ∈ setErase (ParserComparator s.parsers) p s.all_connections_,
      y ∈ s.all_connections_ ∧ y ≠ p := by
    intro y hy
    have h1 := (mem_setErase hsw p _ hall y).mp hy
    refine ⟨h1.1, ?_⟩
    rintro rfl
    simp [hsw.irrefl y] at h1
  have hEact : ∀ y ∈ setErase (ParserComparator s.parsers) p s.active_connections_,
      y ∈ s.active_connections_ ∧ y ≠ p := by
    intro y hy
    have h1 := (mem_setErase hsw p _ hact y).mp hy
    refine ⟨h1.1, ?_⟩
    rintro rfl
    simp [hsw.irrefl y] at h1
  constructor
  · rw [on_message_start_eq s p now hl]
    have rA := rekey s.parsers p (messageStartFields (s.parsers p) now) _ hall
    have rB := rekey s.parsers p (messageStartFields (s.parsers p) now) _ hact
    refine ⟨?_, ?_, ?_, ?_⟩
    · simp [Heap.store_same, messageStartFields]
    · refine rA.2.2.mpr ?_
      intro y hy
      exact Or.inl (hnow y (hEall y hy).1 (hEall y hy).2)
    · refine rB.2.2.mpr ?_
      intro y hy
      exact Or.inl (hnow y (hsub y (hEact y hy).1) (hEact y hy).2)
    · intro q hq
      refine ⟨?_, ?_, ?_⟩
      · rw [rA.2.1 q hq]
        exact ⟨fun h => h.1, fun h => ⟨h, hcmp q h hq⟩⟩
      · rw [rB.2.1 q hq]
        exact ⟨fun h => h.1, fun h => ⟨h, hcmp q (hsub q h) hq⟩⟩
      · exact Heap.store_other _ _ _ _ hq
  · rw [on_message_complete_eq s p hl]
    have rA := rekey s.parsers p (messageCompleteFields (s.parsers p)) _ hall
    refine ⟨?_, ?_, ?_, ?_⟩
    · simp [Heap.store_same, messageCompleteFields]
    · refine rA.2.2.mpr ?_
      intro y hy
      have h1 := hcmp y (hEall y hy).1 (hEall y hy).2
      by_cases h0 : (s.parsers y).last_message_start_ = 0
      · exact Or.inr h0
      · exact Or.inl (by simpa [messageCompleteFields] using h0)
    · intro hpa
      exact (hEact p hpa).2 rfl
    · intro q hq
      refine ⟨?_, ?_, ?_⟩
      · rw [rA.2.1 q hq]
        exact ⟨fun h => h.1, fun h => ⟨h, hcmp q h hq⟩⟩
      · show q ∈ setErase (ParserComparator s.parsers) p s.active_connections_ ↔ _
        rw [mem_setErase hsw p _ hact q, comparable_iff s.parsers q p hq]
        exact ⟨fun h => h.1, fun h => ⟨h, hcmp q (hsub q h) hq⟩⟩
      · exact Heap.store_other _ _ _ _ hq

/-- An instance of `message_boundary_update`: parser 1 of the example state,
at clock reading 12. -/
theorem message_boundary_update_witness :
    ((on_message_start exampleState 1 12).parsers 1).last_message_start_ = 12 ∧
    1 ∈ (on_message_start exampleState 1 12).active_connections_ ∧
    1 ∈ (on_message_complete exampleState 1).all_connections_ ∧
    1 ∉ (on_message_complete exampleState 1).active_connections_ := by
  have h := message_boundary_update exampleState 1 12 (by decide) (by decide)
    (by decide) (by decide) (by decide) (by decide)
  exact ⟨h.1.1, h.1.2.2.1, h.2.2.1, h.2.2.2.1⟩

theorem Consistent_init : Consistent Tracker.init := by
  refine ⟨?_, ?_, ?_, ?_, ?_, ?_⟩ <;> simp [Tracker.init, Ordered]

/-- Insert under a heap in which `p` is not in the sequence yet. -/
theorem insert_fresh (h : Heap) (p : Nat) (l : List Nat)
    (ho : Ordered (ParserComparator h) l) (hp : p ∉ l) :
    Ordered (ParserComparator h) (setInsert (ParserComparator h) p l) ∧
    (∀ z, z ≠ p → (z ∈ setInsert (ParserComparator h) p l ↔ z ∈ l)) ∧
    ((h p).last_message_start_ = 0 → p ∈ setInsert (ParserComparator h) p l) := by
  have hsw := ParserComparator_strictWeak h
  refine ⟨ordered_setInsert hsw p l ho, ?_, ?_⟩
  · intro z hz
    rw [mem_setInsert hsw p l ho z]
    simp [hz]
  · intro h0
    rw [mem_setInsert hsw p l ho p]
    refine Or.inr ⟨rfl, ?_⟩
    intro y hy
    have hyp : y ≠ p := fun e => hp (e ▸ hy)
    rw [comparable_iff h y p hyp]
    by_cases hy0 : (h y).last_message_start_ = 0
    · exact Or.inr hy0
    · exact Or.inl (by rw [h0]; exact hy0)

/-- Erase: what is left. -/
theorem erase_left (h : Heap) (p : Nat) (l : List Nat)
    (ho : Ordered (ParserComparator h) l) :
    Ordered (ParserComparator h) (setErase (ParserComparator h) p l) ∧
    p ∉ setErase (ParserComparator h) p l ∧
    (∀ z ∈ setErase (ParserComparator h) p l, z ∈ l) ∧
    (∀ z ∈ l, z ≠ p → (h z).last_message_start_ = 0 →
      z ∈ setErase (ParserComparator h) p l) := by
  have hsw := ParserComparator_strictWeak h
  refine ⟨ordered_setErase hsw p l ho, ?_, ?_, ?_⟩
  · intro hp
    have := ((mem_setErase hsw p l ho p).mp hp).2
    simp [hsw.irrefl p] at this
  · intro z hz
    exact ((mem_setErase hsw p l ho z).mp hz).1
  · intro z hz hzp h0
    rw [mem_setErase hsw p l ho z, comparable_iff h z p hzp]
    exact ⟨hz, Or.inr h0⟩

/-- Re-keying a tracked parser (pop, assign, push) keeps the invariant; with
`both` the parser is pushed into `active` as well. -/
theorem Consistent_rekey (t : Tracker) (p : Nat) (v : Parser) (both : Bool)
    (hc : Consistent t) (htr : t.tracked p = true)
    (hv : v.connectionsList_ = true) :
    Consistent
      { state :=
          { parsers := Heap.store t.state.parsers p v,
            all_connections_ :=
              setInsert (ParserComparator (Heap.store t.state.parsers p v)) p
                (setErase (ParserComparator t.state.parsers) p
                  t.state.all_connections_),
            active_connections_ :=
              if both then
                setInsert (ParserComparator (Heap.store t.state.parsers p v)) p
                  (setErase (ParserComparator t.state.parsers) p
                    t.state.active_connections_)
              else
                setErase (ParserComparator t.state.parsers) p
                  t.state.active_connections_ },
        tracked := t.tracked } := by
  have rA := rekey t.state.parsers p v _ hc.ordAll
  have rB := rekey t.state.parsers p v _ hc.ordActive
  have eB := erase_left t.state.parsers p _ hc.ordActive
  refine ⟨rA.1, ?_, ?_, ?_, ?_, ?_⟩
  · show Ordered _ (if both then _ else _)
    cases both
    · exact Ordered_store _ p v _ eB.2.1 eB.1
    · exact rB.1
  · intro z hz
    by_cases hzp : z = p
    · rw [hzp]; exact htr
    · exact hc.allTracked z ((rA.2.1 z hzp).mp hz).1
  · intro z hz
    by_cases hzp : z = p
    · rw [hzp]; exact htr
    · have hz2 : z ∈ (if both then
          setInsert (ParserComparator (Heap.store t.state.parsers p v)) p
            (setErase (ParserComparator t.state.parsers) p
              t.state.active_connections_)
          else setErase (ParserComparator t.state.parsers) p
            t.state.active_connections_) := hz
      cases both
      · exact hc.activeTracked z (eB.2.2.1 z hz2)
      · exact hc.activeTracked z ((rB.2.1 z hzp).mp hz2).1
  · intro z hz h0
    by_cases hzp : z = p
    · subst hzp
      have h0v : v.last_message_start_ = 0 := by
        simpa [Heap.store_same] using h0
      refine rA.2.2.mpr ?_
      intro y _
      by_cases hy0 : (t.state.parsers y).last_message_start_ = 0
      · exact Or.inr hy0
      · exact Or.inl (by rw [h0v]; exact hy0)
    · have h0z : (t.state.parsers z).last_message_start_ = 0 := by
        simpa [Heap.store_other _ _ _ _ hzp] using h0
      exact (rA.2.1 z hzp).mpr ⟨hc.idleInAll z hz h0z, Or.inr h0z⟩
  · intro z hz
    by_cases hzp : z = p
    · subst hzp
      simpa [Heap.store_same] using hv
    · simpa [Heap.store_other _ _ _ _ hzp] using hc.hasList z hz

/-- Writing the object of an untracked parser keeps the invariant. -/
theorem Consistent_store (t : Tracker) (p : Nat) (v : Parser)
    (tracked2 : Nat → Bool)
    (hc : Consistent t) (hnt : t.tracked p = false)
    (ht2 : ∀ z, z ≠ p → tracked2 z = t.tracked z) (ht2p : tracked2 p = false) :
    Consistent
      { state := storeParser t.state p v, tracked := tracked2 } := by
  have hpA : p ∉ t.state.all_connections_ := fun h => by
    have := hc.allTracked p h
    rw [hnt] at this
    exact Bool.noConfusion this
  have hpB : p ∉ t.state.active_connections_ := fun h => by
    have := hc.activeTracked p h
    rw [hnt] at this
    exact Bool.noConfusion this
  have hne : ∀ z, tracked2 z = true → z ≠ p := by
    intro z hz hzp
    rw [hzp, ht2p] at hz
    exact Bool.noConfusion hz
  refine ⟨Ordered_store _ p v _ hpA hc.ordAll, Ordered_store _ p v _ hpB hc.ordActive,
    ?_, ?_, ?_, ?_⟩
  · intro z hz
    have hzp : z ≠ p := fun e => hpA (e ▸ hz)
    show tracked2 z = true
    rw [ht2 z hzp]
    exact hc.allTracked z hz
  · intro z hz
    have hzp : z ≠ p := fun e => hpB (e ▸ hz)
    show tracked2 z = true
    rw [ht2 z hzp]
    exact hc.activeTracked z hz
  · intro z hz h0
    have hz2 : tracked2 z = true := hz
    have hzp := hne z hz2
    rw [ht2 z hzp] at hz2
    have h0z : (t.state.parsers z).last_message_start_ = 0 := by
      simpa [storeParser, Heap.store_other _ _ _ _ hzp] using h0
    exact hc.idleInAll z hz2 h0z
  · intro z hz
    have hz2 : tracked2 z = true := hz
    have hzp := hne z hz2
    rw [ht2 z hzp] at hz2
    simpa [storeParser, Heap.store_other _ _ _ _ hzp] using hc.hasList z hz2

theorem Consistent_messageStart (t : Tracker) (p now : Nat) (hc : Consistent t)
    (hok : callbacksOnTracked t (Op.messageStart p now) = true) :
    Consistent (Op.apply t (Op.messageStart p now)) := by
  by_cases htr : t.tracked p = true
  · have hl := hc.hasList p htr
    have := Consistent_rekey t p (messageStartFields (t.state.parsers p) now) true
      hc htr (by simpa [messageStartFields] using hl)
    simpa [Op.apply, on_message_start_eq t.state p now hl] using this
  · have htr' : t.tracked p = false := by simpa using htr
    have hl : (t.state.parsers p).connectionsList_ = false := by
      simpa [callbacksOnTracked, htr'] using hok
    have := Consistent_store t p (messageStartFields (t.state.parsers p) now)
      t.tracked hc htr' (fun _ _ => rfl) htr'
    simpa [Op.apply, on_message_start_noList t.state p now hl, storeParser] using this

theorem Consistent_messageComplete (t : Tracker) (p : Nat) (hc : Consistent t)
    (hok : callbacksOnTracked t (Op.messageComplete p) = true) :
    Consistent (Op.apply t (Op.messageComplete p)) := by
  by_cases htr : t.tracked p = true
  · have hl := hc.hasList p htr
    have := Consistent_rekey t p (messageCompleteFields (t.state.parsers p)) false
      hc htr (by simpa [messageCompleteFields] using hl)
    simpa [Op.apply, on_message_complete_eq t.state p hl] using this
  · have htr' : t.tracked p = false := by simpa using htr
    have hl : (t.state.parsers p).connectionsList_ = false := by
      simpa [callbacksOnTracked, htr'] using hok
    have := Consistent_store t p (messageCompleteFields (t.state.parsers p))
      t.tracked hc htr' (fun _ _ => rfl) htr'
    simpa [Op.apply, on_message_complete_noList t.state p hl, storeParser] using this

theorem Consistent_remove (t : Tracker) (p : Nat) (hc : Consistent t) :
    Consistent (Op.apply t (Op.remove p)) := by
  by_cases hl : (t.state.parsers p).connectionsList_ = true
  · have eA := erase_left t.state.parsers p _ hc.ordAll
    have eB := erase_left t.state.parsers p _ hc.ordActive
    simp only [Op.apply, Remove, popFromLists_eq t.state p hl]
    refine ⟨eA.1, eB.1, ?_, ?_, ?_, ?_⟩
    · intro z hz
      have hzp : z ≠ p := fun e => eA.2.1 (e ▸ hz)
      simpa [hzp] using hc.allTracked z (eA.2.2.1 z hz)
    · intro z hz
      have hzp : z ≠ p := fun e => eB.2.1 (e ▸ hz)
      simpa [hzp] using hc.activeTracked z (eB.2.2.1 z hz)
    · intro z hz h0
      have hzp : z ≠ p := by
        rintro rfl
        simp at hz
      have hz2 : t.tracked z = true := by simpa [hzp] using hz
      exact eA.2.2.2 z (hc.idleInAll z hz2 h0) hzp h0
    · intro z hz
      have hzp : z ≠ p := by
        rintro rfl
        simp at hz
      have hz2 : t.tracked z = true := by simpa [hzp] using hz
      exact hc.hasList z hz2
  · have hl2 : (t.state.parsers p).connectionsList_ = false := by simpa using hl
    have hnt : t.tracked p = false := by
      by_contra hh
      have := hc.hasList p (by simpa using hh)
      rw [hl2] at this
      exact Bool.noConfusion this
    simp only [Op.apply, Remove, popFromLists_noList t.state p hl2]
    refine ⟨hc.ordAll, hc.ordActive, ?_, ?_, ?_, ?_⟩
    · intro z hz
      have := hc.allTracked z hz
      have hzp : z ≠ p := by
        rintro rfl
        rw [hnt] at this
        exact Bool.noConfusion this
      simpa [hzp] using this
    · intro z hz
      have := hc.activeTracked z hz
      have hzp : z ≠ p := by
        rintro rfl
        rw [hnt] at this
        exact Bool.noConfusion this
      simpa [hzp] using this
    · intro z hz h0
      have hzp : z ≠ p := by
        rintro rfl
        simp at hz
      have hz2 : t.tracked z = true := by simpa [hzp] using hz
      exact hc.idleInAll z hz2 h0
    · intro z hz
      have hzp : z ≠ p := by
        rintro rfl
        simp at hz
      have hz2 : t.tracked z = true := by simpa [hzp] using hz
      exact hc.hasList z hz2

theorem Heap.store_store (h : Heap) (p : Nat) (v w : Parser) :
    Heap.store (Heap.store h p v) p w = Heap.store h p w := by
  funext b
  by_cases hb : b = p <;> simp [Heap.store, hb]

theorem Initialize_eq (s : State) (p : Nat) (arg2 : Option Nat) (env_max now : Nat) :
    Initialize s p arg2 env_max true now =
      { parsers := Heap.store s.parsers p (initializeTimestamp
          (initializeFields (s.parsers p) arg2 env_max true) now),
        all_connections_ :=
          setInsert (ParserComparator (Heap.store s.parsers p (initializeTimestamp
            (initializeFields (s.parsers p) arg2 env_max true) now))) p
            s.all_connections_,
        active_connections_ :=
          setInsert (ParserComparator (Heap.store s.parsers p (initializeTimestamp
            (initializeFields (s.parsers p) arg2 env_max true) now))) p
            s.active_connections_ } := by
  simp [Initialize, Initialize_atAssign, storeParser, Heap.store_same,
    Heap.store_store, Push, PushActive]

theorem Consistent_init_op (t : Tracker) (p : Nat) (arg2 : Option Nat)
    (env_max : Nat) (withList : Bool) (now : Nat) (hc : Consistent t)
    (hnt : t.tracked p = false) :
    Consistent (Op.apply t (Op.init p arg2 env_max withList now)) := by
  cases withList
  · have := Consistent_store t p
      (initializeFields (t.state.parsers p) arg2 env_max false)
      (fun q => if q = p then false else t.tracked q) hc hnt
      (fun z hz => by simp [hz]) (by simp)
    simpa [Op.apply, Initialize] using this
  · -- the write leaves an untracked parser outside the sets
    have c2 := Consistent_store t p
      (initializeTimestamp (initializeFields (t.state.parsers p) arg2 env_max true) now)
      t.tracked hc hnt (fun _ _ => rfl) hnt
    have hpA : p ∉ t.state.all_connections_ := fun h => by
      have := hc.allTracked p h
      rw [hnt] at this
      exact Bool.noConfusion this
    have hpB : p ∉ t.state.active_connections_ := fun h => by
      have := hc.activeTracked p h
      rw [hnt] at this
      exact Bool.noConfusion this
    have iA := insert_fresh _ p _ c2.ordAll hpA
    have iB := insert_fresh _ p _ c2.ordActive hpB
    simp only [Op.apply, Initialize_eq]
    refine ⟨iA.1, iB.1, ?_, ?_, ?_, ?_⟩
    · intro z hz
      by_cases hzp : z = p
      · simp [hzp]
      · simpa [hzp] using hc.allTracked z ((iA.2.1 z hzp).mp hz)
    · intro z hz
      by_cases hzp : z = p
      · simp [hzp]
      · simpa [hzp] using hc.activeTracked z ((iB.2.1 z hzp).mp hz)
    · intro z hz h0
      by_cases hzp : z = p
      · subst hzp
        exact iA.2.2 h0
      · have hz2 : t.tracked z = true := by simpa [hzp] using hz
        exact (iA.2.1 z hzp).mpr (c2.idleInAll z hz2 h0)
    · intro z hz
      by_cases hzp : z = p
      · subst hzp
        simp [Heap.store_same, initializeTimestamp, initializeFields]
      · have hz2 : t.tracked z = true := by simpa [hzp] using hz
        exact c2.hasList z hz2

/-- `Expired` keeps the objects and `all`, and leaves a sub-sequence of the
active set. -/
theorem Expired_sublist (s : State) (arg0 arg1 now : Nat)
    (hord : Ordered (ParserComparator s.parsers) s.active_connections_) :
    List.Sublist (Expired s arg0 arg1 now).2.active_connections_
      s.active_connections_ := by
  by_cases hdl :
      deadline (normalizeTimeouts (toNanos arg0) (toNanos arg1)).1 now ≠ 0 ∨
      deadline (normalizeTimeouts (toNanos arg0) (toNanos arg1)).2 now ≠ 0
  · rw [Expired_eq_loop s arg0 arg1 now hdl]
    show List.Sublist (expiredLoop _ _ _ _ _).2 _
    rw [expiredLoop_snd _ _ _ _ _ hord
      (ordered_nodup (ParserComparator_strictWeak s.parsers) _ hord)
      (fun x hx => hx)]
    exact List.filter_sublist _
  · have h0 : deadline (normalizeTimeouts (toNanos arg0) (toNanos arg1)).1 now = 0 ∧
        deadline (normalizeTimeouts (toNanos arg0) (toNanos arg1)).2 now = 0 := by
      constructor <;> by_contra hh <;> exact hdl (by simp [hh])
    rw [Expired_early_return s arg0 arg1 now (Or.inr h0)]

theorem Consistent_expired (t : Tracker) (arg0 arg1 now : Nat)
    (hc : Consistent t) :
    Consistent (Op.apply t (Op.expired arg0 arg1 now)) := by
  have hsub := Expired_sublist t.state arg0 arg1 now hc.ordActive
  have hfix := Expired_frame t.state arg0 arg1 now
  simp only [Op.apply]
  refine ⟨?_, ?_, ?_, ?_, ?_, ?_⟩
  · show Ordered (ParserComparator (Expired t.state arg0 arg1 now).2.parsers)
      (Expired t.state arg0 arg1 now).2.all_connections_
    rw [hfix.1, hfix.2]
    exact hc.ordAll
  · show Ordered (ParserComparator (Expired t.state arg0 arg1 now).2.parsers)
      (Expired t.state arg0 arg1 now).2.active_connections_
    rw [hfix.2]
    exact List.Pairwise.sublist hsub hc.ordActive
  · intro z hz
    have hz2 : z ∈ (Expired t.state arg0 arg1 now).2.all_connections_ := hz
    rw [hfix.1] at hz2
    exact hc.allTracked z hz2
  · intro z hz
    exact hc.activeTracked z (hsub.subset hz)
  · intro z hz h0
    show z ∈ (Expired t.state arg0 arg1 now).2.all_connections_
    have h0z : ((Expired t.state arg0 arg1 now).2.parsers z).last_message_start_ = 0 := h0
    rw [hfix.2] at h0z
    rw [hfix.1]
    exact hc.idleInAll z hz h0z
  · intro z hz
    show ((Expired t.state arg0 arg1 now).2.parsers z).connectionsList_ = true
    rw [hfix.2]
    exact hc.hasList z hz

theorem Consistent_step (t : Tracker) (op : Op) (hc : Consistent t)
    (hok : callbacksOnTracked t op = true) : Consistent (Op.apply t op) := by
  cases op with
  | init p arg2 env_max withList now =>
    exact Consistent_init_op t p arg2 env_max withList now hc
      (by simpa [callbacksOnTracked] using hok)
  | messageStart p now => exact Consistent_messageStart t p now hc hok
  | messageComplete p => exact Consistent_messageComplete t p hc hok
  | remove p => exact Consistent_remove t p hc
  | expired arg0 arg1 now => exact Consistent_expired t arg0 arg1 now hc

theorem Consistent_run :
    ∀ (ops : List Op) (t0 t : Tracker), Consistent t0 →
      run callbacksOnTracked t0 ops = some t → Consistent t
  | [], t0, t, hc, hrun => by
    simp only [run, Option.some.injEq] at hrun
    exact hrun ▸ hc
  | op :: ops, t0, t, hc, hrun => by
    by_cases hok : callbacksOnTracked t0 op = true
    · simp only [run, hok, if_true] at hrun
      exact Consistent_run ops _ t (Consistent_step t0 op hc hok) hrun
    · simp [run, hok] at hrun

/-- C5, counterexample: parser 1 is initialized with the list, removed, and
then completes a message. `on_message_complete` pushes it back into `all`, so
`Idle` returns parser 1 although it has been removed and is not tracked. -/
theorem Idle_returns_removed :
    (run initializeOnUntracked Tracker.init
        [Op.init 1 (some 0) 16384 true 5, Op.remove 1, Op.messageComplete 1]).map
      (fun t => (Idle t.state, t.tracked 1,
        (t.state.parsers 1).last_message_start_)) = some ([1], false, 0) := by
  decide

/-- C5 as amended: after any finite sequence of `Initialize` (on a parser not
currently tracked), `on_message_start` and `on_message_complete` (on a parser
that is currently tracked, or that has no connections list), `Remove` and
`Expired`, every parser appears at most once in each of `all` and `active`,
and `Idle` returns, each once, exactly the tracked parsers (initialized with
the list and not removed since) whose `last_message_start` is 0. -/
theorem tracker_consistency (ops : List Op) (t : Tracker)
    (hrun : run callbacksOnTracked Tracker.init ops = some t) :
    t.state.all_connections_.Nodup ∧ t.state.active_connections_.Nodup ∧
    (Idle t.state).Nodup ∧
    ∀ p, p ∈ Idle t.state ↔
      (t.tracked p = true ∧ (t.state.parsers p).last_message_start_ = 0) := by
  have hc := Consistent_run ops Tracker.init t Consistent_init hrun
  have hsw := ParserComparator_strictWeak t.state.parsers
  have hnd := ordered_nodup hsw _ hc.ordAll
  refine ⟨hnd, ordered_nodup hsw _ hc.ordActive, List.Nodup.filter _ hnd, ?_⟩
  intro p
  simp only [Idle, List.mem_filter, beq_iff_eq]
  exact ⟨fun h => ⟨hc.allTracked p h.1, h.2⟩, fun h => ⟨hc.idleInAll p h.1 h.2, h.2⟩⟩

/-- Witness of C5 as amended: two parsers initialized at the same clock
reading, the first completes its message, the second starts one. -/
theorem tracker_consistency_witness :
    run callbacksOnTracked Tracker.init exampleOps = some exampleTracker ∧
    Idle exampleTracker.state = [1] ∧
    (∀ p, p ∈ Idle exampleTracker.state ↔
      (exampleTracker.tracked p = true ∧
        (exampleTracker.state.parsers p).last_message_start_ = 0)) :=
  ⟨rfl, by decide, (tracker_consistency exampleOps exampleTracker rfl).2.2.2⟩

/-! ## Claims on the order of the sets -/

/-- C14, the code at the failing input: parsers 1 and 2 are distinct and carry
the same non-zero timestamp 5; the comparator says neither is less than the
other, so they are equivalent and pointer identity does not break the tie. -/
theorem equal_timestamps_equivalent :
    (1 : Nat) ≠ 2 ∧
    (exampleHeap 1).last_message_start_ = 5 ∧
    (exampleHeap 2).last_message_start_ = 5 ∧
    ParserComparator exampleHeap 1 2 = false ∧
    ParserComparator exampleHeap 2 1 = false ∧
    equiv (ParserComparator exampleHeap) 1 2 = true := by
  decide

/-- C15, counterexample: parser 0 is idle (timestamp 0) and parser 1 is active
(timestamp 5); the comparator puts the idle parser first: `cmp(0, 1)` is true
and `cmp(1, 0)` is false. -/
theorem idle_before_active_example :
    (exampleHeap 0).last_message_start_ = 0 ∧
    (exampleHeap 1).last_message_start_ ≠ 0 ∧
    ParserComparator exampleHeap 0 1 = true ∧
    ParserComparator exampleHeap 1 0 = false := by
  decide

/-- C15 as amended: idle parsers sort before active ones: for every parser `a`
with `last_message_start == 0` and every parser `b` with
`last_message_start != 0`, `cmp(a, b)` is true and `cmp(b, a)` is false (a zero
timestamp is treated as less than every non-zero timestamp). -/
theorem idle_sorts_before_active (h : Heap) (a b : Nat)
    (ha : (h a).last_message_start_ = 0) (hb : (h b).last_message_start_ ≠ 0) :
    ParserComparator h a b = true ∧ ParserComparator h b a = false := by
  simp [ParserComparator, ha, hb]

/-- Witness of C15 as amended: the idle parser 0 and the active parser 3. -/
theorem idle_sorts_before_active_witness :
    ParserComparator exampleHeap 0 3 = true ∧
    ParserComparator exampleHeap 3 0 = false :=
  idle_sorts_before_active exampleHeap 0 3 (by decide) (by decide)

/-- C17: `ParserComparator` is a strict weak ordering: it is irreflexive and
transitive, and its incomparability relation (neither less than the other) is
reflexive, symmetric and transitive. -/
theorem ParserComparator_strict_weak_order (h : Heap) :
    (∀ a, ParserComparator h a a = false) ∧
    (∀ a b c, ParserComparator h a b = true → ParserComparator h b c = true →
      ParserComparator h a c = true) ∧
    (∀ a, equiv (ParserComparator h) a a = true) ∧
    (∀ a b, equiv (ParserComparator h) a b = true →
      equiv (ParserComparator h) b a = true) ∧
    (∀ a b c, equiv (ParserComparator h) a b = true →
      equiv (ParserComparator h) b c = true →
      equiv (ParserComparator h) a c = true) := by
  have hsw := ParserComparator_strictWeak h
  refine ⟨hsw.irrefl, hsw.trans, ?_, ?_, ?_⟩
  · intro a
    simp [equiv, hsw.irrefl a]
  · intro a b hab
    simp only [equiv, Bool.and_eq_true, Bool.not_eq_true'] at hab ⊢
    exact ⟨hab.2, hab.1⟩
  · intro a b c hab hbc
    simp only [equiv, Bool.and_eq_true, Bool.not_eq_true'] at hab hbc ⊢
    exact hsw.incomp a b c hab.1 hab.2 hbc.1 hbc.2

/-- Witness of C17: transitivity on the idle parser 0 and the active parsers
1 and 3. -/
theorem ParserComparator_strict_weak_order_witness :
    ParserComparator exampleHeap 0 1 = true ∧
    ParserComparator exampleHeap 1 3 = true ∧
    ParserComparator exampleHeap 0 3 = true :=
  ⟨by decide, by decide,
   (ParserComparator_strict_weak_order exampleHeap).2.1 0 1 3 (by decide) (by decide)⟩

/-! ## Claims on the timeouts and deadlines of `Expired` -/

/-- C18: timeout normalisation in `Expired`: the two timeouts are exchanged
when `request_timeout > 0` and `headers_timeout > request_timeout`, and are
used unchanged otherwise; whenever the effective request timeout is non-zero,
the effective headers timeout is less than or equal to it. -/
theorem normalizeTimeouts_spec (headers_timeout request_timeout : Nat) :
    ((request_timeout > 0 ∧ headers_timeout > request_timeout) →
      normalizeTimeouts headers_timeout request_timeout =
        (request_timeout, headers_timeout)) ∧
    (¬ (request_timeout > 0 ∧ headers_timeout > request_timeout) →
      normalizeTimeouts headers_timeout request_timeout =
        (headers_timeout, request_timeout)) ∧
    ((normalizeTimeouts headers_timeout request_timeout).2 ≠ 0 →
      (normalizeTimeouts headers_timeout request_timeout).1 ≤
        (normalizeTimeouts headers_timeout request_timeout).2) := by
  unfold normalizeTimeouts
  by_cases hc : request_timeout > 0 ∧ headers_timeout > request_timeout
  · simp [hc]
    omega
  · simp [hc]
    omega

/-- Witness of C18: a headers timeout of 3 ms with a request timeout of 2 ms
is exchanged; with a request timeout of 0 it is not. -/
theorem normalizeTimeouts_spec_witness :
    normalizeTimeouts (toNanos 3) (toNanos 2) = (toNanos 2, toNanos 3) ∧
    normalizeTimeouts (toNanos 3) (toNanos 0) = (toNanos 3, toNanos 0) ∧
    (normalizeTimeouts (toNanos 3) (toNanos 2)).1 ≤
      (normalizeTimeouts (toNanos 3) (toNanos 2)).2 :=
  ⟨(normalizeTimeouts_spec (toNanos 3) (toNanos 2)).1 (by decide),
   (normalizeTimeouts_spec (toNanos 3) (toNanos 0)).2.1 (by decide),
   (normalizeTimeouts_spec (toNanos 3) (toNanos 2)).2.2 (by decide)⟩

/-- C19, counterexample: with no headers timeout (0), a request timeout of
1 ms and the clock at 2000000, `now > headers_timeout` holds, yet the headers
deadline is 0 and not `now - headers_timeout = 2000000`. -/
theorem zero_timeout_zero_deadline :
    (normalizeTimeouts (toNanos 0) (toNanos 1)).1 = 0 ∧
    2000000 > (normalizeTimeouts (toNanos 0) (toNanos 1)).1 ∧
    deadline (normalizeTimeouts (toNanos 0) (toNanos 1)).1 2000000 = 0 ∧
    deadline (normalizeTimeouts (toNanos 0) (toNanos 1)).1 2000000 ≠
      2000000 - (normalizeTimeouts (toNanos 0) (toNanos 1)).1 := by
  decide

/-- C19 as amended: for every clock reading `now` and every (normalised)
timeout, the deadline (headers_deadline from the headers timeout,
request_deadline from the request timeout) equals `now - timeout` if
`timeout > 0` and `now > timeout`, and equals 0 otherwise; the subtraction
never underflows and a zero timeout gives a zero deadline. -/
theorem deadline_spec (timeout now : Nat) :
    ((timeout > 0 ∧ now > timeout) →
      deadline timeout now = now - timeout ∧
      (deadline timeout now : Int) = (now : Int) - (timeout : Int)) ∧
    (¬ (timeout > 0 ∧ now > timeout) → deadline timeout now = 0) ∧
    deadline 0 now = 0 := by
  unfold deadline
  refine ⟨?_, ?_, by simp⟩
  · intro hc
    simp [hc]
    omega
  · intro hc
    simp only [gt_iff_lt, Bool.and_eq_true, decide_eq_true_eq]
    rw [if_neg hc]

/-- Witness of C19 as amended: a timeout of 1 ms read at 2000007. -/
theorem deadline_spec_witness :
    deadline (toNanos 1) 2000007 = 1000007 ∧ deadline (toNanos 3) 2000007 = 0 :=
  ⟨((deadline_spec (toNanos 1) 2000007).1 (by decide)).1.trans (by decide),
   (deadline_spec (toNanos 3) 2000007).2.1 (by decide)⟩

/-! ## Trailing whitespace of header values -/

theorem Data.ToString_eq (d : Data) : Data.ToString d = d := by
  unfold Data.ToString Data.size_
  cases d with
  | nil => rfl
  | cons c cs => simp

theorem take_trimmedSize (d : List Char) :
    ∀ n, n ≤ d.length →
      d.take (trimmedSize d n) = (d.take n).rdropWhile isTrailingSpace
  | 0, _ => by simp [trimmedSize]
  | n + 1, hn => by
    have hlt : n < d.length := hn
    have hget : d.getD n (Char.ofNat 0) = d[n] := by
      simp [List.getD, List.getElem?_eq_getElem hlt]
    have htake : d.take (n + 1) = d.take n ++ [d[n]] := by
      rw [List.take_succ, List.getElem?_eq_getElem hlt]
      rfl
    rw [htake, List.rdropWhile_concat]
    simp only [trimmedSize, hget]
    by_cases hc : isTrailingSpace d[n] = true
    · simp only [hc, if_true]
      exact take_trimmedSize d n (Nat.le_of_lt hlt)
    · simp only [hc, Bool.false_eq_true, if_false]
      exact htake

theorem ToTrimmedString_eq_rdropWhile (d : Data) :
    Data.ToTrimmedString d = d.rdropWhile isTrailingSpace := by
  unfold Data.ToTrimmedString Data.size_
  by_cases h0 : d.length = 0
  · have : d = [] := List.length_eq_zero.mp h0
    subst this
    simp
  · have := take_trimmedSize d d.length (Nat.le_refl _)
    simp only [List.take_length] at this
    simp [h0, this]

theorem rdropWhile_append_rtakeWhile (p : Char → Bool) (l : List Char) :
    l.rdropWhile p ++ l.rtakeWhile p = l := by
  simp only [List.rdropWhile, List.rtakeWhile]
  rw [← List.reverse_append, List.takeWhile_append_dropWhile, List.reverse_reverse]

theorem mem_rtakeWhile (p : Char → Bool) (l : List Char) :
    ∀ c ∈ l.rtakeWhile p, p c = true := by
  intro c hc
  simp only [List.rtakeWhile, List.mem_reverse] at hc
  exact List.mem_takeWhile_imp hc

theorem headerPairs_length (fields values : Nat → Data) :
    ∀ n, (headerPairs fields values n).length = 2 * n
  | 0 => rfl
  | n + 1 => by
    simp [headerPairs, headerPairs_length fields values n]
    omega

theorem headerPairs_get (fields values : Nat → Data) :
    ∀ n i, i < n →
      (headerPairs fields values n)[2 * i]? = some (Data.ToString (fields i)) ∧
      (headerPairs fields values n)[2 * i + 1]? =
        some (Data.ToTrimmedString (values i))
  | 0, i, h => absurd h (Nat.not_lt_zero i)
  | n + 1, i, h => by
    have hlen := headerPairs_length fields values n
    by_cases hi : i < n
    · have ih := headerPairs_get fields values n i hi
      simp only [headerPairs]
      rw [List.getElem?_append_left (by omega), List.getElem?_append_left (by omega)]
      exact ih
    · have hin : i = n := by omega
      subst hin
      simp only [headerPairs]
      rw [List.getElem?_append_right (by omega), List.getElem?_append_right (by omega)]
      simp [hlen]

/-- C12: trailing-whitespace stripping. `Data::ToTrimmedString` strips the
bytes SP (32) and HTAB (9): its result is a prefix of `v`, what follows it in
`v` is only SP/HTAB, its last byte is neither, it is the longest such prefix,
it is empty when `v` consists only of SP/HTAB (or is empty), and applying it
twice equals applying it once. `CreateHeaders` yields, for each of the
`num_header_values_` headers in order, the name as it is and the value
trimmed. -/
theorem ToTrimmedString_strips_trailing (v : Data) (q : Parser) :
    (∀ c, isTrailingSpace c = true ↔ (c = Char.ofNat 32 ∨ c = Char.ofNat 9)) ∧
    (Char.ofNat 32).toNat = 32 ∧ (Char.ofNat 9).toNat = 9 ∧
    (∃ s, v = Data.ToTrimmedString v ++ s ∧ ∀ c ∈ s, isTrailingSpace c = true) ∧
    (∀ h : Data.ToTrimmedString v ≠ [],
      isTrailingSpace ((Data.ToTrimmedString v).getLast h) = false) ∧
    (∀ p : List Char, p <+: v →
      (∀ h : p ≠ [], isTrailingSpace (p.getLast h) = false) →
      p.length ≤ (Data.ToTrimmedString v).length) ∧
    ((∀ c ∈ v, isTrailingSpace c = true) → Data.ToTrimmedString v = []) ∧
    Data.ToTrimmedString (Data.ToTrimmedString v) = Data.ToTrimmedString v ∧
    (CreateHeaders q).length = 2 * q.num_header_values_ ∧
    (∀ i, i < q.num_header_values_ →
      (CreateHeaders q)[2 * i]? = some (q.header_fields_ i) ∧
      (CreateHeaders q)[2 * i + 1]? =
        some (Data.ToTrimmedString (q.header_values_ i))) := by
  have hsplit := rdropWhile_append_rtakeWhile isTrailingSpace v
  have hws := mem_rtakeWhile isTrailingSpace v
  rw [ToTrimmedString_eq_rdropWhile]
  refine ⟨?_, by decide, by decide, ⟨_, hsplit.symm, hws⟩, ?_, ?_, ?_, ?_, ?_, ?_⟩
  · intro c
    simp only [isTrailingSpace, Bool.or_eq_true, beq_iff_eq]
  · intro h
    simpa using List.rdropWhile_last_not isTrailingSpace v h
  · intro p hp hlast
    by_contra hlen
    have hlt : (v.rdropWhile isTrailingSpace).length < p.length := Nat.lt_of_not_le hlen
    have hpre : v.rdropWhile isTrailingSpace <+: p :=
      List.prefix_of_prefix_length_le (List.rdropWhile_prefix isTrailingSpace v) hp (Nat.le_of_lt hlt)
    obtain ⟨t, ht⟩ := hpre
    obtain ⟨u, hu⟩ := hp
    have htne : t ≠ [] := by
      rintro rfl
      rw [List.append_nil] at ht
      rw [ht] at hlt
      exact Nat.lt_irrefl _ hlt
    have hpne : p ≠ [] := by
      rw [← ht]
      simp [htne]
    have hs : v.rtakeWhile isTrailingSpace = t ++ u := by
      have h1 : v.rdropWhile isTrailingSpace ++ (t ++ u) =
          v.rdropWhile isTrailingSpace ++ v.rtakeWhile isTrailingSpace := by
        rw [hsplit, ← List.append_assoc, ht, hu]
      exact (List.append_cancel_left h1).symm
    have hl := hlast hpne
    have hlastt : p.getLast hpne = t.getLast htne := by
      subst ht
      exact List.getLast_append_of_ne_nil htne
    have hmem : t.getLast htne ∈ v.rtakeWhile isTrailingSpace := by
      rw [hs]
      exact List.mem_append_left _ (List.getLast_mem htne)
    rw [hlastt, hws _ hmem] at hl
    exact Bool.noConfusion hl
  · intro hall
    exact List.rdropWhile_eq_nil_iff.mpr hall
  · rw [ToTrimmedString_eq_rdropWhile]
    exact List.rdropWhile_idempotent isTrailingSpace v
  · exact headerPairs_length _ _ _
  · intro i hi
    have := headerPairs_get q.header_fields_ q.header_values_ q.num_header_values_ i hi
    rw [Data.ToString_eq] at this
    exact this

/-- Witness of C12: the example value keeps its leading and interior spaces
and loses the trailing space, tab, space; a value of one space and one tab
becomes empty. -/
theorem ToTrimmedString_strips_trailing_witness :
    Data.ToTrimmedString exampleValue = " a b".toList ∧
    Data.ToTrimmedString [Char.ofNat 32, Char.ofNat 9] = [] :=
  ⟨by decide,
   (ToTrimmedString_strips_trailing [Char.ofNat 32, Char.ofNat 9]
      Parser.blank).2.2.2.2.2.2.1 (by decide)⟩

/-! ## The headers-complete callback -/

theorem FlushHeaders_frame (q : Parser) (slot : Slot) :
    (FlushHeaders q slot).1.parser_ = q.parser_ ∧
    (FlushHeaders q slot).1.heades_nread_ = q.heades_nread_ ∧
    (FlushHeaders q slot).1.trailers_nread_ = q.trailers_nread_ ∧
    (FlushHeaders q slot).1.num_header_fields_ = q.num_header_fields_ ∧
    (FlushHeaders q slot).1.num_header_values_ = q.num_header_values_ := by
  cases slot <;> simp [FlushHeaders]

theorem FlushTrailers_frame (q : Parser) (slot : Slot) :
    (FlushTrailers q slot).1.parser_ = q.parser_ ∧
    (FlushTrailers q slot).1.heades_nread_ = q.heades_nread_ ∧
    (FlushTrailers q slot).1.trailers_nread_ = q.trailers_nread_ ∧
    (FlushTrailers q slot).1.num_trailer_fields_ = q.num_trailer_fields_ ∧
    (FlushTrailers q slot).1.num_trailer_values_ = q.num_trailer_values_ := by
  cases slot <;> simp [FlushTrailers]

theorem headersArguments_frame (q : Parser) (flush : Slot) :
    (headersArguments q flush).1.parser_ = q.parser_ ∧
    (headersArguments q flush).1.heades_nread_ = q.heades_nread_ ∧
    (headersArguments q flush).1.trailers_nread_ = q.trailers_nread_ := by
  unfold headersArguments
  have hf := FlushHeaders_frame q flush
  split <;> simp [hf.1, hf.2.1, hf.2.2.1]

theorem trailersArguments_frame (q : Parser) (flush : Slot) :
    (trailersArguments q flush).1.parser_ = q.parser_ ∧
    (trailersArguments q flush).1.heades_nread_ = q.heades_nread_ ∧
    (trailersArguments q flush).1.trailers_nread_ = q.trailers_nread_ := by
  unfold trailersArguments
  have hf := FlushTrailers_frame q flush
  split <;> simp [hf.1, hf.2.1, hf.2.2.1]

/-- C13, counterexample: the headers-complete handler returns `undefined`,
which is not an integer. `IntegerValue` converts it to 0, so `on_headers`
returns 0, not -1, and neither sets `got_exception_` nor `skip_body`. The same
happens for `NaN`. -/
theorem on_headers_undefined_result :
    JsValue.undefined.isInteger = false ∧
    (on_headers limit100 Slot.absent (Slot.returning JsValue.undefined)).rv = 0 ∧
    (on_headers limit100 Slot.absent
      (Slot.returning JsValue.undefined)).parser.got_exception_ = false ∧
    (on_headers limit100 Slot.absent
      (Slot.returning JsValue.undefined)).parser.parser_.skip_body = false ∧
    JsValue.nan.isInteger = false ∧
    (on_headers limit100 Slot.absent (Slot.returning JsValue.nan)).rv = 0 ∧
    (on_headers limit100 Slot.absent
      (Slot.returning JsValue.nan)).parser.got_exception_ = false := by
  decide

/-- C13 as amended: `skip_body` from `on_headers`. For every result of the
headers-complete handler that `IntegerValue` converts to an integer `val` (an
integer converts to itself; `undefined` and `NaN`, which are not integers,
convert to 0), `on_headers` returns 0; it sets `parser_->skip_body` to true
when `val > 0` and leaves it unchanged when `val <= 0`. When the handler
throws, or returns a value whose conversion to an integer fails (such as a
Symbol), `on_headers` returns -1 and sets `got_exception_`. -/
theorem on_headers_skip_body (q : Parser) (flush : Slot) :
    (∀ val : Int,
      (on_headers q flush (Slot.returns (some val))).rv = 0 ∧
      (val > 0 →
        (on_headers q flush (Slot.returns (some val))).parser.parser_.skip_body
          = true) ∧
      (val ≤ 0 →
        (on_headers q flush (Slot.returns (some val))).parser.parser_.skip_body
          = q.parser_.skip_body)) ∧
    ((on_headers q flush Slot.throws).rv = -1 ∧
      (on_headers q flush Slot.throws).parser.got_exception_ = true) ∧
    ((on_headers q flush (Slot.returns none)).rv = -1 ∧
      (on_headers q flush (Slot.returns none)).parser.got_exception_ = true) ∧
    (∀ v : JsValue,
      (on_headers q flush (Slot.returning v)).rv =
        (if v.IntegerValue.isSome then 0 else -1)) ∧
    ((on_headers q flush (Slot.returning JsValue.symbol)).rv = -1 ∧
      (on_headers q flush
        (Slot.returning JsValue.symbol)).parser.got_exception_ = true) := by
  refine ⟨?_, ⟨rfl, rfl⟩, ⟨rfl, rfl⟩, fun v => by cases v <;> rfl, ⟨rfl, rfl⟩⟩
  intro val
  have hf := headersArguments_frame
    { q with headers_completed_ := true, heades_nread_ := 0 } flush
  refine ⟨rfl, ?_, ?_⟩
  · intro hv
    simp [on_headers, hv, setSkipBody]
  · intro hv
    have hv2 : ¬ (val > 0) := by omega
    simp only [on_headers, hv2, if_false]
    rw [hf.1]

/-- Witness of C13 as amended: the handler returns 1, then 0, on a parser
whose `skip_body` is clear. -/
theorem on_headers_skip_body_witness :
    (on_headers limit100 Slot.absent (Slot.returns (some 1))).parser.parser_.skip_body
      = true ∧
    (on_headers limit100 Slot.absent (Slot.returns (some 0))).parser.parser_.skip_body
      = false :=
  ⟨((on_headers_skip_body limit100 Slot.absent).1 1).2.1 (by decide),
   (((on_headers_skip_body limit100 Slot.absent).1 0).2.2 (by decide)).trans (by decide)⟩

/-! ## What the byte counts add up -/

theorem on_message_complete_js_counts (q : Parser) (flush complete : Slot) :
    (on_message_complete_js q flush complete).parser.heades_nread_ =
      q.heades_nread_ ∧
    (on_message_complete_js q flush complete).parser.trailers_nread_ =
      q.trailers_nread_ := by
  have hf := FlushTrailers_frame q flush
  unfold on_message_complete_js
  by_cases hq : q.trailers_flushed_ = true
  · cases complete <;> simp [hq, hf.2.1, hf.2.2.1]
  · cases complete <;> simp [hq]

/-- The effect of one callback on the two byte counts. -/
theorem Event_run_counts (q : Parser) (e : Event) (r : CbResult)
    (h : e.run q = some r) :
    r.parser.heades_nread_ =
      (if e.resetsHeaderCount then 0
       else match e.headerSpan with
         | some len => (q.heades_nread_ + len) % UINT64_MOD
         | none => q.heades_nread_) ∧
    r.parser.trailers_nread_ =
      (if e.resetsTrailerCount then 0
       else match e.trailerSpan with
         | some len => (q.trailers_nread_ + len) % UINT64_MOD
         | none => q.trailers_nread_) := by
  cases e with
  | message_start now begin_ =>
    simp only [Event.run, Option.some.injEq] at h
    subst h
    cases begin_ <;>
      simp [on_message_start_js, messageStartFields, Event.resetsHeaderCount,
        Event.resetsTrailerCount, Event.headerSpan, Event.trailerSpan]
  | url data length =>
    simp only [Event.run, Option.some.injEq] at h
    subst h
    have hs := TrackHeader_step q length
    simp only [on_url, Event.resetsHeaderCount, Event.resetsTrailerCount,
      Event.headerSpan, Event.trailerSpan]
    split <;> simp [hs.1, hs.2.2.1]
  | reason data length =>
    simp only [Event.run, Option.some.injEq] at h
    subst h
    have hs := TrackHeader_step q length
    simp only [on_reason, Event.resetsHeaderCount, Event.resetsTrailerCount,
      Event.headerSpan, Event.trailerSpan]
    split <;> simp [hs.1, hs.2.2.1]
  | header_name data length flush =>
    have hs := TrackHeader_step q length
    have hf := FlushHeaders_frame
    simp only [Event.run, on_header_name] at h
    simp only [Event.resetsHeaderCount, Event.resetsTrailerCount,
      Event.headerSpan, Event.trailerSpan]
    split at h
    · simp only [Option.some.injEq] at h
      subst h
      simp [hs.1, hs.2.2.1]
    · split at h
      · exact absurd h (by simp)
      · split at h
        · exact absurd h (by simp)
        · split at h
          · exact absurd h (by simp)
          · simp only [Option.some.injEq] at h
            subst h
            simp only [startHeaderField]
            split <;> simp [hs.1, hs.2.2.1, (hf _ flush).2.1, (hf _ flush).2.2.1]
  | header_value data length =>
    have hs := TrackHeader_step q length
    simp only [Event.run, on_header_value] at h
    simp only [Event.resetsHeaderCount, Event.resetsTrailerCount,
      Event.headerSpan, Event.trailerSpan]
    split at h
    · simp only [Option.some.injEq] at h
      subst h
      simp [hs.1, hs.2.2.1]
    · split at h
      · exact absurd h (by simp)
      · split at h
        · exact absurd h (by simp)
        · split at h
          · exact absurd h (by simp)
          · simp only [Option.some.injEq] at h
            subst h
            simp [hs.1, hs.2.2.1]
  | headers flush complete =>
    simp only [Event.run, Option.some.injEq] at h
    subst h
    have ha := headersArguments_frame
      { q with headers_completed_ := true, heades_nread_ := 0 } flush
    simp only [Event.resetsHeaderCount, Event.resetsTrailerCount,
      Event.headerSpan, Event.trailerSpan]
    cases complete with
    | absent => simp [on_headers]
    | throws => simp [on_headers, ha.2.1, ha.2.2]
    | returns val =>
      cases val with
      | none => simp [on_headers, ha.2.1, ha.2.2]
      | some v =>
        simp only [on_headers]
        split <;> simp [setSkipBody, ha.2.1, ha.2.2]
  | body data length slot =>
    simp only [Event.run, Option.some.injEq] at h
    subst h
    simp only [on_body, Event.resetsHeaderCount, Event.resetsTrailerCount,
      Event.headerSpan, Event.trailerSpan]
    split
    · simp
    · cases slot <;> simp
  | trailer_name data length flush =>
    have hs := TrackTrailer_step q length
    have hf := FlushTrailers_frame
    simp only [Event.run, on_trailer_name] at h
    simp only [Event.resetsHeaderCount, Event.resetsTrailerCount,
      Event.headerSpan, Event.trailerSpan]
    split at h
    · simp only [Option.some.injEq] at h
      subst h
      simp [hs.1, hs.2.2.1]
    · split at h
      · exact absurd h (by simp)
      · split at h
        · exact absurd h (by simp)
        · simp only [Option.some.injEq] at h
          subst h
          simp only [startTrailerField]
          split <;> simp [hs.1, hs.2.2.1, (hf _ flush).2.1, (hf _ flush).2.2.1]
  | trailer_value data length =>
    have hs := TrackTrailer_step q length
    simp only [Event.run, on_trailer_value] at h
    simp only [Event.resetsHeaderCount, Event.resetsTrailerCount,
      Event.headerSpan, Event.trailerSpan]
    split at h
    · simp only [Option.some.injEq] at h
      subst h
      simp [hs.1, hs.2.2.1]
    · split at h
      · exact absurd h (by simp)
      · split at h
        · exact absurd h (by simp)
        · split at h
          · exact absurd h (by simp)
          · simp only [Option.some.injEq] at h
            subst h
            simp [hs.1, hs.2.2.1]
  | trailers flush complete =>
    simp only [Event.run, Option.some.injEq] at h
    subst h
    have ha := trailersArguments_frame
      { q with trailers_completed_ := true, trailers_nread_ := 0 } flush
    simp only [Event.resetsHeaderCount, Event.resetsTrailerCount,
      Event.headerSpan, Event.trailerSpan]
    cases complete with
    | absent => simp [on_trailers]
    | throws => simp [on_trailers, ha.2.1, ha.2.2]
    | returns val =>
      cases val with
      | none => simp [on_trailers, ha.2.1, ha.2.2]
      | some v => simp [on_trailers, ha.2.1, ha.2.2]
  | message_complete flush complete =>
    simp only [Event.run, Option.some.injEq] at h
    subst h
    have hc := on_message_complete_js_counts (messageCompleteFields q) flush complete
    simp only [Event.resetsHeaderCount, Event.resetsTrailerCount,
      Event.headerSpan, Event.trailerSpan]
    simpa [messageCompleteFields] using hc

theorem runEvents_counts :
    ∀ (es : List Event) (q q2 : Parser), runEvents q es = some q2 →
      q.heades_nread_ < UINT64_MOD → q.trailers_nread_ < UINT64_MOD →
      ((∀ e ∈ es, e.resetsHeaderCount = false) →
        q2.heades_nread_ =
          (q.heades_nread_ + (es.map Event.headerBytes).sum) % UINT64_MOD) ∧
      ((∀ e ∈ es, e.resetsTrailerCount = false) →
        q2.trailers_nread_ =
          (q.trailers_nread_ + (es.map Event.trailerBytes).sum) % UINT64_MOD)
  | [], q, q2, hrun, hh, ht => by
    simp only [runEvents, Option.some.injEq] at hrun
    subst hrun
    simp [Nat.mod_eq_of_lt hh, Nat.mod_eq_of_lt ht]
  | e :: es, q, q2, hrun, hh, ht => by
    simp only [runEvents] at hrun
    cases hr : e.run q with
    | none => simp [hr] at hrun
    | some r =>
      simp only [hr] at hrun
      have hc := Event_run_counts q e r hr
      have hpos : 0 < UINT64_MOD := by decide
      have hh2 : r.parser.heades_nread_ < UINT64_MOD := by
        rw [hc.1]
        split
        · exact hpos
        · split
          · exact Nat.mod_lt _ hpos
          · exact hh
      have ht2 : r.parser.trailers_nread_ < UINT64_MOD := by
        rw [hc.2]
        split
        · exact hpos
        · split
          · exact Nat.mod_lt _ hpos
          · exact ht
      have ih := runEvents_counts es r.parser q2 hrun hh2 ht2
      constructor
      · intro hno
        have he : e.resetsHeaderCount = false := hno e (List.mem_cons_self _ _)
        rw [ih.1 (fun x hx => hno x (List.mem_cons_of_mem _ hx)), hc.1]
        simp only [he, Bool.false_eq_true, if_false, List.map_cons, List.sum_cons,
          Event.headerBytes]
        cases e.headerSpan with
        | none => simp
        | some len =>
          simp only [Option.getD_some]
          rw [Nat.add_mod, Nat.mod_mod, ← Nat.add_mod, Nat.add_assoc]
      · intro hno
        have he : e.resetsTrailerCount = false := hno e (List.mem_cons_self _ _)
        rw [ih.2 (fun x hx => hno x (List.mem_cons_of_mem _ hx)), hc.2]
        simp only [he, Bool.false_eq_true, if_false, List.map_cons, List.sum_cons,
          Event.trailerBytes]
        cases e.trailerSpan with
        | none => simp
        | some len =>
          simp only [Option.getD_some]
          rw [Nat.add_mod, Nat.mod_mod, ← Nat.add_mod, Nat.add_assoc]

/-- C20, counterexample: a URL of 5 bytes, a header name of 4 bytes and a
header value of 3 bytes are delivered; the lengths passed to `on_header_name`
and `on_header_value` sum to 7, but the header byte count is 12, because
`on_url` counts its span as well. -/
theorem url_counts_as_header_bytes :
    (runEvents limit100 exampleEvents).map (fun q => q.heades_nread_) = some 12 ∧
    (exampleEvents.map Event.nameValueBytes).sum = 7 ∧
    (on_url limit100 "/path".toList 5).parser.heades_nread_ = 5 ∧
    (on_reason limit100 "OK".toList 2).parser.heades_nread_ = 2 := by
  decide

/-- C20 as amended: between two resets of the counters (the header count is
reset by `on_headers`, the trailer count by `on_trailers`), the header byte
count equals the sum, in the 64-bit counter, of the lengths passed to
`on_url`, `on_reason`, `on_header_name` and `on_header_value`, and the trailer
byte count equals the sum of the lengths passed to `on_trailer_name` and
`on_trailer_value`; no other callback changes either count, and header
callbacks never change the trailer count nor trailer callbacks the header
count. -/
theorem byte_counts (q : Parser) (es : List Event) (q2 : Parser)
    (hrun : runEvents q es = some q2)
    (hh : q.heades_nread_ < UINT64_MOD) (ht : q.trailers_nread_ < UINT64_MOD) :
    ((∀ e ∈ es, e.resetsHeaderCount = false) →
      q2.heades_nread_ =
        (q.heades_nread_ + (es.map Event.headerBytes).sum) % UINT64_MOD) ∧
    ((∀ e ∈ es, e.resetsTrailerCount = false) →
      q2.trailers_nread_ =
        (q.trailers_nread_ + (es.map Event.trailerBytes).sum) % UINT64_MOD) ∧
    (∀ (e : Event) (r : CbResult), e.run q = some r →
      (e.headerSpan = none → e.resetsHeaderCount = false →
        r.parser.heades_nread_ = q.heades_nread_) ∧
      (e.trailerSpan = none → e.resetsTrailerCount = false →
        r.parser.trailers_nread_ = q.trailers_nread_) ∧
      (e.resetsHeaderCount = true → r.parser.heades_nread_ = 0) ∧
      (e.resetsTrailerCount = true → r.parser.trailers_nread_ = 0)) ∧
    (∀ (d : List Char) (n : Nat) (s : Slot),
      (Event.url d n).headerBytes = n ∧ (Event.reason d n).headerBytes = n ∧
      (Event.header_name d n s).headerBytes = n ∧
      (Event.header_value d n).headerBytes = n ∧
      (Event.trailer_name d n s).trailerBytes = n ∧
      (Event.trailer_value d n).trailerBytes = n ∧
      (Event.url d n).trailerSpan = none ∧ (Event.reason d n).trailerSpan = none ∧
      (Event.header_name d n s).trailerSpan = none ∧
      (Event.header_value d n).trailerSpan = none ∧
      (Event.trailer_name d n s).headerSpan = none ∧
      (Event.trailer_value d n).headerSpan = none) := by
  have hc := runEvents_counts es q q2 hrun hh ht
  refine ⟨hc.1, hc.2, ?_, ?_⟩
  · intro e r hr
    have h1 := Event_run_counts q e r hr
    refine ⟨?_, ?_, ?_, ?_⟩
    · intro hs hn
      rw [h1.1, hs, hn]
      rfl
    · intro hs hn
      rw [h1.2, hs, hn]
      rfl
    · intro hn
      rw [h1.1, hn]
      rfl
    · intro hn
      rw [h1.2, hn]
      rfl
  · intro d n s
    exact ⟨rfl, rfl, rfl, rfl, rfl, rfl, rfl, rfl, rfl, rfl, rfl, rfl⟩

/-- Witness of C20 as amended: the example sequence brings the header count
to 5 + 4 + 3 = 12 and leaves the trailer count at 0. -/
theorem byte_counts_witness :
    (runEvents limit100 exampleEvents).isSome = true ∧
    (∀ q2, runEvents limit100 exampleEvents = some q2 →
      q2.heades_nread_ = 12 ∧ q2.trailers_nread_ = 0) := by
  refine ⟨by decide, ?_⟩
  intro q2 hq
  have h := byte_counts limit100 exampleEvents q2 hq (by decide) (by decide)
  exact ⟨(h.1 (by decide)).trans (by decide), (h.2.1 (by decide)).trans (by decide)⟩

/-! ## The error object of `Execute` -/

/-- The buffer of `strlen + 6` bytes holds the whole formatted code. -/
theorem miloCode_eq (s : List Char) : miloCode s = "MILO_".toList ++ s := by
  unfold miloCode snprintf_MILO
  apply List.take_of_length_le
  simp

/-- When an error object is handed back, its code and reason are the surfaced
ones, and the error code is not `ERROR_NONE`. -/
theorem executeReturn_error (api : MiloApi) (q1 : Parser)
    (previous_err nread : Nat) (isFinish : Bool) (n : Int)
    (code reason : List Char)
    (h : executeReturn api q1 previous_err nread isFinish =
      ExecuteReturn.error n code reason) :
    (code, reason) = surfaced api q1 q1.parser_.error_code ∧
    q1.parser_.error_code ≠ ERROR_NONE ∧
    q1.parser_.error_code ≠ previous_err ∧
    q1.got_exception_ = false ∧ n = nreadInteger nread := by
  unfold executeReturn at h
  simp only at h
  split at h
  · exact absurd h (by simp)
  · rename_i hex
    split at h
    · rename_i herr
      simp only [ExecuteReturn.error.injEq] at h
      simp only [Bool.and_eq_true, bne_iff_ne, ne_eq] at herr
      refine ⟨?_, herr.1, herr.2, by simpa using hex, h.1.symm⟩
      rw [← h.2.1, ← h.2.2]
    · split at h <;> exact absurd h (by simp)

/-- C11: surfaced error code. Whenever `Parser::Execute` hands back an error
object, for the parser error code `err`, the code on it is: the host-recorded
code (such as `HPE_HEADER_OVERFLOW`), with its recorded reason, if one was
recorded; otherwise `HPE_UNEXPECTED_CONTENT_LENGTH` if `err` is
ERROR_UNEXPECTED_TRANSFER_ENCODING (6) or ERROR_INVALID_CONTENT_LENGTH (11);
otherwise `MILO_` followed by the whole name `milo_error_code_string`
returns, so that ERROR_UNEXPECTED_CONTENT_LENGTH (5), named
`UNEXPECTED_CONTENT_LENGTH`, surfaces as `MILO_UNEXPECTED_CONTENT_LENGTH`. -/
theorem Execute_surfaced_code (api : MiloApi) (q : Parser)
    (data : Option (List Char)) (len : Nat) (n : Int) (code reason : List Char)
    (h : (Execute api q data len).1 = ExecuteReturn.error n code reason) :
    ((Execute api q data len).2.error_code_.size_ > 0 →
      code = (Execute api q data len).2.error_code_ ∧
      reason = (Execute api q data len).2.error_reason_) ∧
    ((Execute api q data len).2.error_code_.size_ = 0 →
      ((Execute api q data len).2.parser_.error_code =
          ERROR_UNEXPECTED_TRANSFER_ENCODING ∨
        (Execute api q data len).2.parser_.error_code =
          ERROR_INVALID_CONTENT_LENGTH) →
      code = "HPE_UNEXPECTED_CONTENT_LENGTH".toList) ∧
    ((Execute api q data len).2.error_code_.size_ = 0 →
      (Execute api q data len).2.parser_.error_code ≠
        ERROR_UNEXPECTED_TRANSFER_ENCODING →
      (Execute api q data len).2.parser_.error_code ≠
        ERROR_INVALID_CONTENT_LENGTH →
      code = "MILO_".toList ++
        api.milo_error_code_string (Execute api q data len).2.parser_) ∧
    ((Execute api q data len).2.error_code_.size_ = 0 →
      (Execute api q data len).2.parser_.error_code =
        ERROR_UNEXPECTED_CONTENT_LENGTH →
      api.milo_error_code_string (Execute api q data len).2.parser_ =
        milo_error_code_name ERROR_UNEXPECTED_CONTENT_LENGTH →
      code = "MILO_UNEXPECTED_CONTENT_LENGTH".toList) := by
  have he := (executeReturn_error api _ _ _ _ n code reason h).1
  change (code, reason) = surfaced api (Execute api q data len).2
    (Execute api q data len).2.parser_.error_code at he
  generalize (Execute api q data len).2 = q1 at he ⊢
  have hc : code = (surfaced api q1 q1.parser_.error_code).1 := congrArg Prod.fst he
  have hr : reason = (surfaced api q1 q1.parser_.error_code).2 := congrArg Prod.snd he
  refine ⟨?_, ?_, ?_, ?_⟩
  · intro hs
    rw [hc, hr]
    simp [surfaced, hs, Data.ToString_eq]
  · intro hs herr
    have hs2 : ¬ (q1.error_code_.size_ > 0) := by omega
    rw [hc]
    rcases herr with herr | herr <;>
      simp [surfaced, hs2, herr, HPE_UNEXPECTED_CONTENT_LENGTH]
  · intro hs h6 h11
    have hs2 : ¬ (q1.error_code_.size_ > 0) := by omega
    rw [hc]
    simp [surfaced, hs2, h6, h11, miloCode_eq]
  · intro hs h5 hname
    have hs2 : ¬ (q1.error_code_.size_ > 0) := by omega
    rw [hc]
    simp only [surfaced, hs2, if_false, h5, hname, miloCode_eq]
    decide

/-- Witness of C11: a milo call that fails with error 5, and one that fails
with error 6, on a parser with no recorded code. -/
theorem Execute_surfaced_code_witness :
    (Execute (failingApi 5) limit100 (some "GET".toList) 3).1 =
      ExecuteReturn.error 3 "MILO_UNEXPECTED_CONTENT_LENGTH".toList "reason".toList ∧
    (Execute (failingApi 6) limit100 (some "GET".toList) 3).1 =
      ExecuteReturn.error 3 "HPE_UNEXPECTED_CONTENT_LENGTH".toList "reason".toList ∧
    "MILO_UNEXPECTED_CONTENT_LENGTH".toList =
      "MILO_".toList ++ milo_error_code_name 5 := by
  have h5 : (Execute (failingApi 5) limit100 (some "GET".toList) 3).1 =
      ExecuteReturn.error 3 "MILO_UNEXPECTED_CONTENT_LENGTH".toList "reason".toList := by
    decide
  have h := Execute_surfaced_code (failingApi 5) limit100 (some "GET".toList) 3 3
    "MILO_UNEXPECTED_CONTENT_LENGTH".toList "reason".toList h5
  exact ⟨h5, by decide, h.2.2.1 (by decide) (by decide) (by decide)⟩

/-! ## The sets under pairwise distinct clock readings -/

/-- With pairwise distinct non-zero timestamps, erasing `p` removes `p` and
nothing else. -/
theorem erase_mem_distinct (h : Heap) (p : Nat) (l : List Nat)
    (ho : Ordered (ParserComparator h) l)
    (hd : ∀ a b, a ≠ b → (h a).last_message_start_ ≠ 0 →
      (h a).last_message_start_ ≠ (h b).last_message_start_) :
    ∀ z, z ∈ setErase (ParserComparator h) p l ↔ z ∈ l ∧ z ≠ p := by
  intro z
  rw [mem_setErase (ParserComparator_strictWeak h) p l ho z]
  by_cases hz : z = p
  · subst hz
    simp [(ParserComparator_strictWeak h).irrefl z]
  · rw [comparable_iff h z p hz]
    constructor
    · intro hh
      exact ⟨hh.1, hz⟩
    · intro hh
      refine ⟨hh.1, ?_⟩
      by_cases h0 : (h z).last_message_start_ = 0
      · exact Or.inr h0
      · exact Or.inl (hd z p hz h0)

/-- Inserting a parser whose timestamp no other parser carries adds it. -/
theorem insert_mem_fresh (h : Heap) (p : Nat) (l : List Nat)
    (ho : Ordered (ParserComparator h) l) (hp : p ∉ l)
    (hv : ∀ y, y ≠ p → ((h y).last_message_start_ ≠ (h p).last_message_start_ ∨
      (h y).last_message_start_ = 0)) :
    ∀ z, z ∈ setInsert (ParserComparator h) p l ↔ (z = p ∨ z ∈ l) := by
  intro z
  rw [mem_setInsert (ParserComparator_strictWeak h) p l ho z]
  constructor
  · rintro (hz | ⟨hz, _⟩)
    · exact Or.inr hz
    · exact Or.inl hz
  · rintro (hz | hz)
    · refine Or.inr ⟨hz, ?_⟩
      intro y hy
      have hyp : y ≠ p := fun e => hp (e ▸ hy)
      exact (comparable_iff h y p hyp).mpr (hv y hyp)
    · exact Or.inl hz

/-- Re-keying `p` to a timestamp no other parser carries keeps every member
and adds `p`. -/
theorem rekey_mem_fresh (h : Heap) (p : Nat) (v : Parser) (l : List Nat)
    (ho : Ordered (ParserComparator h) l)
    (hd : ∀ a b, a ≠ b → (h a).last_message_start_ ≠ 0 →
      (h a).last_message_start_ ≠ (h b).last_message_start_)
    (hv : ∀ y, y ≠ p → ((h y).last_message_start_ ≠ v.last_message_start_ ∨
      (h y).last_message_start_ = 0)) :
    ∀ z, z ∈ setInsert (ParserComparator (Heap.store h p v)) p
        (setErase (ParserComparator h) p l) ↔ (z = p ∨ z ∈ l) := by
  have r := rekey h p v l ho
  have e := erase_left h p l ho
  intro z
  by_cases hz : z = p
  · subst hz
    simp only [true_or, iff_true]
    refine r.2.2.mpr ?_
    intro y hy
    exact hv y (fun e2 => e.2.1 (e2 ▸ hy))
  · rw [r.2.1 z hz]
    simp only [hz, false_or]
    constructor
    · intro hh
      exact hh.1
    · intro hh
      refine ⟨hh, ?_⟩
      by_cases h0 : (h z).last_message_start_ = 0
      · exact Or.inr h0
      · exact Or.inl (hd z p hz h0)

/-- Writing at `p` an object whose timestamp is 0 or not read before keeps the
non-zero timestamps pairwise distinct. -/
theorem store_distinct (h : Heap) (p : Nat) (v : Parser) (readings : List Nat)
    (hu : ∀ a, (h a).last_message_start_ ≠ 0 →
      (h a).last_message_start_ ∈ readings)
    (hd : ∀ a b, a ≠ b → (h a).last_message_start_ ≠ 0 →
      (h a).last_message_start_ ≠ (h b).last_message_start_)
    (hf : v.last_message_start_ = 0 ∨ v.last_message_start_ ∉ readings) :
    (∀ y, y ≠ p → ((h y).last_message_start_ ≠ v.last_message_start_ ∨
      (h y).last_message_start_ = 0)) ∧
    (∀ a b, a ≠ b → (Heap.store h p v a).last_message_start_ ≠ 0 →
      (Heap.store h p v a).last_message_start_ ≠
        (Heap.store h p v b).last_message_start_) := by
  have h1 : ∀ y, y ≠ p → ((h y).last_message_start_ ≠ v.last_message_start_ ∨
      (h y).last_message_start_ = 0) := by
    intro y _
    by_cases h0 : (h y).last_message_start_ = 0
    · exact Or.inr h0
    · left
      rcases hf with hf | hf
      · rw [hf]; exact h0
      · intro e
        exact hf (e ▸ hu y h0)
  refine ⟨h1, ?_⟩
  intro a b hab ha
  by_cases hap : a = p
  · subst hap
    have hb : b ≠ a := fun e => hab e.symm
    rw [Heap.store_same] at ha ⊢
    rw [Heap.store_other h a b v hb]
    rcases h1 b hb with hh | hh
    · exact fun e => hh e.symm
    · rw [hh]; exact ha
  · rw [Heap.store_other h p a v hap] at ha ⊢
    by_cases hbp : b = p
    · subst hbp
      rw [Heap.store_same]
      rcases h1 a hap with hh | hh
      · exact hh
      · exact absurd hh ha
    · rw [Heap.store_other h p b v hbp]
      exact hd a b hab ha

/-- What `Expired` leaves in the active set: the members it does not return. -/
theorem Expired_active_mem (s : State) (arg0 arg1 now : Nat)
    (hord : Ordered (ParserComparator s.parsers) s.active_connections_) :
    ∀ z, z ∈ (Expired s arg0 arg1 now).2.active_connections_ ↔
      (z ∈ s.active_connections_ ∧ z ∉ (Expired s arg0 arg1 now).1) := by
  intro z
  by_cases hdl :
      deadline (normalizeTimeouts (toNanos arg0) (toNanos arg1)).1 now ≠ 0 ∨
      deadline (normalizeTimeouts (toNanos arg0) (toNanos arg1)).2 now ≠ 0
  · rw [Expired_eq_loop s arg0 arg1 now hdl]
    show z ∈ (expiredLoop _ _ _ _ _).2 ↔ _ ∧ z ∉ (expiredLoop _ _ _ _ _).1
    rw [expiredLoop_snd _ _ _ _ _ hord
      (ordered_nodup (ParserComparator_strictWeak s.parsers) _ hord)
      (fun x hx => hx), expiredLoop_fst]
    simp only [List.mem_filter, Bool.not_eq_true', Bool.and_eq_false_imp,
      decide_eq_true_eq]
    constructor
    · rintro ⟨h1, h2⟩
      refine ⟨h1, ?_⟩
      rintro ⟨_, h3⟩
      rw [h2 h1] at h3
      exact Bool.noConfusion h3
    · rintro ⟨h1, h2⟩
      refine ⟨h1, fun _ => ?_⟩
      by_contra h3
      exact h2 ⟨h1, by simpa using h3⟩
  · have h0 : deadline (normalizeTimeouts (toNanos arg0) (toNanos arg1)).1 now = 0 ∧
        deadline (normalizeTimeouts (toNanos arg0) (toNanos arg1)).2 now = 0 := by
      constructor <;> by_contra hh <;> exact hdl (by simp [hh])
    rw [Expired_early_return s arg0 arg1 now (Or.inr h0)]
    simp

theorem initializeFields_timestamp (q : Parser) (arg2 : Option Nat)
    (env_max : Nat) (withList : Bool) :
    (initializeFields q arg2 env_max withList).last_message_start_ =
      q.last_message_start_ := by
  simp [initializeFields, Init]

theorem Tight_init : Tight Ghost.init := by
  refine ⟨?_, ?_, ?_, ?_⟩ <;> simp [Ghost.init, Tracker.init, Parser.blank]

theorem not_mem_of_untracked (t : Tracker) (hc : Consistent t) (p : Nat)
    (hnt : t.tracked p = false) :
    p ∉ t.state.all_connections_ ∧ p ∉ t.state.active_connections_ := by
  constructor
  · intro h
    have := hc.allTracked p h
    rw [hnt] at this
    exact Bool.noConfusion this
  · intro h
    have := hc.activeTracked p h
    rw [hnt] at this
    exact Bool.noConfusion this

/-- Writing the object of an untracked parser, with a timestamp that is the
old one, 0, or a fresh reading, keeps the timestamps and sets as they should
be. -/
theorem Tight_store (g : Ghost) (p : Nat) (v : Parser) (readings2 : List Nat)
    (tracked2 expired2 : Nat → Bool)
    (hc : Consistent g.t) (ht : Tight g) (hnt : g.t.tracked p = false)
    (ht2 : ∀ z, z ≠ p → tracked2 z = g.t.tracked z) (ht2p : tracked2 p = false)
    (he2 : ∀ z, z ≠ p → expired2 z = g.expired z)
    (hsub : ∀ x ∈ g.readings, x ∈ readings2)
    (hv : v.last_message_start_ = (g.t.state.parsers p).last_message_start_ ∨
      v.last_message_start_ = 0 ∨
      (v.last_message_start_ ∉ g.readings ∧ v.last_message_start_ ∈ readings2)) :
    Tight { t := { state := storeParser g.t.state p v, tracked := tracked2 },
            expired := expired2, readings := readings2 } := by
  have hnm := not_mem_of_untracked g.t hc p hnt
  have hlms : ∀ z, z ≠ p →
      (Heap.store g.t.state.parsers p v z).last_message_start_ =
        (g.t.state.parsers z).last_message_start_ := by
    intro z hz
    rw [Heap.store_other _ _ _ _ hz]
  refine ⟨?_, ?_, ?_, ?_⟩
  · intro z hz
    show (Heap.store g.t.state.parsers p v z).last_message_start_ ∈ readings2
    have hz2 : (Heap.store g.t.state.parsers p v z).last_message_start_ ≠ 0 := hz
    by_cases hzp : z = p
    · subst hzp
      rw [Heap.store_same] at hz2 ⊢
      rcases hv with hv | hv | hv
      · rw [hv] at hz2 ⊢
        exact hsub _ (ht.lmsUsed z hz2)
      · exact absurd hv hz2
      · exact hv.2
    · rw [hlms z hzp] at hz2 ⊢
      exact hsub _ (ht.lmsUsed z hz2)
  · rcases hv with hv | hv
    · -- the timestamps are those of before
      have hsame : ∀ z, (Heap.store g.t.state.parsers p v z).last_message_start_ =
          (g.t.state.parsers z).last_message_start_ := by
        intro z
        by_cases hzp : z = p
        · subst hzp
          rw [Heap.store_same, hv]
        · exact hlms z hzp
      intro a b hab ha
      show (Heap.store g.t.state.parsers p v a).last_message_start_ ≠
        (Heap.store g.t.state.parsers p v b).last_message_start_
      have ha2 : (Heap.store g.t.state.parsers p v a).last_message_start_ ≠ 0 := ha
      rw [hsame a] at ha2 ⊢
      rw [hsame b]
      exact ht.distinct a b hab ha2
    · exact (store_distinct g.t.state.parsers p v g.readings ht.lmsUsed ht.distinct
        (by rcases hv with hv | hv
            · exact Or.inl hv
            · exact Or.inr hv.1)).2
  · intro z hz
    have hz2 : tracked2 z = true := hz
    have hzp : z ≠ p := by
      rintro rfl
      rw [ht2p] at hz2
      exact Bool.noConfusion hz2
    rw [ht2 z hzp] at hz2
    exact ht.trackedInAll z hz2
  · intro z
    show z ∈ g.t.state.active_connections_ ↔
      (tracked2 z = true ∧
        (Heap.store g.t.state.parsers p v z).last_message_start_ ≠ 0 ∧
        expired2 z = false)
    by_cases hzp : z = p
    · subst hzp
      simp [ht2p, hnm.2]
    · rw [ht2 z hzp, he2 z hzp, hlms z hzp]
      exact ht.activeIff z

/-- Re-keying a tracked parser to the timestamp 0 (then it leaves `active`) or
to a fresh reading (then it is in `active`). -/
theorem Tight_rekey (g : Ghost) (p : Nat) (v : Parser) (both : Bool)
    (readings2 : List Nat) (expired2 : Nat → Bool)
    (hc : Consistent g.t) (ht : Tight g) (htr : g.t.tracked p = true)
    (he2 : ∀ z, z ≠ p → expired2 z = g.expired z) (he2p : expired2 p = false)
    (hsub : ∀ x ∈ g.readings, x ∈ readings2)
    (hv : (both = false ∧ v.last_message_start_ = 0) ∨
      (both = true ∧ v.last_message_start_ ≠ 0 ∧
        v.last_message_start_ ∉ g.readings ∧ v.last_message_start_ ∈ readings2)) :
    Tight
      { t :=
          { state :=
              { parsers := Heap.store g.t.state.parsers p v,
                all_connections_ :=
                  setInsert (ParserComparator (Heap.store g.t.state.parsers p v)) p
                    (setErase (ParserComparator g.t.state.parsers) p
                      g.t.state.all_connections_),
                active_connections_ :=
                  if both then
                    setInsert (ParserComparator (Heap.store g.t.state.parsers p v)) p
                      (setErase (ParserComparator g.t.state.parsers) p
                        g.t.state.active_connections_)
                  else
                    setErase (ParserComparator g.t.state.parsers) p
                      g.t.state.active_connections_ },
            tracked := g.t.tracked },
        expired := expired2, readings := readings2 } := by
  have hf : v.last_message_start_ = 0 ∨ v.last_message_start_ ∉ g.readings := by
    rcases hv with hv | hv
    · exact Or.inl hv.2
    · exact Or.inr hv.2.2.1
  have sd := store_distinct g.t.state.parsers p v g.readings ht.lmsUsed ht.distinct hf
  have mA := rekey_mem_fresh g.t.state.parsers p v _ hc.ordAll ht.distinct sd.1
  have mB := rekey_mem_fresh g.t.state.parsers p v _ hc.ordActive ht.distinct sd.1
  have eB := erase_mem_distinct g.t.state.parsers p _ hc.ordActive ht.distinct
  refine ⟨?_, sd.2, ?_, ?_⟩
  · intro z hz
    show (Heap.store g.t.state.parsers p v z).last_message_start_ ∈ readings2
    have hz2 : (Heap.store g.t.state.parsers p v z).last_message_start_ ≠ 0 := hz
    by_cases hzp : z = p
    · subst hzp
      rw [Heap.store_same] at hz2 ⊢
      rcases hv with hv | hv
      · exact absurd hv.2 hz2
      · exact hv.2.2.2
    · rw [Heap.store_other _ _ _ _ hzp] at hz2 ⊢
      exact hsub _ (ht.lmsUsed z hz2)
  · intro z hz
    have hz2 : g.t.tracked z = true := hz
    exact (mA z).mpr (Or.inr (ht.trackedInAll z hz2))
  · intro z
    show z ∈ (if both then
        setInsert (ParserComparator (Heap.store g.t.state.parsers p v)) p
          (setErase (ParserComparator g.t.state.parsers) p
            g.t.state.active_connections_)
        else setErase (ParserComparator g.t.state.parsers) p
          g.t.state.active_connections_) ↔
      (g.t.tracked z = true ∧
        (Heap.store g.t.state.parsers p v z).last_message_start_ ≠ 0 ∧
        expired2 z = false)
    by_cases hzp : z = p
    · subst hzp
      rw [Heap.store_same]
      rcases hv with hv | hv
      · simp [hv.1, hv.2, eB]
      · simp [hv.1, hv.2.1, mB, htr, he2p]
    · rw [Heap.store_other _ _ _ _ hzp, he2 z hzp, ← ht.activeIff z]
      cases both
      · simp [eB, hzp]
      · simp [mB, hzp]

/-- `Initialize` with a list, on an untracked parser, at a fresh reading. -/
theorem Tight_insert (g : Ghost) (p : Nat) (v : Parser)
    (tracked2 expired2 : Nat → Bool)
    (hc : Consistent g.t) (ht : Tight g) (hnt : g.t.tracked p = false)
    (ht2 : ∀ z, z ≠ p → tracked2 z = g.t.tracked z) (ht2p : tracked2 p = true)
    (he2 : ∀ z, z ≠ p → expired2 z = g.expired z) (he2p : expired2 p = false)
    (hv0 : v.last_message_start_ ≠ 0)
    (hvf : v.last_message_start_ ∉ g.readings) :
    Tight
      { t :=
          { state :=
              { parsers := Heap.store g.t.state.parsers p v,
                all_connections_ :=
                  setInsert (ParserComparator (Heap.store g.t.state.parsers p v)) p
                    g.t.state.all_connections_,
                active_connections_ :=
                  setInsert (ParserComparator (Heap.store g.t.state.parsers p v)) p
                    g.t.state.active_connections_ },
            tracked := tracked2 },
        expired := expired2, readings := v.last_message_start_ :: g.readings } := by
  have hnm := not_mem_of_untracked g.t hc p hnt
  have sd := store_distinct g.t.state.parsers p v g.readings ht.lmsUsed ht.distinct
    (Or.inr hvf)
  have hv2 : ∀ y, y ≠ p →
      ((Heap.store g.t.state.parsers p v y).last_message_start_ ≠
          (Heap.store g.t.state.parsers p v p).last_message_start_ ∨
        (Heap.store g.t.state.parsers p v y).last_message_start_ = 0) := by
    intro y hy
    rw [Heap.store_other _ _ _ _ hy, Heap.store_same]
    exact sd.1 y hy
  have mA := insert_mem_fresh (Heap.store g.t.state.parsers p v) p _
    (Ordered_store _ p v _ hnm.1 hc.ordAll) hnm.1 hv2
  have mB := insert_mem_fresh (Heap.store g.t.state.parsers p v) p _
    (Ordered_store _ p v _ hnm.2 hc.ordActive) hnm.2 hv2
  refine ⟨?_, sd.2, ?_, ?_⟩
  · intro z hz
    show (Heap.store g.t.state.parsers p v z).last_message_start_ ∈
      v.last_message_start_ :: g.readings
    have hz2 : (Heap.store g.t.state.parsers p v z).last_message_start_ ≠ 0 := hz
    by_cases hzp : z = p
    · subst hzp
      rw [Heap.store_same]
      exact List.mem_cons_self _ _
    · rw [Heap.store_other _ _ _ _ hzp] at hz2 ⊢
      exact List.mem_cons_of_mem _ (ht.lmsUsed z hz2)
  · intro z hz
    have hz2 : tracked2 z = true := hz
    by_cases hzp : z = p
    · exact (mA z).mpr (Or.inl hzp)
    · rw [ht2 z hzp] at hz2
      exact (mA z).mpr (Or.inr (ht.trackedInAll z hz2))
  · intro z
    show z ∈ setInsert (ParserComparator (Heap.store g.t.state.parsers p v)) p
        g.t.state.active_connections_ ↔
      (tracked2 z = true ∧
        (Heap.store g.t.state.parsers p v z).last_message_start_ ≠ 0 ∧
        expired2 z = false)
    rw [mB z]
    by_cases hzp : z = p
    · subst hzp
      simp [Heap.store_same, ht2p, he2p, hv0]
    · rw [Heap.store_other _ _ _ _ hzp, he2 z hzp, ht2 z hzp, ← ht.activeIff z]
      simp [hzp]

theorem Tight_step (g : Ghost) (op : Op) (hc : Consistent g.t) (ht : Tight g)
    (hok : callbacksOnTracked g.t op = true) (hfr : freshReading g op = true) :
    Tight (Op.applyGhost g op) := by
  cases op with
  | init p arg2 env_max withList now =>
    have hnt : g.t.tracked p = false := by simpa [callbacksOnTracked] using hok
    cases withList
    · have := Tight_store g p
        (initializeFields (g.t.state.parsers p) arg2 env_max false) g.readings
        (fun q => if q = p then false else g.t.tracked q)
        (fun q => if q = p then false else g.expired q) hc ht hnt
        (fun z hz => by simp [hz]) (by simp) (fun z hz => by simp [hz])
        (fun x hx => hx) (Or.inl (initializeFields_timestamp _ _ _ _))
      simpa [Op.applyGhost, Op.apply, Op.expiredAfter, Op.reading, Initialize]
        using this
    · have hfr2 : now ≠ 0 ∧ now ∉ g.readings := by
        simpa [freshReading, Op.reading] using hfr
      have := Tight_insert g p
        (initializeTimestamp
          (initializeFields (g.t.state.parsers p) arg2 env_max true) now)
        (fun q => if q = p then true else g.t.tracked q)
        (fun q => if q = p then false else g.expired q) hc ht hnt
        (fun z hz => by simp [hz]) (by simp) (fun z hz => by simp [hz]) (by simp)
        (by simpa [initializeTimestamp] using hfr2.1)
        (by simpa [initializeTimestamp] using hfr2.2)
      simpa [Op.applyGhost, Op.apply, Op.expiredAfter, Op.reading, Initialize_eq,
        initializeTimestamp] using this
  | messageStart p now =>
    have hfr2 : now ≠ 0 ∧ now ∉ g.readings := by
      simpa [freshReading, Op.reading] using hfr
    by_cases htr : g.t.tracked p = true
    · have hl := hc.hasList p htr
      have := Tight_rekey g p (messageStartFields (g.t.state.parsers p) now) true
        (now :: g.readings) (fun q => if q = p then false else g.expired q)
        hc ht htr (fun z hz => by simp [hz]) (by simp)
        (fun x hx => List.mem_cons_of_mem _ hx)
        (Or.inr ⟨rfl, by simpa [messageStartFields] using hfr2.1,
          by simpa [messageStartFields] using hfr2.2,
          by simp [messageStartFields]⟩)
      simpa [Op.applyGhost, Op.apply, Op.expiredAfter, Op.reading,
        on_message_start_eq g.t.state p now hl] using this
    · have htr2 : g.t.tracked p = false := by simpa using htr
      have hl : (g.t.state.parsers p).connectionsList_ = false := by
        simpa [callbacksOnTracked, htr2] using hok
      have := Tight_store g p (messageStartFields (g.t.state.parsers p) now)
        (now :: g.readings) g.t.tracked
        (fun q => if q = p then false else g.expired q) hc ht htr2
        (fun _ _ => rfl) htr2 (fun z hz => by simp [hz])
        (fun x hx => List.mem_cons_of_mem _ hx)
        (Or.inr (Or.inr ⟨by simpa [messageStartFields] using hfr2.2,
          by simp [messageStartFields]⟩))
      simpa [Op.applyGhost, Op.apply, Op.expiredAfter, Op.reading,
        on_message_start_noList g.t.state p now hl, storeParser] using this
  | messageComplete p =>
    by_cases htr : g.t.tracked p = true
    · have hl := hc.hasList p htr
      have := Tight_rekey g p (messageCompleteFields (g.t.state.parsers p)) false
        g.readings (fun q => if q = p then false else g.expired q)
        hc ht htr (fun z hz => by simp [hz]) (by simp) (fun x hx => hx)
        (Or.inl ⟨rfl, by simp [messageCompleteFields]⟩)
      simpa [Op.applyGhost, Op.apply, Op.expiredAfter, Op.reading,
        on_message_complete_eq g.t.state p hl] using this
    · have htr2 : g.t.tracked p = false := by simpa using htr
      have hl : (g.t.state.parsers p).connectionsList_ = false := by
        simpa [callbacksOnTracked, htr2] using hok
      have := Tight_store g p (messageCompleteFields (g.t.state.parsers p))
        g.readings g.t.tracked
        (fun q => if q = p then false else g.expired q) hc ht htr2
        (fun _ _ => rfl) htr2 (fun z hz => by simp [hz]) (fun x hx => hx)
        (Or.inr (Or.inl (by simp [messageCompleteFields])))
      simpa [Op.applyGhost, Op.apply, Op.expiredAfter, Op.reading,
        on_message_complete_noList g.t.state p hl, storeParser] using this
  | remove p =>
    simp only [Op.applyGhost, Op.apply, Op.expiredAfter, Op.reading, Remove]
    by_cases hl : (g.t.state.parsers p).connectionsList_ = true
    · have eA := erase_mem_distinct g.t.state.parsers p _ hc.ordAll ht.distinct
      have eB := erase_mem_distinct g.t.state.parsers p _ hc.ordActive ht.distinct
      rw [popFromLists_eq g.t.state p hl]
      refine ⟨ht.lmsUsed, ht.distinct, ?_, ?_⟩
      · intro z hz
        have hzp : z ≠ p := by
          rintro rfl
          simp at hz
        have hz2 : g.t.tracked z = true := by simpa [hzp] using hz
        exact (eA z).mpr ⟨ht.trackedInAll z hz2, hzp⟩
      · intro z
        show z ∈ setErase (ParserComparator g.t.state.parsers) p
            g.t.state.active_connections_ ↔
          ((if z = p then false else g.t.tracked z) = true ∧
            (g.t.state.parsers z).last_message_start_ ≠ 0 ∧ g.expired z = false)
        rw [eB z, ht.activeIff z]
        by_cases hzp : z = p
        · simp [hzp]
        · simp [hzp]
    · have hl2 : (g.t.state.parsers p).connectionsList_ = false := by simpa using hl
      have hnt : g.t.tracked p = false := by
        by_contra hh
        have := hc.hasList p (by simpa using hh)
        rw [hl2] at this
        exact Bool.noConfusion this
      have hnm := not_mem_of_untracked g.t hc p hnt
      rw [popFromLists_noList g.t.state p hl2]
      refine ⟨ht.lmsUsed, ht.distinct, ?_, ?_⟩
      · intro z hz
        have hzp : z ≠ p := by
          rintro rfl
          simp at hz
        have hz2 : g.t.tracked z = true := by simpa [hzp] using hz
        exact ht.trackedInAll z hz2
      · intro z
        show z ∈ g.t.state.active_connections_ ↔
          ((if z = p then false else g.t.tracked z) = true ∧
            (g.t.state.parsers z).last_message_start_ ≠ 0 ∧ g.expired z = false)
        by_cases hzp : z = p
        · subst hzp
          simp [hnm.2]
        · simp only [hzp, if_false]
          exact ht.activeIff z
  | expired arg0 arg1 now =>
    have hfix := Expired_frame g.t.state arg0 arg1 now
    have hmem := Expired_active_mem g.t.state arg0 arg1 now hc.ordActive
    simp only [Op.applyGhost, Op.apply, Op.expiredAfter, Op.reading]
    refine ⟨?_, ?_, ?_, ?_⟩
    · intro z hz
      have hz2 : ((Expired g.t.state arg0 arg1 now).2.parsers z).last_message_start_
          ≠ 0 := hz
      show ((Expired g.t.state arg0 arg1 now).2.parsers z).last_message_start_ ∈
        now :: g.readings
      rw [hfix.2] at hz2 ⊢
      exact List.mem_cons_of_mem _ (ht.lmsUsed z hz2)
    · intro a b hab ha
      have ha2 : ((Expired g.t.state arg0 arg1 now).2.parsers a).last_message_start_
          ≠ 0 := ha
      show ((Expired g.t.state arg0 arg1 now).2.parsers a).last_message_start_ ≠
        ((Expired g.t.state arg0 arg1 now).2.parsers b).last_message_start_
      rw [hfix.2] at ha2 ⊢
      exact ht.distinct a b hab ha2
    · intro z hz
      show z ∈ (Expired g.t.state arg0 arg1 now).2.all_connections_
      rw [hfix.1]
      exact ht.trackedInAll z hz
    · intro z
      show z ∈ (Expired g.t.state arg0 arg1 now).2.active_connections_ ↔
        (g.t.tracked z = true ∧
          ((Expired g.t.state arg0 arg1 now).2.parsers z).last_message_start_ ≠ 0 ∧
          (g.expired z || decide (z ∈ (Expired g.t.state arg0 arg1 now).1)) = false)
      rw [hmem z, hfix.2, ht.activeIff z]
      simp only [Bool.or_eq_false_iff, decide_eq_false_iff_not]
      tauto

theorem Tight_run :
    ∀ (ops : List Op) (g0 g : Ghost), Consistent g0.t → Tight g0 →
      runGhost callbacksOnTracked g0 ops = some g → Consistent g.t ∧ Tight g
  | [], g0, g, hc, ht, hrun => by
    simp only [runGhost, Option.some.injEq] at hrun
    exact hrun ▸ ⟨hc, ht⟩
  | op :: ops, g0, g, hc, ht, hrun => by
    by_cases hok : (callbacksOnTracked g0.t op && freshReading g0 op) = true
    · simp only [runGhost, hok, if_true] at hrun
      have hok2 : callbacksOnTracked g0.t op = true ∧ freshReading g0 op = true := by
        simpa using hok
      have hc2 : Consistent (Op.applyGhost g0 op).t :=
        Consistent_step g0.t op hc hok2.1
      exact Tight_run ops _ g hc2 (Tight_step g0 op hc ht hok2.1 hok2.2) hrun
    · simp [runGhost, hok] at hrun

/-! ## Characterisation of the active set -/

/-- C16, counterexample: parser 1 is initialized with the list at clock reading
5 and `Expired` then runs with a headers timeout of 1 ms at clock reading
2000000. Both readings are non-zero and distinct. `Expired` returns parser 1 and
erases it from `active` without touching its timestamp, so parser 1 is tracked,
is in `all`, has `last_message_start_ = 5`, and is not a member of `active`. -/
theorem expired_tracked_not_active :
    (runGhost callbacksOnTracked Ghost.init expiryOps).map
      (fun g => (g.t.state.all_connections_, g.t.state.active_connections_,
        g.t.tracked 1, (g.t.state.parsers 1).last_message_start_, g.expired 1)) =
      some ([1], [], true, 5, true) := by
  decide

/-- C16 as amended: in every state reached by a finite sequence of
`Initialize` (on a parser not currently tracked), `on_message_start` and
`on_message_complete` (on a parser that is currently tracked, or that has no
connections list), `Remove` and `Expired`, with clock readings that are non-zero
and pairwise distinct, a tracked parser is a member of `active` if and only if
its `last_message_start_` is non-zero and `Expired` has not returned it since
that timestamp was assigned. The members of `all` are exactly the tracked
parsers, `active` is contained in `all`, and every member of `all` is of exactly
one of three kinds: idle (timestamp zero), a member of `active`, or returned by
`Expired` with its timestamp still set. -/
theorem active_characterisation (ops : List Op) (g : Ghost)
    (hrun : runGhost callbacksOnTracked Ghost.init ops = some g) :
    (∀ p, g.t.tracked p = true →
      (p ∈ g.t.state.active_connections_ ↔
        ((g.t.state.parsers p).last_message_start_ ≠ 0 ∧ g.expired p = false))) ∧
    (∀ p, p ∈ g.t.state.all_connections_ ↔ g.t.tracked p = true) ∧
    (∀ p ∈ g.t.state.active_connections_, p ∈ g.t.state.all_connections_) ∧
    (∀ p ∈ g.t.state.all_connections_,
      ((g.t.state.parsers p).last_message_start_ = 0 ∧
        p ∉ g.t.state.active_connections_) ∨
      ((g.t.state.parsers p).last_message_start_ ≠ 0 ∧ g.expired p = false ∧
        p ∈ g.t.state.active_connections_) ∨
      ((g.t.state.parsers p).last_message_start_ ≠ 0 ∧ g.expired p = true ∧
        p ∉ g.t.state.active_connections_)) := by
  obtain ⟨hc, ht⟩ := Tight_run ops Ghost.init g Consistent_init Tight_init hrun
  refine ⟨?_, ?_, ?_, ?_⟩
  · intro p hp
    rw [ht.activeIff p]
    exact ⟨fun h => h.2, fun h => ⟨hp, h⟩⟩
  · intro p
    exact ⟨hc.allTracked p, ht.trackedInAll p⟩
  · intro p hp
    exact ht.trackedInAll p (hc.activeTracked p hp)
  · intro p hp
    have htr := hc.allTracked p hp
    have ha := ht.activeIff p
    by_cases h0 : (g.t.state.parsers p).last_message_start_ = 0
    · exact Or.inl ⟨h0, fun hm => (ha.mp hm).2.1 h0⟩
    · cases he : g.expired p with
      | false => exact Or.inr (Or.inl ⟨h0, rfl, ha.mpr ⟨htr, h0, he⟩⟩)
      | true =>
        refine Or.inr (Or.inr ⟨h0, rfl, fun hm => ?_⟩)
        have := (ha.mp hm).2.2
        rw [he] at this
        exact Bool.noConfusion this

/-- Witness of C16 as amended: parsers 1 and 2 are initialized at clock
readings 5 and 6, parser 2 completes its message, `Expired` returns parser 1 at
clock reading 2000000, and parser 3 is initialized at clock reading 2000001.
Afterwards `all` holds the idle parser 2, the expired parser 1 and the active
parser 3. -/
theorem active_characterisation_witness :
    runGhost callbacksOnTracked Ghost.init ghostOps = some ghostAfter ∧
    ghostAfter.t.state.all_connections_ = [2, 1, 3] ∧
    ghostAfter.t.state.active_connections_ = [3] ∧
    (∀ p, ghostAfter.t.tracked p = true →
      (p ∈ ghostAfter.t.state.active_connections_ ↔
        ((ghostAfter.t.state.parsers p).last_message_start_ ≠ 0 ∧
          ghostAfter.expired p = false))) :=
  ⟨rfl, by decide, by decide,
    (active_characterisation ghostOps ghostAfter rfl).1⟩

/-! ## The tables of `milo.h` -/

set_option maxRecDepth 10000 in
/-- C21: the method table. `MILO_METHODS_MAP` has 49 lines, with the indices
0..48 in order (so each once) and the names ACL, ..., PURGE in the order of the
specification; for every line the constant `METHOD_<name>` equals the index;
and the exported `methods` array has 49 elements and holds each name at its
index. -/
theorem MILO_METHODS_MAP_table :
    MILO_METHODS_MAP.length = 49 ∧
    MILO_METHODS_MAP.map (fun e => e.num) = List.range 49 ∧
    (MILO_METHODS_MAP.map (fun e => e.num)).Nodup ∧
    MILO_METHODS_MAP.map (fun e => e.name) =
      ["ACL", "BASELINE_CONTROL", "BIND", "CHECKIN", "CHECKOUT", "CONNECT",
       "COPY", "DELETE", "GET", "HEAD", "LABEL", "LINK", "LOCK", "MERGE",
       "MKACTIVITY", "MKCALENDAR", "MKCOL", "MKREDIRECTREF", "MKWORKSPACE",
       "MOVE", "OPTIONS", "ORDERPATCH", "PATCH", "POST", "PRI", "PROPFIND",
       "PROPPATCH", "PUT", "REBIND", "REPORT", "SEARCH", "TRACE", "UNBIND",
       "UNCHECKOUT", "UNLINK", "UNLOCK", "UPDATE", "UPDATEREDIRECTREF",
       "VERSION_CONTROL", "DESCRIBE", "GET_PARAMETER", "PAUSE", "PLAY",
       "PLAY_NOTIFY", "REDIRECT", "SETUP", "SET_PARAMETER", "TEARDOWN",
       "PURGE"] ∧
    MILO_METHODS_MAP.map (fun e => (e.name, e.num)) = METHOD_constants ∧
    methods = MILO_METHODS_MAP.map (fun e => some e.name) ∧
    methods.length = 49 ∧
    (∀ e ∈ MILO_METHODS_MAP, methods.get? e.num = some (some e.name)) :=
  ⟨rfl, rfl, by decide, rfl, rfl, rfl, rfl, by decide⟩

/-- C22: the error-code table. The `ERROR_*` constants take the values 0..15 in
the order of their declaration, which is the order NONE, ...,
UNSUPPORTED_HTTP_VERSION of the specification; the values are pairwise
distinct. -/
theorem ERROR_constants_table :
    ERROR_constants.map (fun e => e.2) = List.range 16 ∧
    (ERROR_constants.map (fun e => e.2)).Nodup ∧
    ERROR_constants.map (fun e => e.1) =
      ["NONE", "UNEXPECTED_DATA", "UNEXPECTED_EOF", "CALLBACK_ERROR",
       "UNEXPECTED_CHARACTER", "UNEXPECTED_CONTENT_LENGTH",
       "UNEXPECTED_TRANSFER_ENCODING", "UNEXPECTED_CONTENT", "UNTRAILERS",
       "INVALID_VERSION", "INVALID_STATUS", "INVALID_CONTENT_LENGTH",
       "INVALID_TRANSFER_ENCODING", "INVALID_CHUNK_SIZE",
       "MISSING_CONNECTION_UPGRADE", "UNSUPPORTED_HTTP_VERSION"] := by
  decide

/-! ## `Execute` and an error that is already there -/

/-- C28: the arithmetic of `Expired` never wraps. For 32-bit arguments the
products `arg * 1000000` are below `2 ^ 64`, so the conversion to nanoseconds is
exact; and for a 64-bit clock reading each deadline, of the (normalised)
headers timeout and of the request timeout, is 0 or lies strictly between 0 and
`now`: the subtraction is made only when `now > timeout`, where it equals the
difference of the integers. -/
theorem Expired_arithmetic_exact (arg0 arg1 now : Nat)
    (h0 : arg0 < UINT32_MOD) (h1 : arg1 < UINT32_MOD) (hn : now < UINT64_MOD) :
    (arg0 * 1000000 < UINT64_MOD ∧ toNanos arg0 = arg0 * 1000000) ∧
    (arg1 * 1000000 < UINT64_MOD ∧ toNanos arg1 = arg1 * 1000000) ∧
    (∀ timeout, timeout = (normalizeTimeouts (toNanos arg0) (toNanos arg1)).1 ∨
        timeout = (normalizeTimeouts (toNanos arg0) (toNanos arg1)).2 →
      (deadline timeout now = 0 ∨
        (0 < deadline timeout now ∧ deadline timeout now < now)) ∧
      (deadline timeout now ≠ 0 → now > timeout ∧
        (deadline timeout now : Int) = (now : Int) - (timeout : Int)) ∧
      deadline timeout now < UINT64_MOD) := by
  have e0 : arg0 * 1000000 < UINT64_MOD := by
    simp only [UINT32_MOD, UINT64_MOD] at *
    omega
  have e1 : arg1 * 1000000 < UINT64_MOD := by
    simp only [UINT32_MOD, UINT64_MOD] at *
    omega
  refine ⟨⟨e0, ?_⟩, ⟨e1, ?_⟩, ?_⟩
  · simp only [toNanos, Nat.mod_eq_of_lt h0, Nat.mod_eq_of_lt e0]
  · simp only [toNanos, Nat.mod_eq_of_lt h1, Nat.mod_eq_of_lt e1]
  · intro timeout _
    unfold deadline
    by_cases hc : timeout > 0 ∧ now > timeout
    · have hc2 : (decide (timeout > 0) && decide (now > timeout)) = true := by
        simp [hc.1, hc.2]
      simp only [hc2, if_true]
      refine ⟨Or.inr ⟨by omega, by omega⟩, fun _ => ⟨hc.2, by omega⟩, by omega⟩
    · have hc2 : (decide (timeout > 0) && decide (now > timeout)) = false := by
        simp only [Bool.and_eq_false_iff, decide_eq_false_iff_not]
        exact not_and_or.mp hc
      simp only [hc2]
      refine ⟨Or.inl rfl, fun h => absurd rfl h, ?_⟩
      simp [UINT64_MOD]

/-- Witness of C28: the largest 32-bit arguments and the largest 64-bit clock
reading. -/
theorem Expired_arithmetic_exact_witness :
    toNanos 4294967295 = 4294967295000000 ∧
    deadline (toNanos 4294967295) 18446744073709551615 =
      18442449106414551615 ∧
    (4294967295 * 1000000 < UINT64_MOD ∧
      toNanos 4294967295 = 4294967295 * 1000000) :=
  ⟨by decide, by decide,
    (Expired_arithmetic_exact 4294967295 4294967295 18446744073709551615
      (by decide) (by decide) (by decide)).1⟩

/-! ## Two calls of `Expired` in a row -/

theorem TrackHeader_pass (q : Parser) (len : Nat)
    (h : (q.heades_nread_ + len) % UINT64_MOD < q.max_http_header_size_) :
    TrackHeader q len =
      (0, { q with heades_nread_ := (q.heades_nread_ + len) % UINT64_MOD }) := by
  unfold TrackHeader
  simp only
  rw [if_neg (by simpa using h)]

theorem startHeaderField_room (q : Parser) (flush : Slot)
    (hlt : q.num_header_fields_ < 31) :
    startHeaderField q flush =
      ({ q with num_header_fields_ := q.num_header_fields_ + 1 }, []) := by
  have hm : (q.num_header_fields_ + 1) % UINT64_MOD = q.num_header_fields_ + 1 :=
    Nat.mod_eq_of_lt (by simp only [UINT64_MOD]; omega)
  have hne : ¬ (q.num_header_fields_ = 31) := by omega
  simp [startHeaderField, hm, kMaxHeaderFieldsCount, hne]

theorem startHeaderField_full (q : Parser) (flush : Slot)
    (h31 : q.num_header_fields_ = 31) :
    startHeaderField q flush =
      ({ (FlushHeaders { q with num_header_fields_ := 32 } flush).1 with
          num_header_fields_ := 1, num_header_values_ := 0 },
        (FlushHeaders { q with num_header_fields_ := 32 } flush).2) := by
  simp [startHeaderField, h31, kMaxHeaderFieldsCount, UINT64_MOD]

theorem on_header_name_room (q : Parser) (data : List Char) (len : Nat)
    (flush : Slot)
    (hlim : (q.heades_nread_ + len) % UINT64_MOD < q.max_http_header_size_)
    (heq : q.num_header_fields_ = q.num_header_values_)
    (hlt : q.num_header_values_ < 31) :
    on_header_name q data len flush = some
      { rv := 0,
        parser := { q with
          heades_nread_ := (q.heades_nread_ + len) % UINT64_MOD,
          num_header_fields_ := q.num_header_values_ + 1,
          header_fields_ :=
            setAt q.header_fields_ q.num_header_values_ (data.take len) },
        calls := [] } := by
  have hlt2 : q.num_header_values_ + 1 < 32 := by omega
  unfold on_header_name
  simp only [TrackHeader_pass q len hlim]
  rw [startHeaderField_room _ flush (by simpa [heq] using hlt)]
  simp [heq, kMaxHeaderFieldsCount, hlt2, Data.Set]

theorem on_header_name_full (q : Parser) (data : List Char) (len : Nat)
    (flush : Slot)
    (hlim : (q.heades_nread_ + len) % UINT64_MOD < q.max_http_header_size_)
    (heq : q.num_header_fields_ = q.num_header_values_)
    (h31 : q.num_header_values_ = 31) :
    ∃ r, on_header_name q data len flush = some r ∧ r.rv = 0 ∧
      r.parser.num_header_fields_ = 1 ∧ r.parser.num_header_values_ = 0 ∧
      r.parser.header_fields_ = setAt q.header_fields_ 0 (data.take len) ∧
      r.parser.header_values_ = q.header_values_ ∧
      r.parser.heades_nread_ = (q.heades_nread_ + len) % UINT64_MOD ∧
      r.parser.max_http_header_size_ = q.max_http_header_size_ ∧
      (flush ≠ Slot.absent → r.parser.headers_flushed_ = true) ∧
      (flush = Slot.absent → r.parser.headers_flushed_ = q.headers_flushed_) ∧
      (flush ≠ Slot.absent → ∃ url,
        r.calls = [JsCall.onHeaders (CreateHeaders q) url]) ∧
      (flush = Slot.absent → r.calls = []) ∧
      headerNameIndex q len flush = 0 := by
  unfold on_header_name headerNameIndex
  simp only [TrackHeader_pass q len hlim]
  rw [startHeaderField_full _ flush (by simpa [heq] using h31)]
  cases flush <;>
    simp [heq, kMaxHeaderFieldsCount, Data.Set, FlushHeaders, CreateHeaders, h31]

theorem on_header_value_pass (q : Parser) (data : List Char) (len : Nat)
    (hlim : (q.heades_nread_ + len) % UINT64_MOD < q.max_http_header_size_)
    (heq : q.num_header_fields_ = q.num_header_values_ + 1)
    (hlt : q.num_header_fields_ < 32) :
    on_header_value q data len = some
      { rv := 0,
        parser := { q with
          heades_nread_ := (q.heades_nread_ + len) % UINT64_MOD,
          num_header_values_ := q.num_header_values_ + 1,
          header_values_ :=
            setAt q.header_values_ q.num_header_values_ (data.take len) },
        calls := [] } := by
  have hm : (q.num_header_values_ + 1) % UINT64_MOD = q.num_header_values_ + 1 :=
    Nat.mod_eq_of_lt (by simp only [UINT64_MOD]; omega)
  have hlt2 : q.num_header_values_ + 1 < 32 := by omega
  unfold on_header_value
  simp only [TrackHeader_pass q len hlim]
  simp [heq, kMaxHeaderFieldsCount, hlt2, Data.Set, hm]

theorem headerPairs_congr (F V F2 V2 : Nat → Data) :
    ∀ n, (∀ i, i < n → F i = F2 i ∧ V i = V2 i) →
      headerPairs F V n = headerPairs F2 V2 n
  | 0, _ => rfl
  | n + 1, h => by
    simp only [headerPairs]
    rw [headerPairs_congr F V F2 V2 n (fun i hi => h i (by omega)),
      (h n (by omega)).1, (h n (by omega)).2]

/-- One header, delivered to a host object whose two counts agree and are
below 32: both callbacks pass their `CHECK`s, the counts agree again and lie
between 1 and 31, and what has been flushed together with what is buffered
grows by the name and the trimmed value. -/
theorem header_pair_step (q : Parser) (f : HeaderField)
    (heq : q.num_header_fields_ = q.num_header_values_)
    (hlt : q.num_header_values_ < 32)
    (hl1 : (q.heades_nread_ + f.name.length) % UINT64_MOD <
      q.max_http_header_size_)
    (hl2 : ((q.heades_nread_ + f.name.length) % UINT64_MOD + f.value.length) %
      UINT64_MOD < q.max_http_header_size_) :
    ∃ r1 r2,
      on_header_name q f.name f.name.length f.flush = some r1 ∧ r1.rv = 0 ∧
      1 ≤ r1.parser.num_header_fields_ ∧
      r1.parser.num_header_fields_ < 32 ∧
      r1.parser.num_header_fields_ = r1.parser.num_header_values_ + 1 ∧
      headerNameIndex q f.name.length f.flush =
        r1.parser.num_header_fields_ - 1 ∧
      on_header_value r1.parser f.value f.value.length = some r2 ∧ r2.rv = 0 ∧
      1 ≤ r2.parser.num_header_values_ ∧
      r2.parser.num_header_values_ < 32 ∧
      r2.parser.num_header_values_ = r2.parser.num_header_fields_ ∧
      headerValueIndex r1.parser f.value.length =
        r2.parser.num_header_values_ - 1 ∧
      r2.parser.heades_nread_ =
        ((q.heades_nread_ + f.name.length) % UINT64_MOD + f.value.length) %
          UINT64_MOD ∧
      r2.parser.max_http_header_size_ = q.max_http_header_size_ ∧
      r2.calls = [] ∧
      (f.flush ≠ Slot.absent →
        (r1.calls ≠ [] ↔ q.num_header_values_ = 31) ∧
        (∀ c ∈ r1.calls, ∃ h u, c = JsCall.onHeaders h u) ∧
        (r1.calls ≠ [] → r2.parser.headers_flushed_ = true) ∧
        (r1.calls = [] → r2.parser.headers_flushed_ = q.headers_flushed_) ∧
        deliveredHeaders r1.calls ++ CreateHeaders r2.parser =
          CreateHeaders q ++ [f.name, Data.ToTrimmedString f.value]) := by
  by_cases h31 : q.num_header_values_ = 31
  · obtain ⟨r1, hr1, hrv, hf1, hv1, hF, hV, hn, hm, hfl, _, hcalls, hnocalls, hidx⟩ :=
      on_header_name_full q f.name f.name.length f.flush hl1 heq h31
    have hv := on_header_value_pass r1.parser f.value f.value.length
      (by rw [hn, hm]; exact hl2) (by rw [hf1, hv1]) (by rw [hf1]; omega)
    refine ⟨r1, _, hr1, hrv, by omega, by omega, by omega, by omega, hv, rfl,
      ?_, ?_, ?_, ?_, ?_, ?_, rfl, ?_⟩
    · simp [hv1]
    · simp [hv1]
    · simp [hv1, hf1]
    · simp [headerValueIndex, TrackHeader_pass r1.parser f.value.length
        (by rw [hn, hm]; exact hl2), hv1, UINT64_MOD]
    · simp [hn]
    · simp [hm]
    · intro hinst
      obtain ⟨url, hc⟩ := hcalls hinst
      refine ⟨by simp [hc, h31], ?_, ?_, ?_, ?_⟩
      · intro c hcm
        rw [hc] at hcm
        exact ⟨_, _, List.mem_singleton.mp hcm⟩
      · intro _
        simpa using hfl hinst
      · intro hnil
        rw [hc] at hnil
        exact absurd hnil (by simp)
      · rw [hc]
        simp [deliveredHeaders, JsCall.headers, CreateHeaders, hv1, hF,
          headerPairs, setAt, Data.ToString_eq]
  · have hlt31 : q.num_header_values_ < 31 := by omega
    obtain ⟨r1, hr1, hrv, hf1, hv1, hF, hV, hn, hm, hfl, hcalls, hidx⟩ :
        ∃ r, on_header_name q f.name f.name.length f.flush = some r ∧ r.rv = 0 ∧
          r.parser.num_header_fields_ = q.num_header_values_ + 1 ∧
          r.parser.num_header_values_ = q.num_header_values_ ∧
          r.parser.header_fields_ =
            setAt q.header_fields_ q.num_header_values_ f.name ∧
          r.parser.header_values_ = q.header_values_ ∧
          r.parser.heades_nread_ =
            (q.heades_nread_ + f.name.length) % UINT64_MOD ∧
          r.parser.max_http_header_size_ = q.max_http_header_size_ ∧
          r.parser.headers_flushed_ = q.headers_flushed_ ∧
          r.calls = [] ∧
          headerNameIndex q f.name.length f.flush = q.num_header_values_ :=
      ⟨_, on_header_name_room q f.name f.name.length f.flush hl1 heq hlt31,
        rfl, rfl, rfl, by simp, rfl, rfl, rfl, rfl, rfl, by
          unfold headerNameIndex
          rw [TrackHeader_pass q f.name.length hl1,
            startHeaderField_room _ f.flush
              (by show q.num_header_fields_ < 31; omega)]
          show q.num_header_fields_ + 1 - 1 = _
          omega⟩
    have hmod : (q.num_header_values_ + 1) % UINT64_MOD =
        q.num_header_values_ + 1 :=
      Nat.mod_eq_of_lt (by simp only [UINT64_MOD]; omega)
    have hv := on_header_value_pass r1.parser f.value f.value.length
      (by rw [hn, hm]; exact hl2) (by rw [hf1, hv1]) (by rw [hf1]; omega)
    refine ⟨r1, _, hr1, hrv, by omega, by omega, by omega, by omega, hv, rfl,
      ?_, ?_, ?_, ?_, ?_, ?_, rfl, ?_⟩
    · simp [hv1]
    · simp [hv1]; omega
    · simp [hv1, hf1]
    · simp [headerValueIndex, TrackHeader_pass r1.parser f.value.length
        (by rw [hn, hm]; exact hl2), hv1, hmod]
    · simp [hn]
    · simp [hm]
    · intro _
      refine ⟨by simp [hcalls, h31], by simp [hcalls], by simp [hcalls],
        fun _ => by simpa using hfl, ?_⟩
      rw [hcalls]
      simp only [deliveredHeaders, List.nil_append, CreateHeaders, headerPairs,
        hv1, hF, hV]
      rw [headerPairs_congr _ _ q.header_fields_ q.header_values_
        q.num_header_values_ (fun i hi => by
          have : i ≠ q.num_header_values_ := by omega
          simp [setAt, this])]
      simp [setAt, Data.ToString_eq]

theorem header_run_checks :
    ∀ (fs : List HeaderField) (q : Parser),
      q.num_header_fields_ = q.num_header_values_ →
      q.num_header_values_ < 32 →
      withinLimit q.heades_nread_ q.max_http_header_size_ (fieldLengths fs) = true →
      (∃ q2, runEvents q (headerEvents fs) = some q2) ∧
      ∀ fs1 f fs2, fs = fs1 ++ f :: fs2 →
        ∃ q1 r1 r2, runEvents q (headerEvents fs1) = some q1 ∧
          HeaderStep q1 f r1 r2
  | [], q, _, _, _ => by
    refine ⟨⟨q, rfl⟩, ?_⟩
    intro fs1 f fs2 h
    exact absurd h (by simp)
  | f0 :: rest, q, heq, hlt, hlim => by
    simp only [fieldLengths, withinLimit, Bool.and_eq_true, decide_eq_true_eq] at hlim
    obtain ⟨hl1, hl2, hl3⟩ := hlim
    obtain ⟨r1, r2, hn, hrv1, hpos1, hlt1, heq1, hidx1, hv, hrv2, hpos2, hlt2,
      heq2, hidx2, hnread, hmax, _, hfl⟩ := header_pair_step q f0 heq hlt hl1 hl2
    have ih := header_run_checks rest r2.parser heq2.symm hlt2
      (by rw [hnread, hmax]; exact hl3)
    have hstep : HeaderStep q f0 r1 r2 :=
      { entryName := heq, name := hn, nameReturns := hrv1, fieldsLt := hlt1,
        fieldsEq := heq1, fieldsPos := hpos1,
        nameIndex := by rw [hidx1]; simp only [kMaxHeaderFieldsCount]; omega,
        entryValue := by omega, value := hv, valueReturns := hrv2,
        valuesLt := hlt2, valuesEq := heq2, valuesPos := hpos2,
        valueIndex := by rw [hidx2]; simp only [kMaxHeaderFieldsCount]; omega,
        flushIff := fun h => (hfl h).1 }
    have hrun : ∀ es, runEvents q (Event.header_name f0.name f0.name.length f0.flush ::
        Event.header_value f0.value f0.value.length :: es) =
        runEvents r2.parser es := by
      intro es
      simp [runEvents, Event.run, hn, hv]
    refine ⟨?_, ?_⟩
    · obtain ⟨q2, hq2⟩ := ih.1
      exact ⟨q2, by rw [headerEvents, hrun]; exact hq2⟩
    · intro fs1 f fs2 hsplit
      cases fs1 with
      | nil =>
        simp only [List.nil_append, List.cons.injEq] at hsplit
        obtain ⟨hf, _⟩ := hsplit
        subst hf
        exact ⟨q, r1, r2, rfl, hstep⟩
      | cons g fs1 =>
        simp only [List.cons_append, List.cons.injEq] at hsplit
        obtain ⟨hg, hrest⟩ := hsplit
        subst hg
        obtain ⟨q1, s1, s2, hq1, hs⟩ := ih.2 fs1 f fs2 hrest
        exact ⟨q1, s1, s2, by rw [headerEvents, hrun]; exact hq1, hs⟩

theorem deliveredHeaders_append (a b : List JsCall) :
    deliveredHeaders (a ++ b) = deliveredHeaders a ++ deliveredHeaders b := by
  induction a with
  | nil => rfl
  | cons c cs ih => simp [deliveredHeaders, ih]

theorem header_run_delivers :
    ∀ (fs : List HeaderField) (q : Parser),
      q.num_header_fields_ = q.num_header_values_ →
      q.num_header_values_ < 32 →
      withinLimit q.heades_nread_ q.max_http_header_size_ (fieldLengths fs) = true →
      (∀ f ∈ fs, f.flush ≠ Slot.absent) →
      ∃ q2 calls, deliver q (headerEvents fs) = some (q2, calls) ∧
        q2.num_header_fields_ = q2.num_header_values_ ∧
        q2.num_header_values_ < 32 ∧
        (∀ c ∈ calls, ∃ h u, c = JsCall.onHeaders h u) ∧
        (calls ≠ [] → q2.headers_flushed_ = true) ∧
        (calls = [] → q2.headers_flushed_ = q.headers_flushed_) ∧
        deliveredHeaders calls ++ CreateHeaders q2 =
          CreateHeaders q ++ expectedHeaders fs
  | [], q, heq, hlt, _, _ => by
    exact ⟨q, [], rfl, heq, hlt, by simp, by simp, by simp,
      by simp [deliveredHeaders, expectedHeaders]⟩
  | f0 :: rest, q, heq, hlt, hlim, hinst => by
    simp only [fieldLengths, withinLimit, Bool.and_eq_true, decide_eq_true_eq] at hlim
    obtain ⟨hl1, hl2, hl3⟩ := hlim
    obtain ⟨r1, r2, hn, hrv1, hpos1, hlt1, heq1, hidx1, hv, hrv2, hpos2, hlt2,
      heq2, hidx2, hnread, hmax, hc2, hfl⟩ := header_pair_step q f0 heq hlt hl1 hl2
    obtain ⟨hiff, hshape, hflT, hflF, hdel⟩ :=
      hfl (hinst f0 (List.mem_cons_self _ _))
    obtain ⟨q2, calls, hd, e1, e2, e3, e4, e5, e6⟩ :=
      header_run_delivers rest r2.parser heq2.symm hlt2
        (by rw [hnread, hmax]; exact hl3)
        (fun f hf => hinst f (List.mem_cons_of_mem _ hf))
    refine ⟨q2, r1.calls ++ calls, ?_, e1, e2, ?_, ?_, ?_, ?_⟩
    · simp [headerEvents, deliver, Event.run, hn, hv, hd, hc2]
    · intro c hc
      rcases List.mem_append.mp hc with h | h
      · exact hshape c h
      · exact e3 c h
    · intro hne
      by_cases hcn : calls = []
      · have h1 : r1.calls ≠ [] := by
          intro h
          exact hne (by simp [h, hcn])
        rw [e5 hcn]
        exact hflT h1
      · exact e4 hcn
    · intro hnil
      have h1 : r1.calls = [] := (List.append_eq_nil.mp hnil).1
      have h2 : calls = [] := (List.append_eq_nil.mp hnil).2
      rw [e5 h2, hflF h1]
    · rw [deliveredHeaders_append, List.append_assoc, e6, ← List.append_assoc, hdel]
      simp [expectedHeaders]

theorem deliver_append :
    ∀ (es1 es2 : List Event) (q q1 q2 : Parser) (c1 c2 : List JsCall),
      deliver q es1 = some (q1, c1) → deliver q1 es2 = some (q2, c2) →
      deliver q (es1 ++ es2) = some (q2, c1 ++ c2)
  | [], es2, q, q1, q2, c1, c2, h1, h2 => by
    simp only [deliver, Option.some.injEq, Prod.mk.injEq] at h1
    obtain ⟨hq, hc⟩ := h1
    subst hq
    subst hc
    simpa using h2
  | e :: es1, es2, q, q1, q2, c1, c2, h1, h2 => by
    simp only [deliver] at h1
    cases he : e.run q with
    | none => simp [he] at h1
    | some r =>
      simp only [he] at h1
      cases hd : deliver r.parser es1 with
      | none => simp [hd] at h1
      | some d =>
        simp only [hd, Option.some.injEq, Prod.mk.injEq] at h1
        obtain ⟨hq, hc⟩ := h1
        have := deliver_append es1 es2 r.parser d.1 q2 d.2 c2 (by simp [hd])
          (by rw [hq]; exact h2)
        simp [deliver, he, this, ← hc]

/-- What `on_headers` passes to JavaScript when both handlers are installed:
after a flush, the buffered headers go to the flush handler and the
headers-complete handler gets `undefined`; else the headers-complete handler
gets the buffered headers. -/
theorem on_headers_calls (q : Parser) (flush complete : Slot)
    (hflush : flush ≠ Slot.absent) (hcomplete : complete ≠ Slot.absent) :
    ∃ pre argv,
      (on_headers q flush complete).calls =
        pre ++ [JsCall.onHeadersComplete argv] ∧
      (q.headers_flushed_ = true →
        (∃ url, pre = [JsCall.onHeaders (CreateHeaders q) url]) ∧
        argv.headers = none) ∧
      (q.headers_flushed_ = false →
        pre = [] ∧ argv.headers = some (CreateHeaders q)) := by
  cases hfl : q.headers_flushed_ with
  | true =>
    cases complete with
    | absent => exact absurd rfl hcomplete
    | throws =>
      cases flush with
      | absent => exact absurd rfl hflush
      | throws =>
        exact ⟨_, _, rfl, by
          simp [headersArguments, hfl, FlushHeaders, CreateHeaders,
            headersCompleteArgs], by simp⟩
      | returns v =>
        exact ⟨_, _, rfl, by
          simp [headersArguments, hfl, FlushHeaders, CreateHeaders,
            headersCompleteArgs], by simp⟩
    | returns val =>
      cases val with
      | none =>
        cases flush with
        | absent => exact absurd rfl hflush
        | throws =>
          exact ⟨_, _, rfl, by
            simp [headersArguments, hfl, FlushHeaders, CreateHeaders,
              headersCompleteArgs], by simp⟩
        | returns v =>
          exact ⟨_, _, rfl, by
            simp [headersArguments, hfl, FlushHeaders, CreateHeaders,
              headersCompleteArgs], by simp⟩
      | some val =>
        cases flush with
        | absent => exact absurd rfl hflush
        | throws =>
          exact ⟨_, _, rfl, by
            simp [headersArguments, hfl, FlushHeaders, CreateHeaders,
              headersCompleteArgs], by simp⟩
        | returns v =>
          exact ⟨_, _, rfl, by
            simp [headersArguments, hfl, FlushHeaders, CreateHeaders,
              headersCompleteArgs], by simp⟩
  | false =>
    cases complete with
    | absent => exact absurd rfl hcomplete
    | throws =>
      exact ⟨_, _, rfl, by simp, by
        simp [headersArguments, hfl, CreateHeaders, headersCompleteArgs]⟩
    | returns val =>
      cases val with
      | none =>
        exact ⟨_, _, rfl, by simp, by
          simp [headersArguments, hfl, CreateHeaders, headersCompleteArgs]⟩
      | some val =>
        exact ⟨_, _, rfl, by simp, by
          simp [headersArguments, hfl, CreateHeaders, headersCompleteArgs]⟩

theorem expectedHeaders_length :
    ∀ fs : List HeaderField, (expectedHeaders fs).length = 2 * fs.length
  | [] => rfl
  | f :: fs => by
    simp only [expectedHeaders, List.length_cons, expectedHeaders_length fs]
    omega

/-- C25: no header is lost or reordered by the 32-slot buffer. Take a host
object at the start of a header block (both counts 0, nothing flushed), any
number of headers delivered by strictly alternating `on_header_name` /
`on_header_value` callbacks, each within the size limit, and then
`on_headers`, with the flush and headers-complete handlers installed. No
`CHECK` fails; the JavaScript calls are calls of the flush handler followed by
one call of the headers-complete handler, which gets the headers when no flush
occurred and `undefined` otherwise; and the arrays passed, concatenated in
call order, are exactly `name_1, trimmed(value_1), ..., name_n,
trimmed(value_n)`, two entries for each header. A flush during
`on_header_name` happens exactly when 31 complete pairs are buffered. -/
theorem headers_delivered_in_order (q : Parser) (fs : List HeaderField)
    (flush complete : Slot)
    (hf0 : q.num_header_fields_ = 0) (hv0 : q.num_header_values_ = 0)
    (hfl : q.headers_flushed_ = false)
    (hlim : withinLimit q.heades_nread_ q.max_http_header_size_
      (fieldLengths fs) = true)
    (hinst : ∀ f ∈ fs, f.flush ≠ Slot.absent)
    (hflush : flush ≠ Slot.absent) (hcomplete : complete ≠ Slot.absent) :
    (∃ q2 flushes argv,
      deliver q (headerEvents fs ++ [Event.headers flush complete]) =
        some (q2, flushes ++ [JsCall.onHeadersComplete argv]) ∧
      (∀ c ∈ flushes, ∃ h u, c = JsCall.onHeaders h u) ∧
      (flushes = [] → argv.headers = some (expectedHeaders fs)) ∧
      (flushes ≠ [] → argv.headers = none) ∧
      deliveredHeaders (flushes ++ [JsCall.onHeadersComplete argv]) =
        expectedHeaders fs) ∧
    (expectedHeaders fs).length = 2 * fs.length ∧
    (∀ fs1 f fs2, fs = fs1 ++ f :: fs2 →
      ∃ q1 r1, runEvents q (headerEvents fs1) = some q1 ∧
        on_header_name q1 f.name f.name.length f.flush = some r1 ∧
        (CreateHeaders q1).length = 2 * q1.num_header_values_ ∧
        (r1.calls ≠ [] ↔ q1.num_header_values_ = 31)) := by
  refine ⟨?_, expectedHeaders_length fs, ?_⟩
  · obtain ⟨q2, calls, hd, _, _, hshape, hflT, hflF, hdel⟩ :=
      header_run_delivers fs q (by rw [hf0, hv0]) (by rw [hv0]; omega) hlim hinst
    have hq : CreateHeaders q = [] := by simp [CreateHeaders, hv0, headerPairs]
    rw [hq, List.nil_append] at hdel
    obtain ⟨pre, argv, hcalls, hT, hF⟩ := on_headers_calls q2 flush complete
      hflush hcomplete
    have hlast : deliver q2 [Event.headers flush complete] =
        some ((on_headers q2 flush complete).parser,
          pre ++ [JsCall.onHeadersComplete argv]) := by
      simp [deliver, Event.run, hcalls]
    refine ⟨(on_headers q2 flush complete).parser, calls ++ pre, argv,
      ?_, ?_, ?_, ?_, ?_⟩
    · rw [deliver_append _ _ q q2 _ calls _ hd hlast, List.append_assoc]
    · intro c hc
      rcases List.mem_append.mp hc with h | h
      · exact hshape c h
      · cases hq2 : q2.headers_flushed_ with
        | true =>
          obtain ⟨⟨url, hpre⟩, _⟩ := hT hq2
          rw [hpre] at h
          exact ⟨_, _, List.mem_singleton.mp h⟩
        | false =>
          rw [(hF hq2).1] at h
          exact absurd h (List.not_mem_nil c)
    · intro hnil
      have h1 : calls = [] := (List.append_eq_nil.mp hnil).1
      have hq2 : q2.headers_flushed_ = false := by rw [hflF h1, hfl]
      rw [(hF hq2).2]
      rw [h1] at hdel
      simpa [deliveredHeaders] using hdel
    · intro hne
      cases hq2 : q2.headers_flushed_ with
      | true => exact (hT hq2).2
      | false =>
        exfalso
        apply hne
        have hc : calls = [] := by
          by_contra hcn
          rw [hflT hcn] at hq2
          exact Bool.noConfusion hq2
        rw [hc, (hF hq2).1]
        rfl
    · rw [List.append_assoc, deliveredHeaders_append, deliveredHeaders_append]
      cases hq2 : q2.headers_flushed_ with
      | true =>
        obtain ⟨⟨url, hpre⟩, harg⟩ := hT hq2
        rw [hpre]
        simp only [deliveredHeaders, JsCall.headers, harg, Option.getD_none,
          List.append_nil]
        exact hdel
      | false =>
        obtain ⟨hpre, harg⟩ := hF hq2
        rw [hpre]
        simp only [deliveredHeaders, JsCall.headers, harg, Option.getD_some,
          List.append_nil, List.nil_append]
        exact hdel
  · intro fs1 f fs2 hsplit
    obtain ⟨q1, r1, r2, hq1, hs⟩ :=
      (header_run_checks fs q (by rw [hf0, hv0]) (by rw [hv0]; omega) hlim).2
        fs1 f fs2 hsplit
    exact ⟨q1, r1, hq1, hs.name, headerPairs_length _ _ _,
      hs.flushIff (hinst f (by rw [hsplit]; simp))⟩

/-- Witness of C25: thirty-three headers delivered to a host object with a
limit of 1000 bytes. The flush handler is called with 31 headers (62 entries)
when the thirty-second name arrives and with the other 2 headers (4 entries)
by `on_headers`; the headers-complete handler gets no array. -/
theorem headers_delivered_in_order_witness :
    (deliver limit1000 (headerEvents manyFields ++
        [Event.headers (Slot.returns none) (Slot.returns (some 0))])).map
      (fun r => r.2.map (fun c => c.headers.length)) = some [62, 4, 0] ∧
    (expectedHeaders manyFields).length = 66 ∧
    (∃ q2 flushes argv,
      deliver limit1000 (headerEvents manyFields ++
          [Event.headers (Slot.returns none) (Slot.returns (some 0))]) =
        some (q2, flushes ++ [JsCall.onHeadersComplete argv]) ∧
      (∀ c ∈ flushes, ∃ h u, c = JsCall.onHeaders h u) ∧
      (flushes = [] → argv.headers = some (expectedHeaders manyFields)) ∧
      (flushes ≠ [] → argv.headers = none) ∧
      deliveredHeaders (flushes ++ [JsCall.onHeadersComplete argv]) =
        expectedHeaders manyFields) :=
  ⟨by decide, by decide,
    (headers_delivered_in_order limit1000 manyFields (Slot.returns none)
      (Slot.returns (some 0)) rfl rfl rfl (by decide)
      (by
        intro f hf
        simp only [manyFields, List.mem_map] at hf
        obtain ⟨i, _, rfl⟩ := hf
        simp)
      (by simp) (by simp)).1⟩

theorem TrackTrailer_pass (q : Parser) (len : Nat)
    (h : (q.trailers_nread_ + len) % UINT64_MOD < q.max_http_trailer_size_) :
    TrackTrailer q len =
      (0, { q with trailers_nread_ := (q.trailers_nread_ + len) % UINT64_MOD }) := by
  unfold TrackTrailer
  simp only
  rw [if_neg (by simpa using h)]

theorem startTrailerField_room (q : Parser) (flush : Slot)
    (hlt : q.num_trailer_fields_ < 31) :
    startTrailerField q flush =
      ({ q with num_trailer_fields_ := q.num_trailer_fields_ + 1 }, []) := by
  have hm : (q.num_trailer_fields_ + 1) % UINT64_MOD = q.num_trailer_fields_ + 1 :=
    Nat.mod_eq_of_lt (by simp only [UINT64_MOD]; omega)
  have hne : ¬ (q.num_trailer_fields_ = 31) := by omega
  simp [startTrailerField, hm, kMaxHeaderFieldsCount, hne]

theorem startTrailerField_full (q : Parser) (flush : Slot)
    (h31 : q.num_trailer_fields_ = 31) :
    startTrailerField q flush =
      ({ (FlushTrailers { q with num_trailer_fields_ := 32 } flush).1 with
          num_trailer_fields_ := 1, num_trailer_values_ := 0 },
        (FlushTrailers { q with num_trailer_fields_ := 32 } flush).2) := by
  simp [startTrailerField, h31, kMaxHeaderFieldsCount, UINT64_MOD]

theorem on_trailer_name_room (q : Parser) (data : List Char) (len : Nat)
    (flush : Slot)
    (hlim : (q.trailers_nread_ + len) % UINT64_MOD < q.max_http_trailer_size_)
    (heq : q.num_trailer_fields_ = q.num_trailer_values_)
    (hlt : q.num_trailer_values_ < 31) :
    on_trailer_name q data len flush = some
      { rv := 0,
        parser := { q with
          trailers_nread_ := (q.trailers_nread_ + len) % UINT64_MOD,
          num_trailer_fields_ := q.num_trailer_values_ + 1,
          trailer_fields_ :=
            setAt q.trailer_fields_ q.num_trailer_values_ (data.take len) },
        calls := [] } := by
  have hlt2 : q.num_trailer_values_ + 1 < 32 := by omega
  unfold on_trailer_name
  simp only [TrackTrailer_pass q len hlim]
  rw [startTrailerField_room _ flush (by simpa [heq] using hlt)]
  simp [heq, kMaxHeaderFieldsCount, hlt2, Data.Set]

theorem on_trailer_name_full (q : Parser) (data : List Char) (len : Nat)
    (flush : Slot)
    (hlim : (q.trailers_nread_ + len) % UINT64_MOD < q.max_http_trailer_size_)
    (heq : q.num_trailer_fields_ = q.num_trailer_values_)
    (h31 : q.num_trailer_values_ = 31) :
    ∃ r, on_trailer_name q data len flush = some r ∧ r.rv = 0 ∧
      r.parser.num_trailer_fields_ = 1 ∧ r.parser.num_trailer_values_ = 0 ∧
      r.parser.trailers_nread_ = (q.trailers_nread_ + len) % UINT64_MOD ∧
      r.parser.max_http_trailer_size_ = q.max_http_trailer_size_ ∧
      trailerNameIndex q len flush = 0 := by
  unfold on_trailer_name trailerNameIndex
  simp only [TrackTrailer_pass q len hlim]
  rw [startTrailerField_full _ flush (by simpa [heq] using h31)]
  cases flush <;>
    simp [kMaxHeaderFieldsCount, FlushTrailers]

theorem on_trailer_value_pass (q : Parser) (data : List Char) (len : Nat)
    (hlim : (q.trailers_nread_ + len) % UINT64_MOD < q.max_http_trailer_size_)
    (heq : q.num_trailer_fields_ = q.num_trailer_values_ + 1)
    (hlt : q.num_trailer_fields_ < 32) :
    on_trailer_value q data len = some
      { rv := 0,
        parser := { q with
          trailers_nread_ := (q.trailers_nread_ + len) % UINT64_MOD,
          num_trailer_values_ := q.num_trailer_values_ + 1,
          trailer_values_ :=
            setAt q.trailer_values_ q.num_trailer_values_ (data.take len) },
        calls := [] } := by
  have hm : (q.num_trailer_values_ + 1) % UINT64_MOD = q.num_trailer_values_ + 1 :=
    Nat.mod_eq_of_lt (by simp only [UINT64_MOD]; omega)
  have hlt2 : q.num_trailer_values_ + 1 < 32 := by omega
  unfold on_trailer_value
  simp only [TrackTrailer_pass q len hlim]
  simp [heq, kMaxHeaderFieldsCount, hlt2, Data.Set, hm]

/-- One trailer, delivered to a host object whose two trailer counts agree and
are below 32: both callbacks pass their `CHECK`s, and the counts agree again
and lie between 1 and 31. -/
theorem trailer_pair_step (q : Parser) (f : HeaderField)
    (heq : q.num_trailer_fields_ = q.num_trailer_values_)
    (hlt : q.num_trailer_values_ < 32)
    (hl1 : (q.trailers_nread_ + f.name.length) % UINT64_MOD <
      q.max_http_trailer_size_)
    (hl2 : ((q.trailers_nread_ + f.name.length) % UINT64_MOD + f.value.length) %
      UINT64_MOD < q.max_http_trailer_size_) :
    ∃ r1 r2,
      on_trailer_name q f.name f.name.length f.flush = some r1 ∧ r1.rv = 0 ∧
      1 ≤ r1.parser.num_trailer_fields_ ∧
      r1.parser.num_trailer_fields_ < 32 ∧
      r1.parser.num_trailer_fields_ = r1.parser.num_trailer_values_ + 1 ∧
      trailerNameIndex q f.name.length f.flush =
        r1.parser.num_trailer_fields_ - 1 ∧
      on_trailer_value r1.parser f.value f.value.length = some r2 ∧ r2.rv = 0 ∧
      1 ≤ r2.parser.num_trailer_values_ ∧
      r2.parser.num_trailer_values_ < 32 ∧
      r2.parser.num_trailer_values_ = r2.parser.num_trailer_fields_ ∧
      trailerValueIndex r1.parser f.value.length =
        r2.parser.num_trailer_values_ - 1 ∧
      r2.parser.trailers_nread_ =
        ((q.trailers_nread_ + f.name.length) % UINT64_MOD + f.value.length) %
          UINT64_MOD ∧
      r2.parser.max_http_trailer_size_ = q.max_http_trailer_size_ := by
  obtain ⟨r1, hr1, hrv, hf1, hv1, hn, hm, hidx⟩ :
      ∃ r, on_trailer_name q f.name f.name.length f.flush = some r ∧ r.rv = 0 ∧
        r.parser.num_trailer_fields_ =
          (if q.num_trailer_values_ = 31 then 1 else q.num_trailer_values_ + 1) ∧
        r.parser.num_trailer_values_ =
          (if q.num_trailer_values_ = 31 then 0 else q.num_trailer_values_) ∧
        r.parser.trailers_nread_ =
          (q.trailers_nread_ + f.name.length) % UINT64_MOD ∧
        r.parser.max_http_trailer_size_ = q.max_http_trailer_size_ ∧
        trailerNameIndex q f.name.length f.flush =
          (if q.num_trailer_values_ = 31 then 0 else q.num_trailer_values_) := by
    by_cases h31 : q.num_trailer_values_ = 31
    · obtain ⟨r, h1, h2, h3, h4, h5, h6, h7⟩ :=
        on_trailer_name_full q f.name f.name.length f.flush hl1 heq h31
      exact ⟨r, h1, h2, by simp [h31, h3], by simp [h31, h4], h5, h6,
        by simp [h31, h7]⟩
    · have hlt31 : q.num_trailer_values_ < 31 := by omega
      refine ⟨_, on_trailer_name_room q f.name f.name.length f.flush hl1 heq
        hlt31, rfl, by simp [h31], by simp [h31], rfl, rfl, ?_⟩
      unfold trailerNameIndex
      rw [TrackTrailer_pass q f.name.length hl1,
        startTrailerField_room _ f.flush
          (by show q.num_trailer_fields_ < 31; omega)]
      show q.num_trailer_fields_ + 1 - 1 = _
      simp [h31, heq]
  have hv1lt : r1.parser.num_trailer_values_ < 31 := by
    rw [hv1]
    split <;> omega
  have hfv : r1.parser.num_trailer_fields_ = r1.parser.num_trailer_values_ + 1 := by
    rw [hf1, hv1]
    split <;> rfl
  have hmod : (r1.parser.num_trailer_values_ + 1) % UINT64_MOD =
      r1.parser.num_trailer_values_ + 1 :=
    Nat.mod_eq_of_lt (by simp only [UINT64_MOD]; omega)
  have hv := on_trailer_value_pass r1.parser f.value f.value.length
    (by rw [hn, hm]; exact hl2) hfv (by omega)
  refine ⟨r1, _, hr1, hrv, by omega, by omega, hfv, ?_, hv, rfl, by simp,
    by simp; omega, by simp [hfv], ?_, by simp [hn], by simp [hm]⟩
  · rw [hidx, hfv, hv1]
    simp
  · simp [trailerValueIndex, TrackTrailer_pass r1.parser f.value.length
      (by rw [hn, hm]; exact hl2), hmod]

theorem trailer_run_checks :
    ∀ (fs : List HeaderField) (q : Parser),
      q.num_trailer_fields_ = q.num_trailer_values_ →
      q.num_trailer_values_ < 32 →
      withinLimit q.trailers_nread_ q.max_http_trailer_size_ (fieldLengths fs) = true →
      (∃ q2, runEvents q (trailerEvents fs) = some q2) ∧
      ∀ fs1 f fs2, fs = fs1 ++ f :: fs2 →
        ∃ q1 r1 r2, runEvents q (trailerEvents fs1) = some q1 ∧
          TrailerStep q1 f r1 r2
  | [], q, _, _, _ => by
    refine ⟨⟨q, rfl⟩, ?_⟩
    intro fs1 f fs2 h
    exact absurd h (by simp)
  | f0 :: rest, q, heq, hlt, hlim => by
    simp only [fieldLengths, withinLimit, Bool.and_eq_true, decide_eq_true_eq] at hlim
    obtain ⟨hl1, hl2, hl3⟩ := hlim
    obtain ⟨r1, r2, hn, hrv1, hpos1, hlt1, heq1, hidx1, hv, hrv2, hpos2, hlt2,
      heq2, hidx2, hnread, hmax⟩ := trailer_pair_step q f0 heq hlt hl1 hl2
    have ih := trailer_run_checks rest r2.parser heq2.symm hlt2
      (by rw [hnread, hmax]; exact hl3)
    have hstep : TrailerStep q f0 r1 r2 :=
      { entryName := heq, name := hn, nameReturns := hrv1, fieldsLt := hlt1,
        fieldsEq := heq1, fieldsPos := hpos1,
        nameIndex := by rw [hidx1]; simp only [kMaxHeaderFieldsCount]; omega,
        entryValue := by omega, value := hv, valueReturns := hrv2,
        valuesLt := hlt2, valuesEq := heq2, valuesPos := hpos2,
        valueIndex := by rw [hidx2]; simp only [kMaxHeaderFieldsCount]; omega }
    have hrun : ∀ es, runEvents q (Event.trailer_name f0.name f0.name.length f0.flush ::
        Event.trailer_value f0.value f0.value.length :: es) =
        runEvents r2.parser es := by
      intro es
      simp [runEvents, Event.run, hn, hv]
    refine ⟨?_, ?_⟩
    · obtain ⟨q2, hq2⟩ := ih.1
      exact ⟨q2, by rw [trailerEvents, hrun]; exact hq2⟩
    · intro fs1 f fs2 hsplit
      cases fs1 with
      | nil =>
        simp only [List.nil_append, List.cons.injEq] at hsplit
        obtain ⟨hf, _⟩ := hsplit
        subst hf
        exact ⟨q, r1, r2, rfl, hstep⟩
      | cons g fs1 =>
        simp only [List.cons_append, List.cons.injEq] at hsplit
        obtain ⟨hg, hrest⟩ := hsplit
        subst hg
        obtain ⟨q1, s1, s2, hq1, hs⟩ := ih.2 fs1 f fs2 hrest
        exact ⟨q1, s1, s2, by rw [trailerEvents, hrun]; exact hq1, hs⟩

/-- C26: the `CHECK`s of the header and trailer buffers never fail. Starting
from `num_header_fields_ == num_header_values_ == 0`, for every sequence of
strictly alternating `on_header_name` / `on_header_value` callbacks of any
length, each within the size limit, the whole sequence runs without a failed
`CHECK`, and at every header of the sequence: the counts agree on entry to the
name; after the name `fields < 32` and `fields == values + 1`; the counts
differ on entry to the value; after the value `values < 32` and
`values == fields`; and the indices used into `header_fields_` and
`header_values_` are below 32 (the counts they are computed from are at least
1). The same holds for `on_trailer_name` / `on_trailer_value` and the trailer
arrays. -/
theorem buffer_checks_hold (q : Parser) (hs ts : List HeaderField)
    (hf0 : q.num_header_fields_ = 0) (hv0 : q.num_header_values_ = 0)
    (hlim : withinLimit q.heades_nread_ q.max_http_header_size_
      (fieldLengths hs) = true)
    (tf0 : q.num_trailer_fields_ = 0) (tv0 : q.num_trailer_values_ = 0)
    (tlim : withinLimit q.trailers_nread_ q.max_http_trailer_size_
      (fieldLengths ts) = true) :
    ((∃ q2, runEvents q (headerEvents hs) = some q2) ∧
      ∀ hs1 f hs2, hs = hs1 ++ f :: hs2 →
        ∃ q1 r1 r2, runEvents q (headerEvents hs1) = some q1 ∧
          HeaderStep q1 f r1 r2) ∧
    ((∃ q2, runEvents q (trailerEvents ts) = some q2) ∧
      ∀ ts1 f ts2, ts = ts1 ++ f :: ts2 →
        ∃ q1 r1 r2, runEvents q (trailerEvents ts1) = some q1 ∧
          TrailerStep q1 f r1 r2) :=
  ⟨header_run_checks hs q (by rw [hf0, hv0]) (by rw [hv0]; omega) hlim,
    trailer_run_checks ts q (by rw [tf0, tv0]) (by rw [tv0]; omega) tlim⟩

/-- Witness of C26: thirty-three headers, and as many trailers, delivered to a
host object with limits of 1000 bytes; the buffers are flushed once and hold
two fields afterwards. -/
theorem buffer_checks_hold_witness :
    (runEvents limit1000 (headerEvents manyFields)).map
      (fun q => (q.num_header_fields_, q.num_header_values_, q.headers_flushed_)) =
      some (2, 2, true) ∧
    (runEvents limit1000 (trailerEvents manyFields)).map
      (fun q => (q.num_trailer_fields_, q.num_trailer_values_, q.trailers_flushed_)) =
      some (2, 2, true) ∧
    (∃ q2, runEvents limit1000 (headerEvents manyFields) = some q2) ∧
    (∃ q2, runEvents limit1000 (trailerEvents manyFields) = some q2) :=
  ⟨by decide, by decide,
    (buffer_checks_hold limit1000 manyFields manyFields rfl rfl (by decide)
      rfl rfl (by decide)).1.1,
    (buffer_checks_hold limit1000 manyFields manyFields rfl rfl (by decide)
      rfl rfl (by decide)).2.1⟩

/-! ## The order of the sets along a run -/

theorem Sorted_init : Sorted Tracker.init.state [] := by
  refine ⟨by simp [Tracker.init, Ordered], by simp [Tracker.init, Ordered],
    by simp [Tracker.init], by simp [Tracker.init], by simp [Tracker.init],
    ?_, ?_⟩
  · intro p hp
    exact absurd rfl hp
  · intro p q _ hp
    exact absurd rfl hp

theorem lmsUsed_store (h : Heap) (p : Nat) (v : Parser) (readings readings2 : List Nat)
    (hu : ∀ a, (h a).last_message_start_ ≠ 0 → (h a).last_message_start_ ∈ readings)
    (hsub : ∀ x ∈ readings, x ∈ readings2)
    (hv : v.last_message_start_ = (h p).last_message_start_ ∨
      v.last_message_start_ = 0 ∨ v.last_message_start_ ∈ readings2) :
    ∀ a, (Heap.store h p v a).last_message_start_ ≠ 0 →
      (Heap.store h p v a).last_message_start_ ∈ readings2 := by
  intro z hz
  by_cases hzp : z = p
  · subst hzp
    rw [Heap.store_same] at hz ⊢
    rcases hv with hv | hv | hv
    · rw [hv] at hz ⊢
      exact hsub _ (hu z hz)
    · exact absurd hv hz
    · exact hv
  · rw [Heap.store_other _ _ _ _ hzp] at hz ⊢
    exact hsub _ (hu z hz)

theorem distinct_store (h : Heap) (p : Nat) (v : Parser) (readings : List Nat)
    (hu : ∀ a, (h a).last_message_start_ ≠ 0 → (h a).last_message_start_ ∈ readings)
    (hd : ∀ a b, a ≠ b → (h a).last_message_start_ ≠ 0 →
      (h a).last_message_start_ ≠ (h b).last_message_start_)
    (hv : v.last_message_start_ = (h p).last_message_start_ ∨
      v.last_message_start_ = 0 ∨ v.last_message_start_ ∉ readings) :
    ∀ a b, a ≠ b → (Heap.store h p v a).last_message_start_ ≠ 0 →
      (Heap.store h p v a).last_message_start_ ≠
        (Heap.store h p v b).last_message_start_ := by
  rcases hv with hv | hv
  · have hsame : ∀ z, (Heap.store h p v z).last_message_start_ =
        (h z).last_message_start_ := by
      intro z
      by_cases hzp : z = p
      · subst hzp
        rw [Heap.store_same, hv]
      · rw [Heap.store_other _ _ _ _ hzp]
    intro a b hab ha
    rw [hsame a] at ha ⊢
    rw [hsame b]
    exact hd a b hab ha
  · exact (store_distinct h p v readings hu hd hv).2

/-- Writing the object of a parser that is not a member of `all`. -/
theorem Sorted_store (s : State) (readings readings2 : List Nat) (p : Nat)
    (v : Parser) (hs : Sorted s readings) (hp : p ∉ s.all_connections_)
    (hsub : ∀ x ∈ readings, x ∈ readings2)
    (hv : v.last_message_start_ = (s.parsers p).last_message_start_ ∨
      v.last_message_start_ = 0 ∨
      (v.last_message_start_ ∉ readings ∧ v.last_message_start_ ∈ readings2)) :
    Sorted (storeParser s p v) readings2 := by
  have hpa : p ∉ s.active_connections_ := fun h => hp (hs.activeInAll p h)
  refine ⟨Ordered_store _ p v _ hp hs.ordAll, Ordered_store _ p v _ hpa hs.ordActive,
    hs.activeInAll, ?_, ?_, ?_, ?_⟩
  · intro z hz
    have hzp : z ≠ p := fun h => hp (h ▸ hz)
    show (Heap.store s.parsers p v z).connectionsList_ = true
    rw [Heap.store_other _ _ _ _ hzp]
    exact hs.hasList z hz
  · intro z hz
    have hzp : z ≠ p := fun h => hpa (h ▸ hz)
    show (Heap.store s.parsers p v z).last_message_start_ ≠ 0
    rw [Heap.store_other _ _ _ _ hzp]
    exact hs.activeStarted z hz
  · exact lmsUsed_store s.parsers p v readings readings2 hs.lmsUsed hsub (by
      rcases hv with hv | hv | hv
      · exact Or.inl hv
      · exact Or.inr (Or.inl hv)
      · exact Or.inr (Or.inr hv.2))
  · exact distinct_store s.parsers p v readings hs.lmsUsed hs.distinct (by
      rcases hv with hv | hv | hv
      · exact Or.inl hv
      · exact Or.inr (Or.inl hv)
      · exact Or.inr (Or.inr hv.1))

/-- Re-keying a parser that has the list pointer to the timestamp 0 (then it
leaves `active`) or to a fresh reading (then it is in `active`). -/
theorem Sorted_rekey (s : State) (readings readings2 : List Nat) (p : Nat)
    (v : Parser) (both : Bool) (hs : Sorted s readings)
    (hl : v.connectionsList_ = true)
    (hsub : ∀ x ∈ readings, x ∈ readings2)
    (hv : (both = false ∧ v.last_message_start_ = 0) ∨
      (both = true ∧ v.last_message_start_ ≠ 0 ∧
        v.last_message_start_ ∉ readings ∧ v.last_message_start_ ∈ readings2)) :
    Sorted
      { parsers := Heap.store s.parsers p v,
        all_connections_ :=
          setInsert (ParserComparator (Heap.store s.parsers p v)) p
            (setErase (ParserComparator s.parsers) p s.all_connections_),
        active_connections_ :=
          if both then
            setInsert (ParserComparator (Heap.store s.parsers p v)) p
              (setErase (ParserComparator s.parsers) p s.active_connections_)
          else
            setErase (ParserComparator s.parsers) p s.active_connections_ }
      readings2 := by
  have hf : v.last_message_start_ = 0 ∨ v.last_message_start_ ∉ readings := by
    rcases hv with hv | hv
    · exact Or.inl hv.2
    · exact Or.inr hv.2.2.1
  have sd := store_distinct s.parsers p v readings hs.lmsUsed hs.distinct hf
  have mA := rekey_mem_fresh s.parsers p v _ hs.ordAll hs.distinct sd.1
  have mB := rekey_mem_fresh s.parsers p v _ hs.ordActive hs.distinct sd.1
  have eB := erase_mem_distinct s.parsers p _ hs.ordActive hs.distinct
  have elB := erase_left s.parsers p _ hs.ordActive
  refine ⟨(rekey s.parsers p v _ hs.ordAll).1, ?_, ?_, ?_, ?_, ?_, sd.2⟩
  · cases both
    · exact Ordered_store _ p v _ elB.2.1 elB.1
    · exact (rekey s.parsers p v _ hs.ordActive).1
  · intro z hz
    apply (mA z).mpr
    cases both
    · exact Or.inr (hs.activeInAll z ((eB z).mp hz).1)
    · rcases (mB z).mp hz with h | h
      · exact Or.inl h
      · exact Or.inr (hs.activeInAll z h)
  · intro z hz
    show (Heap.store s.parsers p v z).connectionsList_ = true
    by_cases hzp : z = p
    · subst hzp
      rw [Heap.store_same]
      exact hl
    · rw [Heap.store_other _ _ _ _ hzp]
      rcases (mA z).mp hz with h | h
      · exact absurd h hzp
      · exact hs.hasList z h
  · intro z hz
    show (Heap.store s.parsers p v z).last_message_start_ ≠ 0
    by_cases hzp : z = p
    · subst hzp
      rw [Heap.store_same]
      rcases hv with hv | hv
      · rw [hv.1] at hz
        exact absurd rfl ((eB z).mp hz).2
      · exact hv.2.1
    · rw [Heap.store_other _ _ _ _ hzp]
      cases both
      · exact hs.activeStarted z ((eB z).mp hz).1
      · rcases (mB z).mp hz with h | h
        · exact absurd h hzp
        · exact hs.activeStarted z h
  · exact lmsUsed_store s.parsers p v readings readings2 hs.lmsUsed hsub (by
      rcases hv with hv | hv
      · exact Or.inr (Or.inl hv.2)
      · exact Or.inr (Or.inr hv.2.2.2))

/-- `Initialize` with a list, on a parser that is not a member of `all`, at a
fresh reading. -/
theorem Sorted_insert (s : State) (readings : List Nat) (p : Nat) (v : Parser)
    (hs : Sorted s readings) (hp : p ∉ s.all_connections_)
    (hl : v.connectionsList_ = true)
    (hv0 : v.last_message_start_ ≠ 0)
    (hvf : v.last_message_start_ ∉ readings) :
    Sorted
      { parsers := Heap.store s.parsers p v,
        all_connections_ :=
          setInsert (ParserComparator (Heap.store s.parsers p v)) p
            s.all_connections_,
        active_connections_ :=
          setInsert (ParserComparator (Heap.store s.parsers p v)) p
            s.active_connections_ }
      (v.last_message_start_ :: readings) := by
  have hpa : p ∉ s.active_connections_ := fun h => hp (hs.activeInAll p h)
  have sd := store_distinct s.parsers p v readings hs.lmsUsed hs.distinct
    (Or.inr hvf)
  have hv2 : ∀ y, y ≠ p →
      ((Heap.store s.parsers p v y).last_message_start_ ≠
          (Heap.store s.parsers p v p).last_message_start_ ∨
        (Heap.store s.parsers p v y).last_message_start_ = 0) := by
    intro y hy
    rw [Heap.store_other _ _ _ _ hy, Heap.store_same]
    exact sd.1 y hy
  have oA := Ordered_store _ p v _ hp hs.ordAll
  have oB := Ordered_store _ p v _ hpa hs.ordActive
  have mA := insert_mem_fresh (Heap.store s.parsers p v) p _ oA hp hv2
  have mB := insert_mem_fresh (Heap.store s.parsers p v) p _ oB hpa hv2
  refine ⟨(insert_fresh _ p _ oA hp).1, (insert_fresh _ p _ oB hpa).1,
    ?_, ?_, ?_, ?_, sd.2⟩
  · intro z hz
    apply (mA z).mpr
    rcases (mB z).mp hz with h | h
    · exact Or.inl h
    · exact Or.inr (hs.activeInAll z h)
  · intro z hz
    show (Heap.store s.parsers p v z).connectionsList_ = true
    by_cases hzp : z = p
    · subst hzp
      rw [Heap.store_same]
      exact hl
    · rw [Heap.store_other _ _ _ _ hzp]
      rcases (mA z).mp hz with h | h
      · exact absurd h hzp
      · exact hs.hasList z h
  · intro z hz
    show (Heap.store s.parsers p v z).last_message_start_ ≠ 0
    by_cases hzp : z = p
    · subst hzp
      rw [Heap.store_same]
      exact hv0
    · rw [Heap.store_other _ _ _ _ hzp]
      rcases (mB z).mp hz with h | h
      · exact absurd h hzp
      · exact hs.activeStarted z h
  · exact lmsUsed_store s.parsers p v readings _ hs.lmsUsed
      (fun x hx => List.mem_cons_of_mem _ hx)
      (Or.inr (Or.inr (List.mem_cons_self _ _)))

theorem Sorted_step (g : Ghost) (op : Op) (hs : Sorted g.t.state g.readings)
    (hok : initializeOnNonMember g.t op = true) (hfr : freshReading g op = true) :
    Sorted (Op.applyGhost g op).t.state (Op.applyGhost g op).readings := by
  cases op with
  | init p arg2 env_max withList now =>
    have hp : p ∉ g.t.state.all_connections_ := by
      simpa [initializeOnNonMember] using hok
    cases withList
    · have := Sorted_store g.t.state g.readings g.readings p
        (initializeFields (g.t.state.parsers p) arg2 env_max false) hs hp
        (fun x hx => hx) (Or.inl (initializeFields_timestamp _ _ _ _))
      simpa [Op.applyGhost, Op.apply, Op.reading, Initialize] using this
    · have hfr2 : now ≠ 0 ∧ now ∉ g.readings := by
        simpa [freshReading, Op.reading] using hfr
      have := Sorted_insert g.t.state g.readings p
        (initializeTimestamp
          (initializeFields (g.t.state.parsers p) arg2 env_max true) now)
        hs hp (by simp [initializeTimestamp, initializeFields])
        (by simpa [initializeTimestamp] using hfr2.1)
        (by simpa [initializeTimestamp] using hfr2.2)
      simpa [Op.applyGhost, Op.apply, Op.reading, Initialize_eq,
        initializeTimestamp] using this
  | messageStart p now =>
    have hfr2 : now ≠ 0 ∧ now ∉ g.readings := by
      simpa [freshReading, Op.reading] using hfr
    cases hl : (g.t.state.parsers p).connectionsList_ with
    | true =>
      have := Sorted_rekey g.t.state g.readings (now :: g.readings) p
        (messageStartFields (g.t.state.parsers p) now) true hs
        (by simpa [messageStartFields] using hl)
        (fun x hx => List.mem_cons_of_mem _ hx)
        (Or.inr ⟨rfl, by simpa [messageStartFields] using hfr2.1,
          by simpa [messageStartFields] using hfr2.2,
          by simp [messageStartFields]⟩)
      simpa [Op.applyGhost, Op.apply, Op.reading,
        on_message_start_eq g.t.state p now hl] using this
    | false =>
      have hp : p ∉ g.t.state.all_connections_ := by
        intro hm
        have := hs.hasList p hm
        rw [hl] at this
        exact Bool.noConfusion this
      have := Sorted_store g.t.state g.readings (now :: g.readings) p
        (messageStartFields (g.t.state.parsers p) now) hs hp
        (fun x hx => List.mem_cons_of_mem _ hx)
        (Or.inr (Or.inr ⟨by simpa [messageStartFields] using hfr2.2,
          by simp [messageStartFields]⟩))
      simpa [Op.applyGhost, Op.apply, Op.reading,
        on_message_start_noList g.t.state p now hl, storeParser] using this
  | messageComplete p =>
    cases hl : (g.t.state.parsers p).connectionsList_ with
    | true =>
      have := Sorted_rekey g.t.state g.readings g.readings p
        (messageCompleteFields (g.t.state.parsers p)) false hs
        (by simpa [messageCompleteFields] using hl)
        (fun x hx => hx)
        (Or.inl ⟨rfl, by simp [messageCompleteFields]⟩)
      simpa [Op.applyGhost, Op.apply, Op.reading,
        on_message_complete_eq g.t.state p hl] using this
    | false =>
      have hp : p ∉ g.t.state.all_connections_ := by
        intro hm
        have := hs.hasList p hm
        rw [hl] at this
        exact Bool.noConfusion this
      have := Sorted_store g.t.state g.readings g.readings p
        (messageCompleteFields (g.t.state.parsers p)) hs hp
        (fun x hx => hx)
        (Or.inr (Or.inl (by simp [messageCompleteFields])))
      simpa [Op.applyGhost, Op.apply, Op.reading,
        on_message_complete_noList g.t.state p hl, storeParser] using this
  | remove p =>
    simp only [Op.applyGhost, Op.apply, Op.reading, Remove]
    cases hl : (g.t.state.parsers p).connectionsList_ with
    | true =>
      have eA := erase_mem_distinct g.t.state.parsers p _ hs.ordAll hs.distinct
      have eB := erase_mem_distinct g.t.state.parsers p _ hs.ordActive hs.distinct
      rw [popFromLists_eq g.t.state p hl]
      refine ⟨(erase_left _ p _ hs.ordAll).1, (erase_left _ p _ hs.ordActive).1,
        ?_, ?_, ?_, hs.lmsUsed, hs.distinct⟩
      · intro z hz
        have h := (eB z).mp hz
        exact (eA z).mpr ⟨hs.activeInAll z h.1, h.2⟩
      · intro z hz
        exact hs.hasList z ((eA z).mp hz).1
      · intro z hz
        exact hs.activeStarted z ((eB z).mp hz).1
    | false =>
      rw [popFromLists_noList g.t.state p hl]
      exact hs
  | expired arg0 arg1 now =>
    have hfix := Expired_frame g.t.state arg0 arg1 now
    have hsub := Expired_sublist g.t.state arg0 arg1 now hs.ordActive
    simp only [Op.applyGhost, Op.apply, Op.reading]
    refine ⟨?_, ?_, ?_, ?_, ?_, ?_, ?_⟩
    · show Ordered (ParserComparator (Expired g.t.state arg0 arg1 now).2.parsers)
        (Expired g.t.state arg0 arg1 now).2.all_connections_
      rw [hfix.1, hfix.2]
      exact hs.ordAll
    · show Ordered (ParserComparator (Expired g.t.state arg0 arg1 now).2.parsers)
        (Expired g.t.state arg0 arg1 now).2.active_connections_
      rw [hfix.2]
      exact List.Pairwise.sublist hsub hs.ordActive
    · intro z hz
      show z ∈ (Expired g.t.state arg0 arg1 now).2.all_connections_
      rw [hfix.1]
      exact hs.activeInAll z (hsub.subset hz)
    · intro z hz
      have hz2 : z ∈ (Expired g.t.state arg0 arg1 now).2.all_connections_ := hz
      show ((Expired g.t.state arg0 arg1 now).2.parsers z).connectionsList_ = true
      rw [hfix.1] at hz2
      rw [hfix.2]
      exact hs.hasList z hz2
    · intro z hz
      show ((Expired g.t.state arg0 arg1 now).2.parsers z).last_message_start_ ≠ 0
      rw [hfix.2]
      exact hs.activeStarted z (hsub.subset hz)
    · intro z hz
      have hz2 : ((Expired g.t.state arg0 arg1 now).2.parsers z).last_message_start_
          ≠ 0 := hz
      show ((Expired g.t.state arg0 arg1 now).2.parsers z).last_message_start_ ∈
        now :: g.readings
      rw [hfix.2] at hz2 ⊢
      exact List.mem_cons_of_mem _ (hs.lmsUsed z hz2)
    · intro a b hab ha
      have ha2 : ((Expired g.t.state arg0 arg1 now).2.parsers a).last_message_start_
          ≠ 0 := ha
      show ((Expired g.t.state arg0 arg1 now).2.parsers a).last_message_start_ ≠
        ((Expired g.t.state arg0 arg1 now).2.parsers b).last_message_start_
      rw [hfix.2] at ha2 ⊢
      exact hs.distinct a b hab ha2

theorem Sorted_run :
    ∀ (ops : List Op) (g0 g : Ghost), Sorted g0.t.state g0.readings →
      runGhost initializeOnNonMember g0 ops = some g →
      Sorted g.t.state g.readings
  | [], g0, g, hs, hrun => by
    simp only [runGhost, Option.some.injEq] at hrun
    exact hrun ▸ hs
  | op :: ops, g0, g, hs, hrun => by
    by_cases hok : (initializeOnNonMember g0.t op && freshReading g0 op) = true
    · simp only [runGhost, hok, if_true] at hrun
      have hok2 : initializeOnNonMember g0.t op = true ∧
          freshReading g0 op = true := by
        simpa using hok
      exact Sorted_run ops _ g (Sorted_step g0 op hs hok2.1 hok2.2) hrun
    · simp [runGhost, hok] at hrun

/-- C24, counterexample: parser 1 is initialized (clock 5), removed, and then
starts a message (clock 6), which puts it back into both sets although it has
been removed and so is not tracked; parser 2 is initialized (clock 7). Parser
1, untracked, is initialized again, this time without a list: that clears its
list pointer and leaves it in the sets. When it starts a message (clock 8) the
callback assigns the timestamp without touching the sets, so both sets still
read parser 1 before parser 2, now with the timestamps 8 and 7, and are not
sorted. In the second run parser 1 completes its message instead, and stays a
member of `active` with the timestamp 0. In both runs every set operation is
made on a sorted set, all clock readings are non-zero and distinct, and
`Initialize` is applied to untracked parsers only; neither run applies
`Initialize` to non-members of `all` only. -/
theorem rekeyed_in_place_sets_unsorted :
    (runGhost initializeOnUntracked Ghost.init reinitOps).map
      (fun g => (g.t.state.all_connections_, g.t.state.active_connections_,
        (g.t.state.parsers 1).last_message_start_,
        (g.t.state.parsers 2).last_message_start_,
        decide (Ordered (ParserComparator g.t.state.parsers)
          g.t.state.all_connections_),
        decide (Ordered (ParserComparator g.t.state.parsers)
          g.t.state.active_connections_))) =
      some ([1, 2], [1, 2], 8, 7, false, false) ∧
    (runGhost initializeOnUntracked Ghost.init reinitIdleOps).map
      (fun g => (g.t.state.all_connections_, g.t.state.active_connections_,
        (g.t.state.parsers 1).last_message_start_)) =
      some ([1], [1], 0) ∧
    (runGhost initializeOnNonMember Ghost.init reinitOps).isNone = true ∧
    (runGhost initializeOnNonMember Ghost.init reinitIdleOps).isNone = true := by
  decide

/-- C24 as amended: assuming every clock reading is non-zero and no two clock
readings are equal, in every state reached by `Initialize` (on a parser that is
not a member of `all`), `on_message_start`, `on_message_complete`, `Remove` and
`Expired`, both `all` and `active` are strictly sorted by `ParserComparator`
with respect to the current timestamps, `active` is a subset of `all`, and
every member of `active` has a non-zero `last_message_start_`. -/
theorem sets_sorted_along_run (ops : List Op) (g : Ghost)
    (hrun : runGhost initializeOnNonMember Ghost.init ops = some g) :
    Ordered (ParserComparator g.t.state.parsers) g.t.state.all_connections_ ∧
    Ordered (ParserComparator g.t.state.parsers) g.t.state.active_connections_ ∧
    (∀ p ∈ g.t.state.active_connections_, p ∈ g.t.state.all_connections_) ∧
    (∀ p ∈ g.t.state.active_connections_,
      (g.t.state.parsers p).last_message_start_ ≠ 0) := by
  have hs := Sorted_run ops Ghost.init g Sorted_init hrun
  exact ⟨hs.ordAll, hs.ordActive, hs.activeInAll, hs.activeStarted⟩

/-- Witness of C24 as amended: the run `lateCallbackOps`, in which a removed
parser starts a message; afterwards both sets are `[1, 2]` with the timestamps
6 and 7. -/
theorem sets_sorted_along_run_witness :
    (runGhost initializeOnNonMember Ghost.init lateCallbackOps).map
      (fun g => (g.t.state.all_connections_, g.t.state.active_connections_,
        (g.t.state.parsers 1).last_message_start_,
        (g.t.state.parsers 2).last_message_start_)) =
      some ([1, 2], [1, 2], 6, 7) ∧
    Ordered
      (ParserComparator
        (lateCallbackOps.foldl Op.applyGhost Ghost.init).t.state.parsers)
      (lateCallbackOps.foldl Op.applyGhost Ghost.init).t.state.all_connections_ :=
  ⟨by decide,
    (sets_sorted_along_run lateCallbackOps
      (lateCallbackOps.foldl Op.applyGhost Ghost.init) rfl).1⟩

end NodeHttpParser
